import Mathlib

/-!
# Attendance marking and event course access (tazamandy/newset)

A shallow embedding of `services/attendance_service.go`:
`determineTimeStatus`, `applyCheckIn`, `applyCheckOut`, `enforceEventCourseAccess`,
`findOrInitAttendance`, `persistAttendance`, `createAttendanceRaw` and `MarkAttendance`,
of the handler `MarkAttendance` of `controller/attendance_controller.go` with
`getUserAndCheckPermissions`, and of `services/event_service.go`:
`updateStudentQRCodesForEvent`, `RevertStudentQRCodesForEvent`,
`CheckAndUpdateCompletedEvents`, `UpdateEvent`, `DeleteEvent`, `parseEventDateTimes`,
`setTaggedCoursesFromRequest`, `parseTaggedCoursesCSV`, `isUserAllowedForEvent` and
`populateTaggedCoursesAndAllowed`, of `GetAttendanceStats`, and of `ValidatePassword` and
`SanitizeString` of `utils/validation.go`, together with the records of `models/` they read
and write.

Conventions of the embedding

* `time.Time` is an `Int` count of nanoseconds on one time line and `time.Duration` an `Int`
  count of nanoseconds; `Add`, `Before` and `After` are `+`, `<` and `>`.
* The wall clock read by `time.Now()` is an explicit argument `now`.
* A pointer argument that the Go code mutates (`att *models.Attendance`) becomes a value that
  is returned next to the error, so that the record after a failed call can be inspected.
* Go `error` values are the constructors of `Err`; `Err.Error` gives the message text.
* The relational store is a record of row lists; `First` returns the matching row with the
  least primary key, `Save` rewrites the row with the same primary key, and an insert that
  omits `id` draws the key from the table sequence.
* `unicode.ToUpper`, a table of the Go standard library, is the argument `up` of `ToUpper`.
* The fire-and-forget notification goroutines only send mail and are left out.
* `qrcode.Encode` followed by the base64 encoding is the argument `enc`; `none` is its error.
* A goroutine that changes the store (`UpdateEvent`, `DeleteEvent`) is returned as a job to
  run.
* A `*gorm.DB` value that a chain method has returned is a `Query`: a later chain method on it
  adds its condition to the statement of that same value (`gorm.io/gorm` clones the statement
  only for a value that starts a new session, such as `connection.DB`).
* `unicode.ToLower` is the argument `low` of `ToLower`; `len(s)` of a string is its UTF-8
  byte count.
-/

namespace Newset

/-! ## Time -/

/-- Instants of `time.Time`, in nanoseconds since the Unix epoch. -/
abbrev Time := Int

/-- Values of `time.Duration`, in nanoseconds. -/
abbrev Duration := Int

/-- The constant `time.Second`. -/
def Second : Duration := 1000000000

/-- The constant `time.Minute`. -/
def Minute : Duration := 60 * Second

/-- The constant `time.Hour`. -/
def Hour : Duration := 60 * Minute

/-- The method `Time.Add`. -/
def Time.Add (t : Time) (d : Duration) : Time := t + d

/-- The method `Time.Sub`. -/
def Time.Sub (t u : Time) : Duration := t - u

/-- The method `Time.Before`. -/
def Time.Before (t u : Time) : Bool := decide (t < u)

/-- The method `Time.After`. -/
def Time.After (t u : Time) : Bool := decide (u < t)

/-- The zero `time.Time` (January 1, year 1, 00:00 UTC). -/
def zeroTime : Time := -62135596800 * Second

/-! ## Strings -/

/-- The predicate `unicode.IsSpace`: the Latin-1 spaces and the code points with the
Unicode White_Space property. -/
def isSpace (c : Char) : Bool :=
  let n := c.toNat
  (0x09 ≤ n && n ≤ 0x0D) || n == 0x20 || n == 0x85 || n == 0xA0 || n == 0x1680 ||
  (0x2000 ≤ n && n ≤ 0x200A) || n == 0x2028 || n == 0x2029 || n == 0x202F ||
  n == 0x205F || n == 0x3000

/-- The function `strings.TrimSpace`: leading and trailing white space removed. -/
def TrimSpace (s : String) : String :=
  ⟨((s.data.dropWhile isSpace).reverse.dropWhile isSpace).reverse⟩

/-- The function `strings.ToUpper`, a rune-by-rune map of `unicode.ToUpper` (here `up`). -/
def ToUpper (up : Char → Char) (s : String) : String :=
  ⟨s.data.map up⟩

/-- Pieces of a rune list between occurrences of the separator rune. -/
def splitRunes (sep : Char) : List Char → List (List Char)
  | [] => [[]]
  | c :: cs =>
    if c = sep then [] :: splitRunes sep cs
    else
      match splitRunes sep cs with
      | [] => [[c]]
      | p :: ps => (c :: p) :: ps

/-- The function `strings.Split` for a one-rune separator; `Split "" sep` is `[""]`. -/
def Split (s : String) (sep : Char) : List String :=
  (splitRunes sep s.data).map String.mk

/-- ASCII upper-casing, the restriction of `unicode.ToUpper` to ASCII; used at concrete
inputs. -/
def asciiUpper (c : Char) : Char :=
  if 97 ≤ c.toNat ∧ c.toNat ≤ 122 then Char.ofNat (c.toNat - 32) else c

/-! ## Records of `models/` -/

/-- The struct `models.User`. -/
structure User where
  ID : Nat
  StudentID : String
  Email : String
  Password : String
  Username : String
  Role : String
  IsVerified : Bool
  CreatedAt : Time
  VerifiedAt : Time
  FirstName : String
  LastName : String
  MiddleName : String
  Course : String
  YearLevel : String
  Section : String
  Department : String
  College : String
  ContactNumber : String
  Address : String
  QRCodeData : String
  QRType : String
  QRGeneratedAt : Time
  ActiveEventID : Option Nat
  OriginalQRCodeData : String
  OriginalQRType : String
deriving DecidableEq, Repr

/-- The struct `models.Event`; `Attendances` (a preloaded relation) is left out. -/
structure Event where
  ID : Nat
  Title : String
  Description : String
  EventDate : Time
  StartTime : Time
  EndTime : Time
  Location : String
  Course : String
  Section : String
  YearLevel : String
  Department : String
  College : String
  CreatedBy : String
  CreatedByRole : String
  Status : String
  IsActive : Bool
  QRCodeData : String
  TaggedCoursesCSV : String
  TaggedCourses : List String
  AttendeeCount : Int
  Allowed : Bool
  CreatedAt : Time
  UpdatedAt : Time
deriving DecidableEq, Repr

/-- The persisted columns of the struct `models.Attendance`. `Latitude` and `Longitude` are
`float64` in the source; they are only copied, and are kept as rationals. -/
structure Attendance where
  ID : Nat
  EventID : Nat
  StudentID : String
  Status : String
  MarkedAt : Time
  MarkedBy : String
  MarkedByRole : String
  Method : String
  Latitude : Rat
  Longitude : Rat
  Notes : String
  CheckInTime : Option Time
  CheckOutTime : Option Time
  CheckInStatus : String
  CheckOutStatus : String
  CreatedAt : Time
  UpdatedAt : Time
deriving DecidableEq, Repr

/-- The struct `models.AttendanceRequest`. -/
structure AttendanceRequest where
  EventID : Nat
  StudentID : String
  Status : String
  Method : String
  Action : String
  Latitude : Rat
  Longitude : Rat
  Notes : String
deriving DecidableEq, Repr

/-- What `MarkAttendance` hands back: the attendance row with its transient fields
`Student`, `TotalAttendanceCount` and `EventAttendanceCount` filled in. -/
structure MarkedAttendance where
  row : Attendance
  Student : User
  TotalAttendanceCount : Nat
  EventAttendanceCount : Nat
deriving DecidableEq, Repr

/-- The zero value of `models.User`. -/
def zeroUser : User :=
  { ID := 0, StudentID := "", Email := "", Password := "", Username := "", Role := "",
    IsVerified := false, CreatedAt := zeroTime, VerifiedAt := zeroTime, FirstName := "",
    LastName := "", MiddleName := "", Course := "", YearLevel := "", Section := "",
    Department := "", College := "", ContactNumber := "", Address := "", QRCodeData := "",
    QRType := "", QRGeneratedAt := zeroTime, ActiveEventID := none,
    OriginalQRCodeData := "", OriginalQRType := "" }

/-- The zero value of `models.Event`. -/
def zeroEvent : Event :=
  { ID := 0, Title := "", Description := "", EventDate := zeroTime, StartTime := zeroTime,
    EndTime := zeroTime, Location := "", Course := "", Section := "", YearLevel := "",
    Department := "", College := "", CreatedBy := "", CreatedByRole := "", Status := "",
    IsActive := false, QRCodeData := "", TaggedCoursesCSV := "", TaggedCourses := [],
    AttendeeCount := 0, Allowed := false, CreatedAt := zeroTime, UpdatedAt := zeroTime }

/-- The zero value of `models.Attendance`. -/
def zeroAttendance : Attendance :=
  { ID := 0, EventID := 0, StudentID := "", Status := "", MarkedAt := zeroTime,
    MarkedBy := "", MarkedByRole := "", Method := "", Latitude := 0, Longitude := 0,
    Notes := "", CheckInTime := none, CheckOutTime := none, CheckInStatus := "",
    CheckOutStatus := "", CreatedAt := zeroTime, UpdatedAt := zeroTime }

/-- The zero value of `models.AttendanceRequest`. -/
def zeroRequest : AttendanceRequest :=
  { EventID := 0, StudentID := "", Status := "", Method := "", Action := "", Latitude := 0,
    Longitude := 0, Notes := "" }

/-! ## Errors -/

/-- The `error` values that the attendance service returns. `notYetAvailable d` carries the
duration `earliestCheckIn.Sub(now)` whose hours the message prints; the three store errors
stand for messages that wrap a driver error. -/
inductive Err where
  | invalidAction
  | eventNotFound
  | eventNotActive
  | studentNotFound
  | courseNotSet
  | eventAccessDenied
  | alreadyCheckedIn
  | endedOver24h
  | notYetAvailable (d : Duration)
  | alreadyEnded
  | mustCheckInFirst
  | alreadyCheckedOut
  | markFailed
  | markFailedAfterSequenceFix
  | updateFailed
deriving DecidableEq, Repr

/-- The sentinel `ErrEventAccessDenied`. -/
def ErrEventAccessDenied : Err := Err.eventAccessDenied

/-- The message of an error (the method `Error`); for messages built with a format verb the
format string is given. -/
def Err.Error : Err → String
  | .invalidAction => "action must be 'check_in' or 'check_out'"
  | .eventNotFound => "event not found"
  | .eventNotActive => "event is not active"
  | .studentNotFound => "student not found"
  | .courseNotSet => "student course is not set. contact admin"
  | .eventAccessDenied => "Not Authorized to scan QR Code"
  | .alreadyCheckedIn => "already checked in"
  | .endedOver24h => "event has ended more than 24 hours ago. Check-in is no longer allowed"
  | .notYetAvailable _ => "event check-in not yet available. Available in %.0f hours"
  | .alreadyEnded => "event has already ended. Check-in is no longer allowed"
  | .mustCheckInFirst => "must check in first before checking out"
  | .alreadyCheckedOut => "already checked out"
  | .markFailed => "failed to mark attendance: %v"
  | .markFailedAfterSequenceFix => "failed to mark attendance after sequence fix: %v"
  | .updateFailed => "failed to update attendance: %v"

/-! ## Timing classification and the two transitions -/

/-- The function `determineTimeStatus`. -/
def determineTimeStatus (actualTime expectedTime : Time) (gracePeriod : Duration) : String :=
  let earlyThreshold := Time.Add expectedTime (-5 * Minute)
  let lateThreshold := Time.Add expectedTime gracePeriod
  if Time.Before actualTime earlyThreshold then "early"
  else if Time.After actualTime lateThreshold then "late"
  else "on_time"

/-- The function `applyCheckIn`: the record after the call and the error (`none` for `nil`).
The argument `student` only feeds the notification. -/
def applyCheckIn (att : Attendance) (now : Time) (event : Event) (_student : User)
    (markedByRole : String) : Attendance × Option Err :=
  if att.CheckInTime ≠ none then (att, some Err.alreadyCheckedIn)
  else if markedByRole = "faculty" ∨ markedByRole = "admin" ∨ markedByRole = "superadmin" then
    if Time.After now (Time.Add event.EndTime (24 * Hour)) then (att, some Err.endedOver24h)
    else
      let checkInStatus := determineTimeStatus now event.StartTime (15 * Minute)
      ({ att with
          CheckInTime := some now,
          CheckInStatus := checkInStatus,
          Status := if checkInStatus = "late" then "late" else "present" }, none)
  else
    let earliestCheckIn := Time.Add event.StartTime (-30 * Minute)
    if Time.Before now earliestCheckIn then
      (att, some (Err.notYetAvailable (Time.Sub earliestCheckIn now)))
    else if Time.After now event.EndTime then (att, some Err.alreadyEnded)
    else
      let checkInStatus := determineTimeStatus now event.StartTime (15 * Minute)
      ({ att with
          CheckInTime := some now,
          CheckInStatus := checkInStatus,
          Status := if checkInStatus = "late" then "late" else "present" }, none)

/-- The function `applyCheckOut`: the record after the call and the error. -/
def applyCheckOut (att : Attendance) (now : Time) (event : Event) (_student : User) :
    Attendance × Option Err :=
  if att.CheckInTime = none then (att, some Err.mustCheckInFirst)
  else if att.CheckOutTime ≠ none then (att, some Err.alreadyCheckedOut)
  else
    ({ att with
        CheckOutTime := some now,
        CheckOutStatus := determineTimeStatus now event.EndTime 0 }, none)

/-! ## Course access -/

/-- The normal form `strings.ToUpper(strings.TrimSpace(s))` that the evaluator compares. -/
def normalize (up : Char → Char) (s : String) : String :=
  ToUpper up (TrimSpace s)

/-- The block of `enforceEventCourseAccess` guarded by `hasCourseRestriction`: `some r` when
the block returns `r`, `none` when control falls through to the tagged-course block. -/
def primaryCourseCheck (up : Char → Char) (event : Event) (userCourse userYearLevel
    userDepartment : String) (hasTaggedCourses : Bool) : Option (Option Err) :=
  let eventCourse := normalize up event.Course
  if userCourse = eventCourse then
    if event.YearLevel ≠ "" ∧ normalize up event.YearLevel ≠ userYearLevel then
      some (some ErrEventAccessDenied)
    else if event.Department ≠ "" ∧ normalize up event.Department ≠ userDepartment then
      some (some ErrEventAccessDenied)
    else if !hasTaggedCourses then some none
    else none
  else if !hasTaggedCourses then some (some ErrEventAccessDenied)
  else none

/-- The block of `enforceEventCourseAccess` guarded by `hasTaggedCourses`. -/
def taggedCourseCheck (up : Char → Char) (event : Event) (userCourse userYearLevel
    userDepartment : String) : Option Err :=
  let parts := Split event.TaggedCoursesCSV ','
  let courseAllowed := parts.any (fun c => decide (normalize up c = userCourse))
  if !courseAllowed then some ErrEventAccessDenied
  else if event.YearLevel ≠ "" ∧ normalize up event.YearLevel ≠ userYearLevel then
    some ErrEventAccessDenied
  else if event.Department ≠ "" ∧ normalize up event.Department ≠ userDepartment then
    some ErrEventAccessDenied
  else none

/-- The function `enforceEventCourseAccess`; `none` is the `nil` error. -/
def enforceEventCourseAccess (up : Char → Char) (event : Event) (student : User)
    (_markedByRole : String) : Option Err :=
  if student.Role ≠ "student" then none
  else if student.Course = "" then some Err.courseNotSet
  else
    let userCourse := normalize up student.Course
    let userYearLevel := normalize up student.YearLevel
    let userDepartment := normalize up student.Department
    let hasCourseRestriction := decide (event.Course ≠ "")
    let hasTaggedCourses := decide (event.TaggedCoursesCSV ≠ "")
    if !hasCourseRestriction && !hasTaggedCourses then none
    else
      let primary : Option (Option Err) :=
        if hasCourseRestriction then
          primaryCourseCheck up event userCourse userYearLevel userDepartment hasTaggedCourses
        else none
      match primary with
      | some r => r
      | none =>
        if hasTaggedCourses then
          taggedCourseCheck up event userCourse userYearLevel userDepartment
        else none

/-! ## The store -/

/-- The tables the attendance service reads and writes, and the last value handed out by the
sequence behind `attendances.id`. -/
structure Store where
  events : List Event
  users : List User
  attendances : List Attendance
  attendanceSeq : Nat
deriving DecidableEq, Repr

/-- The query `First`: among the rows that satisfy the condition, the one with the least
primary key (`ORDER BY id LIMIT 1`); `none` is the record-not-found error. -/
def firstRow {α : Type} (key : α → Nat) (p : α → Bool) : List α → Option α
  | [] => none
  | r :: rs =>
    match firstRow key p rs with
    | none => if p r then some r else none
    | some a => if p r && decide (key r ≤ key a) then some r else some a

/-- The function `validateAction`. -/
def validateAction (action : String) : Option Err :=
  if action ≠ "check_in" ∧ action ≠ "check_out" then some Err.invalidAction else none

/-- The function `loadEventByID`. -/
def loadEventByID (s : Store) (eventID : Nat) : Except Err Event :=
  match firstRow Event.ID (fun e => decide (e.ID = eventID)) s.events with
  | none => Except.error Err.eventNotFound
  | some event => if !event.IsActive then Except.error Err.eventNotActive else Except.ok event

/-- The function `resolveStudentID`. -/
def resolveStudentID (requested markedBy : String) : String :=
  if requested = "" then markedBy else requested

/-- The function `loadStudentByID`. -/
def loadStudentByID (s : Store) (studentID : String) : Except Err User :=
  match firstRow User.ID (fun u => decide (u.StudentID = studentID)) s.users with
  | none => Except.error Err.studentNotFound
  | some student => Except.ok student

/-- The condition `event_id = ? AND student_id = ?` of the attendance lookup. -/
def pairMatch (eventID : Nat) (studentID : String) (a : Attendance) : Bool :=
  decide (a.EventID = eventID) && decide (a.StudentID = studentID)

/-- The function `findOrInitAttendance`: the stored row of the pair, or a fresh record and
the flag `isNew`. -/
def findOrInitAttendance (s : Store) (req : AttendanceRequest) (studentID markedBy
    markedByRole : String) (now : Time) : Attendance × Bool :=
  match firstRow Attendance.ID (pairMatch req.EventID studentID) s.attendances with
  | some attendance => (attendance, false)
  | none =>
    ({ zeroAttendance with
        EventID := req.EventID,
        StudentID := studentID,
        Status := "present",
        MarkedAt := now,
        MarkedBy := markedBy,
        MarkedByRole := markedByRole,
        Method := if req.Method = "" then "qr_scan" else req.Method,
        Latitude := req.Latitude,
        Longitude := req.Longitude,
        Notes := req.Notes,
        ID := 0 }, true)

/-- The value of `SELECT COALESCE(MAX(id),1) FROM attendances`. -/
def maxAttendanceID (rows : List Attendance) : Nat :=
  match rows with
  | [] => 1
  | _ :: _ => rows.foldl (fun m r => max m r.ID) 0

/-- One `DB.Omit("id").Create(att)`: the key is the next value of the sequence; the insert
fails with a duplicate-key error when a row already has that key. The sequence advances
either way; `CreatedAt` and `UpdatedAt` are stamped by the insert. -/
def insertAttendance (s : Store) (att : Attendance) (now : Time) : Store × Option Attendance :=
  let id := s.attendanceSeq + 1
  if s.attendances.any (fun r => decide (r.ID = id)) then
    ({ s with attendanceSeq := id }, none)
  else
    let row := { att with ID := id, CreatedAt := now, UpdatedAt := now }
    ({ s with attendances := s.attendances ++ [row], attendanceSeq := id }, some row)

/-- The function `createAttendanceRaw`: insert, and on a duplicate key set the sequence to
the largest stored key and insert once more. -/
def createAttendanceRaw (s : Store) (att : Attendance) (now : Time) :
    Store × Attendance × Option Err :=
  match insertAttendance s att now with
  | (s1, some row) => (s1, row, none)
  | (s1, none) =>
    let s2 := { s1 with attendanceSeq := maxAttendanceID s1.attendances }
    match insertAttendance s2 att now with
    | (s3, some row) => (s3, row, none)
    | (s3, none) => (s3, att, some Err.markFailedAfterSequenceFix)

/-- The call `DB.Save(att)` on a row read from the table: the row with the primary key of
`att` is rewritten with every field of `att`, and `UpdatedAt` is stamped. -/
def saveAttendance (s : Store) (att : Attendance) (now : Time) : Store × Attendance :=
  let row := { att with UpdatedAt := now }
  ({ s with attendances := s.attendances.map (fun r => if r.ID = att.ID then row else r) }, row)

/-- The function `persistAttendance`. -/
def persistAttendance (s : Store) (att : Attendance) (isNew : Bool) (now : Time) :
    Store × Attendance × Option Err :=
  if isNew then createAttendanceRaw s att now
  else
    let (s1, row) := saveAttendance s att now
    (s1, row, none)

/-- The `switch req.Action` of `MarkAttendance`. -/
def applyAction (req : AttendanceRequest) (att : Attendance) (now : Time) (event : Event)
    (student : User) (markedByRole : String) : Attendance × Option Err :=
  if req.Action = "check_in" then applyCheckIn att now event student markedByRole
  else if req.Action = "check_out" then applyCheckOut att now event student
  else (att, none)

/-- The end of `MarkAttendance`: persist the record, attach the student and run the two
count queries on the table as it is after the write. -/
def persistAndCount (s : Store) (att : Attendance) (isNew : Bool) (now : Time)
    (student : User) (studentID : String) (eventID : Nat) :
    Store × Except Err MarkedAttendance :=
  match persistAttendance s att isNew now with
  | (s1, _, some err) => (s1, Except.error err)
  | (s1, row, none) =>
    (s1, Except.ok
      { row := row,
        Student := student,
        TotalAttendanceCount :=
          (s1.attendances.filter (fun a => decide (a.StudentID = studentID))).length,
        EventAttendanceCount :=
          (s1.attendances.filter (fun a => decide (a.EventID = eventID))).length })

/-- The function `MarkAttendance`: the store after the call and its result. -/
def MarkAttendance (up : Char → Char) (s : Store) (now : Time) (req : AttendanceRequest)
    (markedBy markedByRole : String) : Store × Except Err MarkedAttendance :=
  match validateAction req.Action with
  | some err => (s, Except.error err)
  | none =>
  match loadEventByID s req.EventID with
  | Except.error err => (s, Except.error err)
  | Except.ok event =>
  let studentID := resolveStudentID req.StudentID markedBy
  match loadStudentByID s studentID with
  | Except.error err => (s, Except.error err)
  | Except.ok student =>
  match enforceEventCourseAccess up event student markedByRole with
  | some err => (s, Except.error err)
  | none =>
  let found := findOrInitAttendance s req studentID markedBy markedByRole now
  let applied := applyAction req found.1 now event student markedByRole
  match applied.2 with
  | some err => (s, Except.error err)
  | none => persistAndCount s applied.1 found.2 now student studentID req.EventID

/-- One mark-attendance call as the service sees it: the event and user tables at the time
of the call, the clock reading, the request and the acting party. -/
structure Call where
  events : List Event
  users : List User
  now : Time
  req : AttendanceRequest
  markedBy : String
  markedByRole : String
deriving DecidableEq, Repr

/-- The store after one call of `MarkAttendance`. -/
def stepCall (up : Char → Char) (s : Store) (c : Call) : Store :=
  (MarkAttendance up { s with events := c.events, users := c.users } c.now c.req c.markedBy
    c.markedByRole).1

/-- The store after a sequence of calls of `MarkAttendance`, run one after the other. -/
def runCalls (up : Char → Char) (s : Store) (calls : List Call) : Store :=
  calls.foldl (stepCall up) s

/-- Clock readings that never go back from one call to the next. -/
def ClockMonotone (calls : List Call) : Prop :=
  calls.Pairwise (fun c d => c.now ≤ d.now)

/-- A record whose check-out, if any, follows a check-in that is not later. -/
def CheckOutAfterCheckIn (r : Attendance) : Prop :=
  (r.CheckOutTime ≠ none → r.CheckInTime ≠ none) ∧
  ∀ i o, r.CheckInTime = some i → r.CheckOutTime = some o → i ≤ o

/-- A record in order whose check-in, if any, is not after the instant `t`. -/
def RowBefore (t : Time) (r : Attendance) : Prop :=
  CheckOutAfterCheckIn r ∧ ∀ i, r.CheckInTime = some i → i ≤ t

/-- At most one row per pair of event and student. -/
def PairUnique (rows : List Attendance) : Prop :=
  (rows.map (fun a => (a.EventID, a.StudentID))).Nodup

/-- Primary keys are unique in the attendance table. -/
def KeyUnique (rows : List Attendance) : Prop :=
  (rows.map Attendance.ID).Nodup

/-! ## The acting party (`controller/attendance_controller.go`) -/

/-- What the handler `controller.MarkAttendance` answers: a JSON error body sent with a
status, a returned `*fiber.Error` (the application's `ErrorHandler` renders it with its own
code), or the 201 answer with the marked attendance. -/
inductive Response where
  | jsonError (status : Nat) (error : String)
  | fiberError (code : Nat) (message : String)
  | created (attendance : MarkedAttendance)
deriving DecidableEq, Repr

/-- The function `getUserAndCheckPermissions`. `ctxUser` is the value of `c.Locals("user")`
(set by the `RequireAuth` middleware) and `headerStudentID` the `X-Student-ID` header; the
error is the code and message of the `*fiber.Error`. -/
def getUserAndCheckPermissions (s : Store) (ctxUser : Option User) (headerStudentID : String)
    (targetStudentID : String) : Except (Nat × String) User :=
  let found : Except (Nat × String) User :=
    match ctxUser with
    | some user => Except.ok user
    | none =>
      if headerStudentID = "" then Except.error (401, "Unauthorized")
      else
        match firstRow User.ID (fun u => decide (u.StudentID = headerStudentID)) s.users with
        | none => Except.error (401, "User not found")
        | some dbUser => Except.ok dbUser
  match found with
  | Except.error e => Except.error e
  | Except.ok user =>
    if targetStudentID ≠ "" ∧ targetStudentID ≠ user.StudentID then
      if user.Role ≠ "superadmin" ∧ user.Role ≠ "admin" ∧ user.Role ≠ "faculty" then
        Except.error (403, "You can only mark your own attendance")
      else Except.ok user
    else Except.ok user

/-- The handler `controller.MarkAttendance`; `body` is the outcome of `c.BodyParser`
(`none` when the body does not parse). -/
def controller.MarkAttendance (up : Char → Char) (s : Store) (now : Time)
    (ctxUser : Option User) (headerStudentID : String) (body : Option AttendanceRequest) :
    Store × Response :=
  match body with
  | none => (s, Response.jsonError 400 "Invalid request format")
  | some req =>
    if req.EventID = 0 then (s, Response.jsonError 400 "event_id is required")
    else if req.Action = "" then
      (s, Response.jsonError 400 "action is required. Use 'check_in' or 'check_out'")
    else
      match getUserAndCheckPermissions s ctxUser headerStudentID req.StudentID with
      | Except.error e => (s, Response.fiberError e.1 e.2)
      | Except.ok user =>
        let req1 := if req.StudentID = "" then { req with StudentID := user.StudentID } else req
        match Newset.MarkAttendance up s now req1 user.StudentID user.Role with
        | (s1, Except.error err) =>
          if err = ErrEventAccessDenied then (s1, Response.jsonError 403 err.Error)
          else (s1, Response.jsonError 400 err.Error)
        | (s1, Except.ok attendance) => (s1, Response.created attendance)

/-! ## QR rotation (`services/event_service.go`) -/

/-- The constant `base64Prefix`. -/
def base64Prefix : String := "data:image/png;base64,"

/-- The text `fmt.Sprintf("event:%d:student:%s", eventID, studentID)`. -/
def eventQRContent (eventID : Nat) (studentID : String) : String :=
  "event:" ++ Nat.repr eventID ++ ":student:" ++ studentID

/-- The text `fmt.Sprintf("student:%s", studentID)`. -/
def studentQRContent (studentID : String) : String :=
  "student:" ++ studentID

/-- The text `fmt.Sprintf("event:%d", eventID)`. -/
def eventQRType (eventID : Nat) : String :=
  "event:" ++ Nat.repr eventID

/-- The statement `DB.Model(..).Where(key = k).Updates(..)`: every row whose key column is
`k` gets the new column values `f`. -/
def updateWhere {α κ : Type} [DecidableEq κ] (key : α → κ) (k : κ) (f : α → α)
    (rows : List α) : List α :=
  rows.map (fun r => if key r = k then f r else r)

/-- The `updates` map of `updateStudentQRCodesForEvent` for one student of the snapshot,
or `none` when the loop body reaches `continue`: the student already has an active event, or
`qrcode.Encode` fails. `enc content` stands for the base64 text of the PNG that
`qrcode.Encode(content, qrcode.Medium, 256)` returns, `none` for its error. -/
def activationUpdates (enc : String → Option String) (now : Time) (eventID : Nat)
    (student : User) : Option (User → User) :=
  if student.ActiveEventID ≠ none then none
  else
    match enc (eventQRContent eventID student.StudentID) with
    | none => none
    | some png =>
      some (fun u =>
        { u with
          OriginalQRCodeData := student.QRCodeData,
          OriginalQRType := student.QRType,
          QRCodeData := base64Prefix ++ png,
          QRType := eventQRType eventID,
          ActiveEventID := some eventID,
          QRGeneratedAt := now })

/-- One pass of a `for _, row := range snapshot` loop whose body either continues
(`updates row = none`) or runs `Where(key = key row).Updates(..)` on the table. -/
def updateEach {α κ : Type} [DecidableEq κ] (key : α → κ) (updates : α → Option (α → α))
    (snapshot rows : List α) : List α :=
  snapshot.foldl
    (fun tbl row =>
      match updates row with
      | none => tbl
      | some f => updateWhere key (key row) f tbl)
    rows

/-- The row `r` after the loop body for the snapshot row `st` has touched it. -/
def applyUpdates {α : Type} (updates : α → Option (α → α)) (st r : α) : α :=
  match updates st with
  | none => r
  | some f => f r

/-- The function `updateStudentQRCodesForEvent`. The clock is read once for the call. -/
def updateStudentQRCodesForEvent (enc : String → Option String) (now : Time) (s : Store)
    (eventID : Nat) (courses : List String) (yearLevel sectionArg : String) : Store :=
  let students := s.users.filter (fun u =>
    decide (u.Course ∈ courses) &&
    (decide (yearLevel = "") || decide (u.YearLevel = yearLevel)) &&
    (decide (sectionArg = "") || decide (u.Section = sectionArg)))
  match firstRow Event.ID (fun e => decide (e.ID = eventID)) s.events with
  | none => s
  | some _ => { s with users := updateEach User.StudentID (activationUpdates enc now eventID) students s.users }

/-- The `updates` map of `RevertStudentQRCodesForEvent` for one student of the snapshot, or
`none` when the loop body reaches `continue` (no original payload and `qrcode.Encode`
fails). -/
def reversionUpdates (enc : String → Option String) (now : Time) (student : User) :
    Option (User → User) :=
  if student.OriginalQRCodeData ≠ "" then
    some (fun u =>
      { u with
        QRCodeData := student.OriginalQRCodeData,
        QRType := student.OriginalQRType,
        ActiveEventID := none,
        OriginalQRCodeData := "",
        OriginalQRType := "",
        QRGeneratedAt := now })
  else
    match enc (studentQRContent student.StudentID) with
    | none => none
    | some png =>
      some (fun u =>
        { u with
          QRCodeData := base64Prefix ++ png,
          QRType := "student_id",
          ActiveEventID := none,
          OriginalQRCodeData := "",
          OriginalQRType := "",
          QRGeneratedAt := now })

/-- The function `RevertStudentQRCodesForEvent`: the store after the call and the returned
error, which is `nil` whenever the query runs. -/
def RevertStudentQRCodesForEvent (enc : String → Option String) (now : Time) (s : Store)
    (eventID : Nat) : Store × Option Err :=
  let students := s.users.filter (fun u => decide (u.ActiveEventID = some eventID))
  ({ s with users := updateEach User.StudentID (reversionUpdates enc now) students s.users },
    none)

/-- One call of the QR rotation manager. -/
inductive QRCall where
  | activate (eventID : Nat) (courses : List String) (yearLevel sectionArg : String)
  | revert (eventID : Nat)
deriving DecidableEq, Repr

/-- The store after one call of the QR rotation manager at the clock reading `c.1`. -/
def stepQR (enc : String → Option String) (s : Store) (c : Time × QRCall) : Store :=
  match c.2 with
  | QRCall.activate eventID courses yearLevel sectionArg =>
    updateStudentQRCodesForEvent enc c.1 s eventID courses yearLevel sectionArg
  | QRCall.revert eventID => (RevertStudentQRCodesForEvent enc c.1 s eventID).1

/-- The store after a sequence of calls of the QR rotation manager, each with its clock
reading. -/
def runQR (enc : String → Option String) (s : Store) (calls : List (Time × QRCall)) : Store :=
  calls.foldl (stepQR enc) s

/-- A student whose QR slot no event possesses: no active event, no shadow copy, and a
payload of type "student_id". -/
def QRUnbound (u : User) : Prop :=
  u.ActiveEventID = none ∧ u.OriginalQRCodeData = "" ∧ u.OriginalQRType = "" ∧
  u.QRType = "student_id"

/-- A student whose QR slot the event `e` possesses: the payload is the encoding of
"event:<e>:student:<student_id>" with type "event:<e>", and the shadow copy is a payload
of type "student_id". -/
def QRBoundTo (enc : String → Option String) (e : Nat) (u : User) : Prop :=
  u.ActiveEventID = some e ∧ u.QRType = eventQRType e ∧
  (∃ png, enc (eventQRContent e u.StudentID) = some png ∧ u.QRCodeData = base64Prefix ++ png) ∧
  u.OriginalQRType = "student_id"

/-- The row `u` of the table reached by `calls` came out of a rotation: some call of the
sequence found the student unbound, as the row `v`, and left exactly the row `u`, whose
shadow copy is the payload and type of `v`. -/
def RotatedFrom (enc : String → Option String) (s : Store) (calls : List (Time × QRCall))
    (u : User) : Prop :=
  ∃ before call after v,
    calls = before ++ call :: after ∧
    v ∈ (runQR enc s before).users ∧ v.StudentID = u.StudentID ∧ v.ActiveEventID = none ∧
    u ∈ (runQR enc s (before ++ [call])).users ∧
    u.OriginalQRCodeData = v.QRCodeData ∧ u.OriginalQRType = v.QRType

/-- The QR identity invariant of one row of the table reached by `calls`: the student is
unbound, or bound to one event by a rotation of the sequence. -/
def QRIdentity (enc : String → Option String) (s : Store) (calls : List (Time × QRCall))
    (u : User) : Prop :=
  QRUnbound u ∨ ∃ e, QRBoundTo enc e u ∧ RotatedFrom enc s calls u

/-! ## The event lifecycle sweep -/

/-- The first query of the sweep:
`end_time < now AND status IN ("scheduled", "ongoing") AND is_active = true`. -/
def sweepCompleted (now : Time) (e : Event) : Bool :=
  decide (e.EndTime < now) &&
  (decide (e.Status = "scheduled") || decide (e.Status = "ongoing")) &&
  e.IsActive

/-- The second query of the sweep:
`start_time <= now AND end_time >= now AND status = "scheduled" AND is_active = true`. -/
def sweepOngoing (now : Time) (e : Event) : Bool :=
  decide (e.StartTime ≤ now) && decide (e.EndTime ≥ now) &&
  decide (e.Status = "scheduled") && e.IsActive

/-- The statement `Updates(map{"status": status})` on one event row; the update also stamps
`updated_at`, which `models.Event` tags `autoUpdateTime`. -/
def setStatus (status : String) (now : Time) (e : Event) : Event :=
  { e with Status := status, UpdatedAt := now }

/-- The function `CheckAndUpdateCompletedEvents`. The clock is read once for the call. -/
def CheckAndUpdateCompletedEvents (enc : String → Option String) (now : Time) (s : Store) :
    Store :=
  let events := s.events.filter (sweepCompleted now)
  let s1 := events.foldl
    (fun st event =>
      let st1 := { st with
        events := updateWhere Event.ID event.ID (setStatus "completed" now) st.events }
      (RevertStudentQRCodesForEvent enc now st1 event.ID).1)
    s
  let ongoingEvents := s1.events.filter (sweepOngoing now)
  ongoingEvents.foldl
    (fun st event =>
      { st with events := updateWhere Event.ID event.ID (setStatus "ongoing" now) st.events })
    s1

/-! ## Updating an event -/

/-- The struct `models.EventRequest`. -/
structure EventRequest where
  Title : String
  Description : String
  EventDate : String
  StartTime : String
  EndTime : String
  Location : String
  Course : String
  Section : String
  YearLevel : String
  Department : String
  College : String
  TaggedCourses : List String
deriving DecidableEq, Repr

/-- The zero value of `models.EventRequest`. -/
def zeroEventRequest : EventRequest :=
  { Title := "", Description := "", EventDate := "", StartTime := "", EndTime := "",
    Location := "", Course := "", Section := "", YearLevel := "", Department := "",
    College := "", TaggedCourses := [] }

/-- The functions of the Go `time` package that `applyTimeUpdates` calls: `parseDate s` is
`time.Parse("2006-01-02", s)`, `parseHourMinute s` the `Hour()` and `Minute()` of
`time.Parse("15:04", s)`, and `localDate d h m` is
`time.Date(d.Year(), d.Month(), d.Day(), h, m, 0, 0, time.Local)`; `none` is a parse
error. -/
structure TimeParsing where
  parseDate : String → Option Time
  parseHourMinute : String → Option (Nat × Nat)
  localDate : Time → Nat → Nat → Time

/-- The `error` values that `UpdateEvent` returns. -/
inductive EventErr where
  | eventNotFound
  | unauthorized
  | unauthorizedUpdate
  | updateFailed
deriving DecidableEq, Repr

/-- The message of an `UpdateEvent` error. -/
def EventErr.Error : EventErr → String
  | .eventNotFound => "event not found"
  | .unauthorized => "unauthorized"
  | .unauthorizedUpdate => "unauthorized: only event creator, admin, or faculty can update"
  | .updateFailed => "failed to update event: %v"

/-- The function `strings.Join`. -/
def Join : List String → String → String
  | [], _ => ""
  | [a], _ => a
  | a :: b :: rest, sep => a ++ sep ++ Join (b :: rest) sep

/-- The function `ensureUpdatePermission`. -/
def ensureUpdatePermission (s : Store) (event : Event) (updatedBy : String) :
    Option EventErr :=
  if event.CreatedBy = updatedBy then none
  else
    match firstRow User.ID (fun u => decide (u.StudentID = updatedBy)) s.users with
    | none => some EventErr.unauthorized
    | some user =>
      if user.Role ≠ "superadmin" ∧ user.Role ≠ "admin" ∧ user.Role ≠ "faculty" then
        some EventErr.unauthorizedUpdate
      else none

/-- The function `applyTimeUpdates`; it never returns an error. -/
def applyTimeUpdates (tp : TimeParsing) (event : Event) (req : EventRequest) : Event :=
  let e1 :=
    if req.EventDate ≠ "" then
      match tp.parseDate req.EventDate with
      | some eventDate => { event with EventDate := eventDate }
      | none => event
    else event
  let e2 :=
    if req.StartTime ≠ "" then
      match tp.parseHourMinute req.StartTime with
      | some hm => { e1 with StartTime := tp.localDate e1.EventDate hm.1 hm.2 }
      | none => e1
    else e1
  if req.EndTime ≠ "" then
    match tp.parseHourMinute req.EndTime with
    | some hm => { e2 with EndTime := tp.localDate e2.EventDate hm.1 hm.2 }
    | none => e2
  else e2

/-- The function `setTaggedCoursesFromRequest`. -/
def setTaggedCoursesFromRequest (up : Char → Char) (event : Event) (req : EventRequest) :
    Event :=
  if req.TaggedCourses.length = 0 then event
  else
    let cleaned := (req.TaggedCourses.map (normalize up)).filter (fun c => decide (c ≠ ""))
    if cleaned.length > 0 then
      { event with TaggedCoursesCSV := Join cleaned ",", TaggedCourses := cleaned }
    else { event with TaggedCoursesCSV := "", TaggedCourses := [] }

/-- The function `applyOtherUpdates`. -/
def applyOtherUpdates (up : Char → Char) (event : Event) (req : EventRequest) : Event :=
  let e1 := if req.Title ≠ "" then { event with Title := req.Title } else event
  let e2 := if req.Description ≠ "" then { e1 with Description := req.Description } else e1
  let e3 := if req.Location ≠ "" then { e2 with Location := req.Location } else e2
  let e4 := if req.Course ≠ "" then { e3 with Course := req.Course } else e3
  let e5 := if req.Section ≠ "" then { e4 with Section := req.Section } else e4
  let e6 := if req.YearLevel ≠ "" then { e5 with YearLevel := req.YearLevel } else e5
  let e7 := if req.Department ≠ "" then { e6 with Department := req.Department } else e6
  let e8 := if req.College ≠ "" then { e7 with College := req.College } else e7
  setTaggedCoursesFromRequest up e8 req

/-- The function `applyEventUpdates`. -/
def applyEventUpdates (tp : TimeParsing) (up : Char → Char) (event : Event)
    (req : EventRequest) : Event :=
  applyOtherUpdates up (applyTimeUpdates tp event req) req

/-- The goroutine that `UpdateEvent` starts: first `RevertStudentQRCodesForEvent(eventID)`,
then `updateStudentQRCodesForEvent(eventID, courses, yearLevel, section)`. -/
structure QRRefresh where
  eventID : Nat
  courses : List String
  yearLevel : String
  sectionArg : String
deriving DecidableEq, Repr

/-- The store after the goroutine of `UpdateEvent` has run. -/
def runQRRefresh (enc : String → Option String) (now : Time) (s : Store) (job : QRRefresh) :
    Store :=
  updateStudentQRCodesForEvent enc now (RevertStudentQRCodesForEvent enc now s job.eventID).1
    job.eventID job.courses job.yearLevel job.sectionArg

/-- The function `UpdateEvent`: the store after `DB.Save`, the result, and the goroutine it
started, if any. `DB.Save` writes the columns of the event (the fields tagged `gorm:"-"` are
not stored) and stamps `updated_at`. -/
def UpdateEvent (tp : TimeParsing) (up : Char → Char) (s : Store) (now : Time)
    (eventID : Nat) (req : EventRequest) (updatedBy : String) :
    Store × Except EventErr Event × Option QRRefresh :=
  match firstRow Event.ID (fun e => decide (e.ID = eventID)) s.events with
  | none => (s, Except.error EventErr.eventNotFound, none)
  | some event =>
    match ensureUpdatePermission s event updatedBy with
    | some err => (s, Except.error err, none)
    | none =>
      let event1 := { applyEventUpdates tp up event req with UpdatedAt := now }
      let row := { event1 with TaggedCourses := [], AttendeeCount := 0, Allowed := false }
      let s1 := { s with events := updateWhere Event.ID event1.ID (fun _ => row) s.events }
      let job : Option QRRefresh :=
        if req.TaggedCourses.length > 0 then
          some { eventID := eventID, courses := req.TaggedCourses,
                 yearLevel := req.YearLevel, sectionArg := req.Section }
        else none
      (s1, Except.ok event1, job)

/-! ## Deleting an event -/

/-- The errors of `DeleteEvent`. -/
inductive DeleteErr where
  | eventNotFound
  | unauthorized
  | unauthorizedDelete
  | deleteFailed
deriving DecidableEq, Repr

/-- The message of a `DeleteEvent` error; `deleteFailed` carries the format string of the
wrapped database error. -/
def DeleteErr.Error : DeleteErr → String
  | .eventNotFound => "event not found"
  | .unauthorized => "unauthorized"
  | .unauthorizedDelete => "unauthorized: only event creator or admin can delete"
  | .deleteFailed => "failed to delete event: %v"

/-- The function `DeleteEvent`: the store after `DB.Save`, the returned error, and the event
id of the goroutine `go RevertStudentQRCodesForEvent(eventID)` it started, if any. `DB.Save`
writes the columns of the event (the fields tagged `gorm:"-"` are not stored) and stamps
`updated_at`. -/
def DeleteEvent (s : Store) (now : Time) (eventID : Nat) (deletedBy : String) :
    Store × Option DeleteErr × Option Nat :=
  match firstRow Event.ID (fun e => decide (e.ID = eventID)) s.events with
  | none => (s, some DeleteErr.eventNotFound, none)
  | some event =>
    let denied : Option DeleteErr :=
      if event.CreatedBy ≠ deletedBy then
        match firstRow User.ID (fun u => decide (u.StudentID = deletedBy)) s.users with
        | none => some DeleteErr.unauthorized
        | some user =>
          if user.Role ≠ "superadmin" ∧ user.Role ≠ "admin" then
            some DeleteErr.unauthorizedDelete
          else none
      else none
    match denied with
    | some err => (s, some err, none)
    | none =>
      let event1 := { event with IsActive := false, Status := "cancelled", UpdatedAt := now }
      let row := { event1 with TaggedCourses := [], AttendeeCount := 0, Allowed := false }
      ({ s with events := updateWhere Event.ID event1.ID (fun _ => row) s.events }, none,
        some eventID)

/-- One later call on the store: a Sweeper tick, an `UpdateEvent`, a `MarkAttendance`, or a
call of the QR rotation manager (the goroutines of `UpdateEvent`, `DeleteEvent` and
`CreateEvent` are such calls). -/
inductive LaterCall where
  | sweep
  | update (eventID : Nat) (req : EventRequest) (updatedBy : String)
  | mark (req : AttendanceRequest) (markedBy markedByRole : String)
  | qr (call : QRCall)
deriving DecidableEq, Repr

/-- The store after one later call at the clock reading `c.1`. -/
def stepLater (tp : TimeParsing) (up : Char → Char) (enc : String → Option String)
    (s : Store) (c : Time × LaterCall) : Store :=
  match c.2 with
  | LaterCall.sweep => CheckAndUpdateCompletedEvents enc c.1 s
  | LaterCall.update eventID req updatedBy => (UpdateEvent tp up s c.1 eventID req updatedBy).1
  | LaterCall.mark req markedBy markedByRole =>
    (MarkAttendance up s c.1 req markedBy markedByRole).1
  | LaterCall.qr call => stepQR enc s (c.1, call)

/-- The store after a sequence of later calls, each with its clock reading. -/
def runLater (tp : TimeParsing) (up : Char → Char) (enc : String → Option String)
    (s : Store) (calls : List (Time × LaterCall)) : Store :=
  calls.foldl (stepLater tp up enc) s

/-- The event `id` is stored and every stored row with that id is cancelled:
`is_active = false` and `status = "cancelled"`. -/
def Cancelled (id : Nat) (s : Store) : Prop :=
  (∃ e ∈ s.events, e.ID = id) ∧
  ∀ e ∈ s.events, e.ID = id → e.IsActive = false ∧ e.Status = "cancelled"

/-! ## Attendance statistics -/

/-- The struct `models.AttendanceStats`. `AttendanceRate` is a `float64` in the source; the
model keeps the exact quotient, so the rounding of the float arithmetic is not represented. -/
structure AttendanceStats where
  TotalEvents : Nat
  PresentCount : Nat
  AbsentCount : Nat
  LateCount : Nat
  ExcusedCount : Nat
  AttendanceRate : Rat
deriving DecidableEq, Repr

/-- The statement of a `*gorm.DB` value that a chain method has returned, as far as the
attendance queries go: the `WHERE` conditions it holds, joined by `AND`. -/
structure Query where
  conds : List (Attendance → Bool)

/-- The chain method `Where` called on a value that a chain method has returned
(`connection.DB.Model(..)` and everything derived from it): in `gorm.io/gorm` such a value is
not cloned (`getInstance` returns the receiver itself), so the condition is added to the
statement of the receiver, and the value returned is the receiver. -/
def Query.Where (q : Query) (cond : Attendance → Bool) : Query :=
  { conds := q.conds ++ [cond] }

/-- The finisher `Count`: the number of rows of the table that satisfy every condition of the
statement. -/
def Query.Count (q : Query) (rows : List Attendance) : Nat :=
  (rows.filter (fun r => q.conds.all (fun cond => cond r))).length

/-- The function `GetAttendanceStats`; its error is always `nil`. The variable `query` names
one `*gorm.DB` value throughout: each `query.Where(StatusWhere, ..)` adds its condition to the
statement of that value, so the value that the next line calls `query` already holds it. -/
def GetAttendanceStats (s : Store) (studentID : String) (eventID : Option Nat) :
    AttendanceStats :=
  let query0 : Query := { conds := [] }
  let query1 :=
    match eventID with
    | some id => query0.Where (fun a => decide (a.EventID = id))
    | none => query0
  let query2 :=
    if studentID ≠ "" then query1.Where (fun a => decide (a.StudentID = studentID))
    else query1
  let total : Nat := query2.Count s.attendances
  let query3 := query2.Where (fun a => decide (a.Status = "present"))
  let presentCount : Nat := query3.Count s.attendances
  let query4 := query3.Where (fun a => decide (a.Status = "absent"))
  let absentCount : Nat := query4.Count s.attendances
  let query5 := query4.Where (fun a => decide (a.Status = "late"))
  let lateCount : Nat := query5.Count s.attendances
  let query6 := query5.Where (fun a => decide (a.Status = "excused"))
  let excusedCount : Nat := query6.Count s.attendances
  let attendanceRate : Rat :=
    if total > 0 then ((presentCount + lateCount + excusedCount : Nat) : Rat) / (total : Rat) * 100
    else 0
  { TotalEvents := total, PresentCount := presentCount, AbsentCount := absentCount,
    LateCount := lateCount, ExcusedCount := excusedCount, AttendanceRate := attendanceRate }

/-- The statistics that the comment of `GetAttendanceStats` and the specification describe:
every count is taken over the rows that match the optional event and student filters, each
status on its own. -/
def statsBySpec (s : Store) (studentID : String) (eventID : Option Nat) : AttendanceStats :=
  let rows := s.attendances.filter (fun a =>
    (match eventID with
     | some id => decide (a.EventID = id)
     | none => true) &&
    (decide (studentID = "") || decide (a.StudentID = studentID)))
  let count := fun (status : String) => (rows.filter (fun a => decide (a.Status = status))).length
  { TotalEvents := rows.length, PresentCount := count "present", AbsentCount := count "absent",
    LateCount := count "late", ExcusedCount := count "excused",
    AttendanceRate :=
      if rows.length > 0 then
        ((count "present" + count "late" + count "excused" : Nat) : Rat) / (rows.length : Rat) * 100
      else 0 }

/-! ## Event times of a create request -/

/-- The parsers of `parseEventDateTimes`: those of `applyTimeUpdates`, together with
`time.Parse("2006-01-02T15:04:05Z07:00", s)` and `time.Parse("2006-01-02T15:04:05", s)`;
`none` is a parse error. -/
structure EventTimeParsing extends TimeParsing where
  parseRFC3339 : String → Option Time
  parseDateTime : String → Option Time

/-- The errors of `parseEventDateTimes`. -/
inductive EventTimeErr where
  | invalidEventDate
  | invalidStartTime
  | invalidEndTime
  | endNotAfterStart
deriving DecidableEq, Repr

/-- The message of a `parseEventDateTimes` error. -/
def EventTimeErr.Error : EventTimeErr → String
  | .invalidEventDate => "invalid event_date format. Use YYYY-MM-DD"
  | .invalidStartTime =>
    "invalid start_time format. Use HH:MM, YYYY-MM-DDTHH:MM:SS, or ISO 8601"
  | .invalidEndTime => "invalid end_time format. Use HH:MM, YYYY-MM-DDTHH:MM:SS, or ISO 8601"
  | .endNotAfterStart => "end_time must be after start_time"

/-- The `if .. else if .. else if ..` chain that `parseEventDateTimes` runs on `start_time`
and again on `end_time`: ISO 8601 with a zone, ISO 8601 without one, then "HH:MM" on the
event date in the local zone; `none` is the final `else`. -/
def parseEventClock (tp : EventTimeParsing) (eventDate : Time) (text : String) : Option Time :=
  match tp.parseRFC3339 text with
  | some t => some t
  | none =>
    match tp.parseDateTime text with
    | some t => some t
    | none =>
      match tp.parseHourMinute text with
      | some hm => some (tp.localDate eventDate hm.1 hm.2)
      | none => none

/-- The function `parseEventDateTimes`, the first step of `CreateEvent`, which returns its
error unchanged: the event date, the start and the end of the request. -/
def parseEventDateTimes (tp : EventTimeParsing) (req : EventRequest) :
    Except EventTimeErr (Time × Time × Time) :=
  match tp.parseDate req.EventDate with
  | none => Except.error EventTimeErr.invalidEventDate
  | some eventDate =>
    match parseEventClock tp eventDate req.StartTime with
    | none => Except.error EventTimeErr.invalidStartTime
    | some startDateTime =>
      match parseEventClock tp eventDate req.EndTime with
      | none => Except.error EventTimeErr.invalidEndTime
      | some endDateTime =>
        if endDateTime.Before startDateTime ∨ endDateTime = startDateTime then
          Except.error EventTimeErr.endNotAfterStart
        else Except.ok (eventDate, startDateTime, endDateTime)

/-- The test `isDigit` of the Go `time` package. -/
def isDigit (c : Char) : Bool :=
  decide (48 ≤ c.toNat) && decide (c.toNat ≤ 57)

/-- The function `getnum` of the Go `time` package: a number of one or two digits at the
head of the text (two digits required when `fixed`), and the rest of the text. -/
def getnum (s : List Char) (fixed : Bool) : Option (Nat × List Char) :=
  match s with
  | [] => none
  | c0 :: rest =>
    if !isDigit c0 then none
    else
      match rest with
      | [] => if fixed then none else some (c0.toNat - 48, rest)
      | c1 :: rest1 =>
        if !isDigit c1 then
          if fixed then none else some (c0.toNat - 48, rest)
        else some ((c0.toNat - 48) * 10 + (c1.toNat - 48), rest1)

/-- The hour and minute of `time.Parse("15:04", s)`: an hour of one or two digits below 24,
a colon, a minute of two digits below 60, and nothing after it. -/
def parseClock (s : String) : Option (Nat × Nat) :=
  match getnum s.data false with
  | none => none
  | some (hour, rest) =>
    if 24 ≤ hour then none
    else
      match rest with
      | ':' :: rest1 =>
        match getnum rest1 true with
        | none => none
        | some (min, rest2) =>
          if 60 ≤ min then none
          else if rest2 ≠ [] then none
          else some (hour, min)
      | _ => none

/-- The instant `time.Date(d.Year(), d.Month(), d.Day(), h, m, 0, 0, time.Local)` when the
local zone and the zone of `d` are UTC: the start of the UTC day of `d`, plus `h` hours and
`m` minutes. -/
def utcDate (d : Time) (h m : Nat) : Time :=
  d - d % (24 * Hour) + (h : Int) * Hour + (m : Int) * Minute

/-- The Go `time` functions of `applyTimeUpdates` on a server whose zone is UTC, for any
behaviour `parseDate` of the date parser. -/
def utcTimeParsing (parseDate : String → Option Time) : TimeParsing :=
  { parseDate := parseDate, parseHourMinute := parseClock, localDate := utcDate }

/-! ## The allowed flag of the event listing -/

/-- The function `parseTaggedCoursesCSV`; the `nil` slice is the empty list. -/
def parseTaggedCoursesCSV (up : Char → Char) (csv : String) : List String :=
  if csv = "" then []
  else
    let parts := Split csv ','
    let trimmed := (parts.map (normalize up)).filter (fun p => decide (p ≠ ""))
    if trimmed.length = 0 then [] else trimmed

/-- The function `isUserAllowedForEvent`. -/
def isUserAllowedForEvent (up : Char → Char) (event : Event) (user : User) : Bool :=
  if event.TaggedCourses.length = 0 then true
  else if user.Course = "" then false
  else
    let userCourse := normalize up user.Course
    event.TaggedCourses.any (fun c => decide (c = userCourse))

/-- The function `populateTaggedCoursesAndAllowed`, which `GetEventsByStudent` runs on the
active events it has read: the slice after the loop. -/
def populateTaggedCoursesAndAllowed (up : Char → Char) (events : List Event) (user : User) :
    List Event :=
  events.map (fun event =>
    let event1 := { event with TaggedCourses := parseTaggedCoursesCSV up event.TaggedCoursesCSV }
    { event1 with Allowed := isUserAllowedForEvent up event1 user })

/-! ## Input validation (`utils/validation.go`) -/

/-- The function `strings.ToLower`, a rune-by-rune map of `unicode.ToLower` (here `low`). -/
def ToLower (low : Char → Char) (s : String) : String :=
  ⟨s.data.map low⟩

/-- ASCII lower-casing, the restriction of `unicode.ToLower` to ASCII; used at concrete
inputs. -/
def asciiLower (c : Char) : Char :=
  if 65 ≤ c.toNat ∧ c.toNat ≤ 90 then Char.ofNat (c.toNat + 32) else c

/-- The scan of `strings.ReplaceAll` for a non-empty `old`: left to right, each occurrence of
`old` found at the current position is replaced by `new` and the scan resumes after it;
`skip` counts the runes of a matched occurrence still to pass over. -/
def replaceRunes (old new : List Char) : Nat → List Char → List Char
  | _, [] => []
  | skip + 1, _ :: cs => replaceRunes old new skip cs
  | 0, c :: cs =>
    if old.isPrefixOf (c :: cs) then new ++ replaceRunes old new (old.length - 1) cs
    else c :: replaceRunes old new 0 cs

/-- The function `strings.ReplaceAll` for a non-empty `old`, the only use the validation
code makes of it. -/
def ReplaceAll (s old new : String) : String :=
  ⟨replaceRunes old.data new.data 0 s.data⟩

/-- Whether `sub` occurs in the rune list. -/
def containsRunes (sub : List Char) : List Char → Bool
  | [] => sub.isEmpty
  | c :: cs => sub.isPrefixOf (c :: cs) || containsRunes sub cs

/-- The function `strings.Contains`. -/
def Contains (s substr : String) : Bool :=
  containsRunes substr.data s.data

/-- The call `regexp.MustCompile("-{2,}").ReplaceAllString(s, "-")` on runes: every maximal
run of two or more hyphens becomes one hyphen. -/
def collapseHyphens : List Char → List Char
  | [] => []
  | c :: cs =>
    if c = '-' ∧ cs.head? = some '-' then collapseHyphens cs else c :: collapseHyphens cs

/-- The slice `sqlKeywords` of `SanitizeString`. -/
def sqlKeywords : List String :=
  ["UNION", "SELECT", "INSERT", "UPDATE", "DELETE", "DROP", "CREATE", "ALTER", "EXEC",
   "EXECUTE"]

/-- The body of the loop `for _, keyword := range sqlKeywords` of `SanitizeString`; `upper`
is computed once, before the loop. -/
def removeKeyword (low : Char → Char) (upper input keyword : String) : String :=
  if Contains upper keyword then
    let input1 := ReplaceAll input keyword ""
    ReplaceAll (ToLower low input1) (ToLower low keyword) ""
  else input

/-- The function `SanitizeString`. The one-rune texts are written by code point: 0 is the
null byte, 39 the single quote, 34 the double quote. -/
def SanitizeString (up low : Char → Char) (input : String) : String :=
  let input1 := ReplaceAll input (String.singleton (Char.ofNat 0)) ""
  let input2 := TrimSpace input1
  let input3 := ReplaceAll input2 (String.singleton (Char.ofNat 39)) ""
  let input4 := ReplaceAll input3 (String.singleton (Char.ofNat 34)) ""
  let input5 := ReplaceAll input4 ";" ""
  let input6 := ReplaceAll input5 "--" ""
  let input7 := ReplaceAll input6 "/*" ""
  let input8 := ReplaceAll input7 "*/" ""
  let upper := ToUpper up input8
  let input9 := sqlKeywords.foldl (removeKeyword low upper) input8
  ⟨collapseHyphens input9.data⟩

/-- Whether the text contains the keyword in some letter case. -/
def containsKeyword (up : Char → Char) (s keyword : String) : Bool :=
  Contains (ToUpper up s) keyword
/-- The code points of the character class of `hasSpecial` in `ValidatePassword`:
`! @ # $ % ^ & * ( ) _ = + [ ]`, the two braces, `; :`, the single and the double quote,
`, . < > ? /`, the backslash, `| ~` and the backquote. -/
def specialCharacters : List Nat :=
  [33, 64, 35, 36, 37, 94, 38, 42, 40, 41, 95, 61, 43, 91, 93, 123, 125, 59, 58, 39, 34, 44,
   46, 60, 62, 63, 47, 92, 124, 126, 96]

/-- The function `ValidatePassword`. `len(password)` is the number of bytes of the UTF-8
text; each `MatchString` of a one-character class asks for a rune of the class. -/
def ValidatePassword (password : String) : Bool × String :=
  if password.utf8ByteSize < 8 then (false, "Password must be at least 8 characters long")
  else if password.utf8ByteSize > 128 then (false, "Password must be less than 128 characters")
  else
    let hasUpper := password.data.any (fun c => decide (65 ≤ c.toNat) && decide (c.toNat ≤ 90))
    let hasLower := password.data.any (fun c => decide (97 ≤ c.toNat) && decide (c.toNat ≤ 122))
    let hasNumber := password.data.any (fun c => decide (48 ≤ c.toNat) && decide (c.toNat ≤ 57))
    if !hasUpper || !hasLower || !hasNumber then
      (false,
        "Password must contain at least one uppercase letter, one lowercase letter, and one number")
    else
      let hasSpecial := password.data.any (fun c => decide (c.toNat ∈ specialCharacters))
      if !hasSpecial then
        (false, "Password must contain at least one special character (!@#$%^&*() etc)")
      else (true, "")

/-! ## Concrete inputs -/

/-- An event from 09:00 to 11:00 of a day that starts at instant 0, open to every course. -/
def sampleEvent : Event :=
  { zeroEvent with
    ID := 1, Title := "Orientation", StartTime := 9 * Hour, EndTime := 11 * Hour,
    Status := "scheduled", IsActive := true, CreatedBy := "F-1", CreatedByRole := "faculty" }

/-- A student of course "CS". -/
def sampleStudent : User :=
  { zeroUser with
    ID := 1, StudentID := "S-1", Role := "student", Course := "cs", YearLevel := "3",
    Department := "ccs" }

/-- A faculty member. -/
def sampleFaculty : User :=
  { zeroUser with ID := 2, StudentID := "F-1", Role := "faculty" }

/-- A fresh record of `sampleStudent` for `sampleEvent`, as `findOrInitAttendance` builds
it. -/
def sampleFresh : Attendance :=
  { zeroAttendance with
    EventID := 1, StudentID := "S-1", Status := "present", MarkedAt := 9 * Hour,
    MarkedBy := "S-1", MarkedByRole := "student", Method := "qr_scan" }

/-- The record `sampleFresh` after a check-in at 09:00. -/
def sampleCheckedIn : Attendance :=
  { sampleFresh with ID := 1, CheckInTime := some (9 * Hour), CheckInStatus := "on_time" }

/-- The record `sampleCheckedIn` after a check-out at 11:00. -/
def sampleCheckedOut : Attendance :=
  { sampleCheckedIn with CheckOutTime := some (11 * Hour), CheckOutStatus := "on_time" }

/-- A store with `sampleEvent`, the two sample users and an empty attendance table. -/
def sampleStore : Store :=
  { events := [sampleEvent], users := [sampleStudent, sampleFaculty], attendances := [],
    attendanceSeq := 0 }

/-- A check-in request for `sampleEvent` that names no student. -/
def sampleCheckInRequest : AttendanceRequest :=
  { zeroRequest with EventID := 1, Action := "check_in" }

/-- A check-out request for `sampleEvent` that names `sampleStudent`. -/
def sampleCheckOutRequest : AttendanceRequest :=
  { zeroRequest with EventID := 1, StudentID := "S-1", Action := "check_out" }

/-- The student checks in at 09:00, a faculty member checks the student out at 11:00. -/
def sampleCalls : List Call :=
  [ { events := [sampleEvent], users := [sampleStudent, sampleFaculty], now := 9 * Hour,
      req := sampleCheckInRequest, markedBy := "S-1", markedByRole := "student" },
    { events := [sampleEvent], users := [sampleStudent, sampleFaculty], now := 11 * Hour,
      req := sampleCheckOutRequest, markedBy := "F-1", markedByRole := "faculty" } ]

/-- An event open to the courses "CS" and "IT" only. -/
def sampleTaggedEvent : Event :=
  { sampleEvent with ID := 2, Title := "Hackathon", TaggedCoursesCSV := "CS,IT" }

/-- A student of course "EE". -/
def sampleStudentEE : User :=
  { zeroUser with ID := 3, StudentID := "S-2", Role := "student", Course := "EE" }

/-- A store with the tagged event, a "cs" student and an "EE" student. -/
def sampleTaggedStore : Store :=
  { events := [sampleEvent, sampleTaggedEvent],
    users := [sampleStudent, sampleFaculty, sampleStudentEE],
    attendances := [], attendanceSeq := 0 }

/-- A stand-in for the QR encoder at concrete inputs: it always succeeds, and the payload
shows the content. -/
def sampleEncode (content : String) : Option String :=
  some ("png(" ++ content ++ ")")

/-- The student `sampleStudent` with an issued QR payload. -/
def sampleBare : User :=
  { sampleStudent with QRCodeData := "data:image/png;base64,png(student:S-1)",
                       QRType := "student_id" }

/-- The student `sampleBare` after activation for the event 2 at 08:00. -/
def sampleBound : User :=
  { sampleBare with
    OriginalQRCodeData := "data:image/png;base64,png(student:S-1)",
    OriginalQRType := "student_id",
    QRCodeData := "data:image/png;base64,png(event:2:student:S-1)",
    QRType := "event:2", ActiveEventID := some 2, QRGeneratedAt := 8 * Hour }

/-- An "EE" student with an issued QR payload. -/
def sampleBareEE : User :=
  { sampleStudentEE with QRCodeData := "data:image/png;base64,png(student:S-2)",
                         QRType := "student_id" }

/-- The faculty member with the column default of `qr_type`. -/
def sampleFacultyQR : User :=
  { sampleFaculty with QRType := "student_id" }

/-- A store with the tagged event and two students with bare QR payloads. -/
def sampleQRStore : Store :=
  { events := [sampleEvent, sampleTaggedEvent], users := [sampleBare, sampleFacultyQR, sampleBareEE],
    attendances := [], attendanceSeq := 0 }

/-- The store `sampleQRStore` with `sampleBare` bound to the event 2. -/
def sampleBoundStore : Store :=
  { sampleQRStore with users := [sampleBound, sampleFacultyQR, sampleBareEE] }

/-- A stand-in for the Go `time` parsers at concrete inputs whose date and time texts are
empty, so that no parser is consulted: it rejects every text. -/
def sampleTimeParsing : TimeParsing :=
  { parseDate := fun _ => none, parseHourMinute := fun _ => none, localDate := fun d _ _ => d }

/-- An update request that only renames the event. -/
def sampleRenameRequest : EventRequest :=
  { zeroEventRequest with Title := "Hackathon 2" }

/-- The tagged event, held from 07:00 to 08:00 and still shown as ongoing. -/
def sampleEndedEvent : Event :=
  { sampleTaggedEvent with StartTime := 7 * Hour, EndTime := 8 * Hour, Status := "ongoing" }

/-- A store as it is at 10:00: the event 1 (09:00 to 11:00) is shown as scheduled, the
event 2 has ended and possesses the QR slot of `sampleBound`. -/
def sampleSweepStore : Store :=
  { events := [sampleEvent, sampleEndedEvent],
    users := [sampleBound, sampleFacultyQR, sampleBareEE],
    attendances := [], attendanceSeq := 0 }

/-- The store `sampleStore` after its creator "F-1" has deleted the event 1 at 08:00. -/
def sampleCancelledStore : Store :=
  (DeleteEvent sampleStore (8 * Hour) 1 "F-1").1

/-- A Sweeper tick at 09:00 and a rename of the event 1 by its creator at 10:00. -/
def sampleLaterCalls : List (Time × LaterCall) :=
  [(9 * Hour, LaterCall.sweep), (10 * Hour, LaterCall.update 1 sampleRenameRequest "F-1")]

/-- An attendance row of the event 1 with the given key, student and status. -/
def sampleStatusRow (id : Nat) (studentID status : String) : Attendance :=
  { sampleFresh with ID := id, StudentID := studentID, Status := status }

/-- A ledger of ten rows of the event 1: six present, two late, one absent, one excused. -/
def sampleLedger : Store :=
  { sampleStore with
    attendances :=
      [sampleStatusRow 1 "S-1" "present", sampleStatusRow 2 "S-2" "present",
       sampleStatusRow 3 "S-3" "present", sampleStatusRow 4 "S-4" "present",
       sampleStatusRow 5 "S-5" "present", sampleStatusRow 6 "S-6" "present",
       sampleStatusRow 7 "S-7" "late", sampleStatusRow 8 "S-8" "late",
       sampleStatusRow 9 "S-9" "absent", sampleStatusRow 10 "S-10" "excused"] }

/-- The event `sampleEvent` with its date, the day of its start and end. -/
def sampleDatedEvent : Event :=
  { sampleEvent with EventDate := 0 }

/-- The store `sampleStore` holding `sampleDatedEvent`. -/
def sampleDatedStore : Store :=
  { sampleStore with events := [sampleDatedEvent] }

/-- An update request that only moves the end of the event to 08:00. -/
def sampleEarlyEndRequest : EventRequest :=
  { zeroEventRequest with EndTime := "08:00" }

/-- The tagged event restricted to first-year students. -/
def sampleFirstYearEvent : Event :=
  { sampleTaggedEvent with YearLevel := "1" }

/-- An active event with the primary course "EE" and no tags. -/
def samplePrimaryEvent : Event :=
  { sampleEvent with ID := 3, Course := "EE" }

/-- A password of `n + 4` ASCII characters: "Aa1!" followed by `n` letters "a". -/
def samplePassword (n : Nat) : String :=
  ⟨'A' :: 'a' :: '1' :: '!' :: List.replicate n 'a'⟩

/-- The event `sampleDatedEvent` as `UpdateEvent` stores it when its creator sends
`sampleEarlyEndRequest` at 07:00: it starts at 09:00 and ends at 08:00. -/
def sampleInvertedEvent : Event :=
  { sampleDatedEvent with EndTime := 8 * Hour, UpdatedAt := 7 * Hour }

/-! ## Timing classification -/

theorem determineTimeStatus_eq (actual expected : Time) (grace : Duration) :
    determineTimeStatus actual expected grace =
      if actual < expected - 5 * Minute then "early"
      else if expected + grace < actual then "late" else "on_time" := by
  simp only [determineTimeStatus, Time.Add, Time.Before, Time.After, decide_eq_true_eq]
  have h : expected + -5 * Minute = expected - 5 * Minute := by ring
  rw [h]

/-- C1: `determineTimeStatus actual expected grace` is "early" exactly when
`actual < expected - 5min`, otherwise "late" exactly when `actual > expected + grace`, and
"on_time" exactly on the closed interval from `expected - 5min` to `expected + grace`; with
a grace of 15 minutes, one second before `expected - 5min` is early, `expected - 5min`,
`expected` and `expected + 15min` are on time, and one second after `expected + 15min` is
late. -/
theorem determineTimeStatus_classifies (actual expected : Time) (grace : Duration) :
    (determineTimeStatus actual expected grace = "early" ↔ actual < expected - 5 * Minute) ∧
    (determineTimeStatus actual expected grace = "late" ↔
      ¬ actual < expected - 5 * Minute ∧ expected + grace < actual) ∧
    (determineTimeStatus actual expected grace = "on_time" ↔
      expected - 5 * Minute ≤ actual ∧ actual ≤ expected + grace) ∧
    determineTimeStatus (expected - 5 * Minute - Second) expected (15 * Minute) = "early" ∧
    determineTimeStatus (expected - 5 * Minute) expected (15 * Minute) = "on_time" ∧
    determineTimeStatus expected expected (15 * Minute) = "on_time" ∧
    determineTimeStatus (expected + 15 * Minute) expected (15 * Minute) = "on_time" ∧
    determineTimeStatus (expected + 15 * Minute + Second) expected (15 * Minute) = "late" := by
  simp only [determineTimeStatus_eq]
  have hm : (0 : Int) < Minute := by decide
  have hs : (0 : Int) < Second := by decide
  refine ⟨?_, ?_, ?_, ?_, ?_, ?_, ?_, ?_⟩
  · split_ifs <;> simp_all
  · split_ifs <;> simp_all
  · split_ifs with h1 h2
    · simp only [String.reduceEq, false_iff, not_and]
      intro h; linarith
    · simp only [String.reduceEq, false_iff, not_and]
      intro _; linarith
    · simp only [true_iff]
      constructor <;> linarith
  · rw [if_pos (by linarith)]
  · rw [if_neg (by linarith), if_neg (by linarith)]
  · rw [if_neg (by linarith), if_neg (by linarith)]
  · rw [if_neg (by linarith), if_neg (by linarith)]
  · rw [if_neg (by linarith), if_pos (by linarith)]

/-! ## Check-in and check-out on one record -/

theorem applyCheckIn_staff (att : Attendance) (now : Time) (event : Event) (student : User)
    (role : String) (hnone : att.CheckInTime = none)
    (hrole : role = "faculty" ∨ role = "admin" ∨ role = "superadmin") :
    applyCheckIn att now event student role =
      if event.EndTime + 24 * Hour < now then (att, some Err.endedOver24h)
      else
        ({ att with
            CheckInTime := some now,
            CheckInStatus := determineTimeStatus now event.StartTime (15 * Minute),
            Status :=
              if determineTimeStatus now event.StartTime (15 * Minute) = "late" then "late"
              else "present" }, none) := by
  simp only [applyCheckIn, hnone, ne_eq, not_true_eq_false, if_false, hrole, if_true,
    Time.After, Time.Add, decide_eq_true_eq]

theorem applyCheckIn_other (att : Attendance) (now : Time) (event : Event) (student : User)
    (role : String) (hnone : att.CheckInTime = none)
    (hrole : ¬ (role = "faculty" ∨ role = "admin" ∨ role = "superadmin")) :
    applyCheckIn att now event student role =
      if now < event.StartTime - 30 * Minute then
        (att, some (Err.notYetAvailable (event.StartTime - 30 * Minute - now)))
      else if event.EndTime < now then (att, some Err.alreadyEnded)
      else
        ({ att with
            CheckInTime := some now,
            CheckInStatus := determineTimeStatus now event.StartTime (15 * Minute),
            Status :=
              if determineTimeStatus now event.StartTime (15 * Minute) = "late" then "late"
              else "present" }, none) := by
  have h : event.StartTime + -30 * Minute = event.StartTime - 30 * Minute := by ring
  simp only [applyCheckIn, hnone, ne_eq, not_true_eq_false, if_false, hrole,
    Time.After, Time.Before, Time.Add, Time.Sub, decide_eq_true_eq, h]

theorem student_not_staff :
    ¬ ("student" = "faculty" ∨ "student" = "admin" ∨ "student" = "superadmin") := by
  decide

/-- C2, as stated, fails: the active event that `UpdateEvent` stores with start 09:00 and end
08:00 refuses a student check-in at 08:15, which is after `end_time`, with the
not-yet-available error (15 minutes before the window opens at 08:30), not with the
already-ended error: `applyCheckIn` tests the start of the window first. -/
theorem student_checkin_after_end_before_window :
    (UpdateEvent (utcTimeParsing (fun _ => none)) asciiUpper sampleDatedStore (7 * Hour) 1
      sampleEarlyEndRequest "F-1").1.events = [sampleInvertedEvent] ∧
    sampleInvertedEvent.IsActive = true ∧
    sampleFresh.CheckInTime = none ∧
    sampleInvertedEvent.EndTime < 8 * Hour + 15 * Minute ∧
    applyCheckIn sampleFresh (8 * Hour + 15 * Minute) sampleInvertedEvent sampleStudent
        "student" =
      (sampleFresh, some (Err.notYetAvailable (15 * Minute))) ∧
    Err.notYetAvailable (15 * Minute) ≠ Err.alreadyEnded :=
  ⟨rfl, rfl, rfl, by decide, by decide, by decide⟩

/-- C2: on a record without `check_in_time`, a check-in by a faculty, admin or superadmin
actor succeeds exactly when `now ≤ end_time + 24h` and otherwise fails with the
ended-more-than-24-hours-ago error; a check-in by a student actor succeeds exactly when
`start_time - 30min ≤ now ≤ end_time`, fails with the not-yet-available error before the
window (also when `now` is after `end_time`), and fails with the already-ended error after
`end_time` once the window has opened (always so for an event with
`start_time < end_time`). -/
theorem applyCheckIn_window (att : Attendance) (now : Time) (event : Event) (student : User)
    (role : String) (hnone : att.CheckInTime = none) :
    ((role = "faculty" ∨ role = "admin" ∨ role = "superadmin") →
      ((applyCheckIn att now event student role).2 = none ↔
        now ≤ event.EndTime + 24 * Hour) ∧
      (event.EndTime + 24 * Hour < now →
        applyCheckIn att now event student role = (att, some Err.endedOver24h))) ∧
    ((applyCheckIn att now event student "student").2 = none ↔
      event.StartTime - 30 * Minute ≤ now ∧ now ≤ event.EndTime) ∧
    (now < event.StartTime - 30 * Minute →
      applyCheckIn att now event student "student" =
        (att, some (Err.notYetAvailable (event.StartTime - 30 * Minute - now)))) ∧
    (event.StartTime - 30 * Minute ≤ now → event.EndTime < now →
      applyCheckIn att now event student "student" = (att, some Err.alreadyEnded)) ∧
    (event.StartTime < event.EndTime → event.EndTime < now →
      applyCheckIn att now event student "student" = (att, some Err.alreadyEnded)) := by
  have hm : (0 : Int) < Minute := by decide
  refine ⟨?_, ?_, ?_, ?_, ?_⟩
  · intro hrole
    rw [applyCheckIn_staff att now event student role hnone hrole]
    constructor
    · by_cases h : event.EndTime + 24 * Hour < now
      · rw [if_pos h]
        simp only [reduceCtorEq, false_iff, not_le]; exact h
      · rw [if_neg h]
        simp only [true_iff]; exact not_lt.mp h
    · intro h
      rw [if_pos h]
  · rw [applyCheckIn_other att now event student "student" hnone student_not_staff]
    by_cases h1 : now < event.StartTime - 30 * Minute
    · rw [if_pos h1]
      simp only [reduceCtorEq, false_iff, not_and, not_le]
      intro h; linarith
    · rw [if_neg h1]
      by_cases h2 : event.EndTime < now
      · rw [if_pos h2]
        simp only [reduceCtorEq, false_iff, not_and, not_le]
        intro _; exact h2
      · rw [if_neg h2]
        simp only [true_iff]
        exact ⟨not_lt.mp h1, not_lt.mp h2⟩
  · intro h
    rw [applyCheckIn_other att now event student "student" hnone student_not_staff, if_pos h]
  · intro h1 h2
    rw [applyCheckIn_other att now event student "student" hnone student_not_staff,
      if_neg (not_lt.mpr h1), if_pos h2]
  · intro h1 h2
    rw [applyCheckIn_other att now event student "student" hnone student_not_staff,
      if_neg (by linarith), if_pos h2]

theorem applyCheckIn_window_witness :
    sampleFresh.CheckInTime = none ∧
    ((applyCheckIn sampleFresh (9 * Hour) sampleEvent sampleStudent "student").2 = none ↔
      sampleEvent.StartTime - 30 * Minute ≤ 9 * Hour ∧ 9 * Hour ≤ sampleEvent.EndTime) :=
  ⟨rfl, (applyCheckIn_window sampleFresh (9 * Hour) sampleEvent sampleStudent "student"
    rfl).2.1⟩

/-! ## The shape of one `MarkAttendance` call -/

theorem MarkAttendance_cases (up : Char → Char) (s : Store) (now : Time)
    (req : AttendanceRequest) (markedBy markedByRole : String) :
    (∃ e, MarkAttendance up s now req markedBy markedByRole = (s, Except.error e)) ∨
    (∃ event student,
      validateAction req.Action = none ∧
      loadEventByID s req.EventID = Except.ok event ∧
      loadStudentByID s (resolveStudentID req.StudentID markedBy) = Except.ok student ∧
      enforceEventCourseAccess up event student markedByRole = none ∧
      (applyAction req
        (findOrInitAttendance s req (resolveStudentID req.StudentID markedBy) markedBy
          markedByRole now).1 now event student markedByRole).2 = none ∧
      MarkAttendance up s now req markedBy markedByRole =
        persistAndCount s
          (applyAction req
            (findOrInitAttendance s req (resolveStudentID req.StudentID markedBy) markedBy
              markedByRole now).1 now event student markedByRole).1
          (findOrInitAttendance s req (resolveStudentID req.StudentID markedBy) markedBy
            markedByRole now).2
          now student (resolveStudentID req.StudentID markedBy) req.EventID) := by
  cases h1 : validateAction req.Action with
  | some e => exact Or.inl ⟨e, by simp only [MarkAttendance, h1]⟩
  | none =>
    cases h2 : loadEventByID s req.EventID with
    | error e => exact Or.inl ⟨e, by simp only [MarkAttendance, h1, h2]⟩
    | ok event =>
      cases h3 : loadStudentByID s (resolveStudentID req.StudentID markedBy) with
      | error e => exact Or.inl ⟨e, by simp only [MarkAttendance, h1, h2, h3]⟩
      | ok student =>
        cases h4 : enforceEventCourseAccess up event student markedByRole with
        | some e => exact Or.inl ⟨e, by simp only [MarkAttendance, h1, h2, h3, h4]⟩
        | none =>
          cases h5 : (applyAction req
              (findOrInitAttendance s req (resolveStudentID req.StudentID markedBy) markedBy
                markedByRole now).1 now event student markedByRole).2 with
          | some e => exact Or.inl ⟨e, by simp only [MarkAttendance, h1, h2, h3, h4, h5]⟩
          | none =>
            exact Or.inr ⟨event, student, rfl, rfl, rfl, h4, h5,
              by simp only [MarkAttendance, h1, h2, h3, h4, h5]⟩

/-! ## Queries and writes on the attendance table -/

theorem firstRow_eq_none {α : Type} (key : α → Nat) (p : α → Bool) (rows : List α) :
    firstRow key p rows = none ↔ ∀ r ∈ rows, p r = false := by
  induction rows with
  | nil => simp [firstRow]
  | cons r rs ih =>
    cases h : firstRow key p rs with
    | none =>
      have hrs := ih.mp h
      by_cases hp : p r = true
      · simp [firstRow, h, hp]
      · simp only [Bool.not_eq_true] at hp
        simp only [firstRow, h, hp, Bool.false_eq_true, if_false, List.mem_cons, forall_eq_or_imp,
          true_and, true_iff]
        exact hrs
    | some a =>
      have hne : ¬ ∀ x ∈ rs, p x = false := fun hall => by
        rw [ih.mpr hall] at h
        exact Option.noConfusion h
      simp only [firstRow, h, List.mem_cons, forall_eq_or_imp]
      constructor
      · intro hcontra
        split_ifs at hcontra
      · intro hall
        exact absurd hall.2 hne

theorem firstRow_mem {α : Type} (key : α → Nat) (p : α → Bool) (rows : List α) (a : α)
    (h : firstRow key p rows = some a) : a ∈ rows ∧ p a = true := by
  induction rows generalizing a with
  | nil => simp [firstRow] at h
  | cons r rs ih =>
    cases hrs : firstRow key p rs with
    | none =>
      simp only [firstRow, hrs] at h
      by_cases hp : p r = true
      · rw [if_pos hp] at h
        cases h
        exact ⟨List.mem_cons_self _ _, hp⟩
      · rw [if_neg hp] at h
        exact Option.noConfusion h
    | some b =>
      simp only [firstRow, hrs] at h
      have hb := ih b hrs
      by_cases hc : (p r && decide (key r ≤ key b)) = true
      · rw [if_pos hc] at h
        cases h
        simp only [Bool.and_eq_true] at hc
        exact ⟨List.mem_cons_self _ _, hc.1⟩
      · rw [if_neg hc] at h
        cases h
        exact ⟨List.mem_cons_of_mem _ hb.1, hb.2⟩

theorem foldl_max_ge (rows : List Attendance) (m : Nat) :
    m ≤ rows.foldl (fun m r => max m r.ID) m ∧
    ∀ r ∈ rows, r.ID ≤ rows.foldl (fun m r => max m r.ID) m := by
  induction rows generalizing m with
  | nil => simp
  | cons x xs ih =>
    have h := ih (max m x.ID)
    simp only [List.foldl_cons, List.mem_cons, forall_eq_or_imp]
    refine ⟨le_trans (le_max_left _ _) h.1, le_trans (le_max_right _ _) h.1, h.2⟩

theorem maxAttendanceID_ge (rows : List Attendance) (r : Attendance) (h : r ∈ rows) :
    r.ID ≤ maxAttendanceID rows := by
  cases rows with
  | nil => simp at h
  | cons x xs => exact (foldl_max_ge (x :: xs) 0).2 r h

theorem createAttendanceRaw_spec (s : Store) (att : Attendance) (now : Time) :
    ∃ id, (∀ r ∈ s.attendances, r.ID ≠ id) ∧
      createAttendanceRaw s att now =
        ({ s with
            attendances :=
              s.attendances ++ [{ att with ID := id, CreatedAt := now, UpdatedAt := now }],
            attendanceSeq := id },
          { att with ID := id, CreatedAt := now, UpdatedAt := now }, none) := by
  by_cases h : s.attendances.any (fun r => decide (r.ID = s.attendanceSeq + 1)) = true
  · refine ⟨maxAttendanceID s.attendances + 1, ?_, ?_⟩
    · intro r hr hid
      have := maxAttendanceID_ge s.attendances r hr
      omega
    · have h2 : s.attendances.any
          (fun r => decide (r.ID = maxAttendanceID s.attendances + 1)) = false := by
        rw [List.any_eq_false]
        intro r hr
        have := maxAttendanceID_ge s.attendances r hr
        simp only [decide_eq_true_eq]
        omega
      simp only [createAttendanceRaw, insertAttendance, h, if_true, h2, Bool.false_eq_true,
        if_false]
  · refine ⟨s.attendanceSeq + 1, ?_, ?_⟩
    · intro r hr hid
      apply h
      rw [List.any_eq_true]
      exact ⟨r, hr, by simp [hid]⟩
    · have h' : s.attendances.any (fun r => decide (r.ID = s.attendanceSeq + 1)) = false := by
        simpa using h
      simp only [createAttendanceRaw, insertAttendance, h', Bool.false_eq_true, if_false]

theorem persistAndCount_new (s : Store) (att : Attendance) (now : Time) (student : User)
    (studentID : String) (eventID : Nat) :
    ∃ id, (∀ x ∈ s.attendances, x.ID ≠ id) ∧
      (persistAndCount s att true now student studentID eventID).1 =
        { s with
            attendances :=
              s.attendances ++ [{ att with ID := id, CreatedAt := now, UpdatedAt := now }],
            attendanceSeq := id } ∧
      ∃ r, (persistAndCount s att true now student studentID eventID).2 = Except.ok r ∧
        r.row = { att with ID := id, CreatedAt := now, UpdatedAt := now } := by
  obtain ⟨id, hid, hc⟩ := createAttendanceRaw_spec s att now
  refine ⟨id, hid, ?_⟩
  simp only [persistAndCount, persistAttendance, if_true, hc, true_and]
  exact ⟨_, rfl, rfl⟩

theorem persistAndCount_old (s : Store) (att : Attendance) (now : Time) (student : User)
    (studentID : String) (eventID : Nat) :
    (persistAndCount s att false now student studentID eventID).1 =
        { s with
            attendances :=
              s.attendances.map
                (fun x => if x.ID = att.ID then { att with UpdatedAt := now } else x) } ∧
      ∃ r, (persistAndCount s att false now student studentID eventID).2 = Except.ok r ∧
        r.row = { att with UpdatedAt := now } := by
  simp only [persistAndCount, persistAttendance, saveAttendance, Bool.false_eq_true, if_false,
    true_and]
  exact ⟨_, rfl, rfl⟩

/-! ## Check-out never precedes check-in -/

theorem applyCheckIn_ok (att : Attendance) (now : Time) (event : Event) (student : User)
    (role : String) (hok : (applyCheckIn att now event student role).2 = none) :
    att.CheckInTime = none ∧
    (applyCheckIn att now event student role).1 =
      { att with
        CheckInTime := some now,
        CheckInStatus := determineTimeStatus now event.StartTime (15 * Minute),
        Status :=
          if determineTimeStatus now event.StartTime (15 * Minute) = "late" then "late"
          else "present" } := by
  by_cases hnone : att.CheckInTime = none
  · refine ⟨hnone, ?_⟩
    by_cases hrole : role = "faculty" ∨ role = "admin" ∨ role = "superadmin"
    · rw [applyCheckIn_staff att now event student role hnone hrole] at hok ⊢
      by_cases h : event.EndTime + 24 * Hour < now
      · rw [if_pos h] at hok
        simp at hok
      · rw [if_neg h]
    · rw [applyCheckIn_other att now event student role hnone hrole] at hok ⊢
      by_cases h1 : now < event.StartTime - 30 * Minute
      · rw [if_pos h1] at hok
        simp at hok
      · rw [if_neg h1] at hok ⊢
        by_cases h2 : event.EndTime < now
        · rw [if_pos h2] at hok
          simp at hok
        · rw [if_neg h2]
  · simp [applyCheckIn, hnone] at hok

theorem applyCheckOut_ok (att : Attendance) (now : Time) (event : Event) (student : User)
    (hok : (applyCheckOut att now event student).2 = none) :
    att.CheckInTime ≠ none ∧ att.CheckOutTime = none ∧
    (applyCheckOut att now event student).1 =
      { att with
        CheckOutTime := some now,
        CheckOutStatus := determineTimeStatus now event.EndTime 0 } := by
  by_cases hin : att.CheckInTime = none
  · simp [applyCheckOut, hin] at hok
  · by_cases hout : att.CheckOutTime = none
    · refine ⟨hin, hout, ?_⟩
      simp only [applyCheckOut, hin, hout, ne_eq, not_true_eq_false, if_false]
    · simp [applyCheckOut, hin, hout] at hok

theorem applyAction_keys (req : AttendanceRequest) (a : Attendance) (now : Time)
    (event : Event) (student : User) (role : String) :
    (applyAction req a now event student role).1.ID = a.ID ∧
    (applyAction req a now event student role).1.EventID = a.EventID ∧
    (applyAction req a now event student role).1.StudentID = a.StudentID := by
  simp only [applyAction, applyCheckIn, applyCheckOut]
  split_ifs <;> exact ⟨rfl, rfl, rfl⟩

theorem applyAction_rowBefore (req : AttendanceRequest) (a : Attendance) (now : Time)
    (event : Event) (student : User) (role : String) (t : Time) (ha : RowBefore t a)
    (ht : t ≤ now) (hok : (applyAction req a now event student role).2 = none) :
    RowBefore now (applyAction req a now event student role).1 := by
  obtain ⟨⟨hout, hord⟩, hin⟩ := ha
  unfold applyAction at hok ⊢
  by_cases h1 : req.Action = "check_in"
  · rw [if_pos h1] at hok ⊢
    obtain ⟨hnone, heq⟩ := applyCheckIn_ok a now event student role hok
    rw [heq]
    have hno : a.CheckOutTime = none := by
      by_contra hc
      exact hout hc hnone
    refine ⟨⟨fun _ => by simp, ?_⟩, ?_⟩
    · intro i o _ ho
      simp only [hno] at ho
      exact Option.noConfusion ho
    · intro i hi
      simp only [Option.some.injEq] at hi
      exact le_of_eq hi.symm
  · rw [if_neg h1] at hok ⊢
    by_cases h2 : req.Action = "check_out"
    · rw [if_pos h2] at hok ⊢
      obtain ⟨hsome, _, heq⟩ := applyCheckOut_ok a now event student hok
      rw [heq]
      refine ⟨⟨fun _ => hsome, ?_⟩, ?_⟩
      · intro i o hi ho
        simp only [Option.some.injEq] at ho
        have := hin i hi
        rw [← ho]
        exact le_trans this ht
      · intro i hi
        exact le_trans (hin i hi) ht
    · rw [if_neg h2]
      exact ⟨⟨hout, hord⟩, fun i hi => le_trans (hin i hi) ht⟩

theorem findOrInitAttendance_rowBefore (s : Store) (req : AttendanceRequest)
    (studentID markedBy markedByRole : String) (now t : Time)
    (hs : ∀ r ∈ s.attendances, RowBefore t r) :
    RowBefore t (findOrInitAttendance s req studentID markedBy markedByRole now).1 := by
  unfold findOrInitAttendance
  cases h : firstRow Attendance.ID (pairMatch req.EventID studentID) s.attendances with
  | none =>
    refine ⟨⟨fun hc => absurd rfl hc, ?_⟩, ?_⟩
    · intro i o hi _
      exact Option.noConfusion hi
    · intro i hi
      exact Option.noConfusion hi
  | some a => exact hs a (firstRow_mem _ _ _ a h).1

theorem RowBefore_mono (t u : Time) (r : Attendance) (h : RowBefore t r) (htu : t ≤ u) :
    RowBefore u r :=
  ⟨h.1, fun i hi => le_trans (h.2 i hi) htu⟩

theorem RowBefore_stamps (t : Time) (r : Attendance) (id : Nat) (c u : Time)
    (h : RowBefore t r) :
    RowBefore t { r with ID := id, CreatedAt := c, UpdatedAt := u } := h

theorem findOrInitAttendance_flag (s : Store) (req : AttendanceRequest)
    (studentID markedBy markedByRole : String) (now : Time) :
    ((findOrInitAttendance s req studentID markedBy markedByRole now).2 = true ∧
      firstRow Attendance.ID (pairMatch req.EventID studentID) s.attendances = none ∧
      (findOrInitAttendance s req studentID markedBy markedByRole now).1.EventID = req.EventID ∧
      (findOrInitAttendance s req studentID markedBy markedByRole now).1.StudentID = studentID ∧
      (findOrInitAttendance s req studentID markedBy markedByRole now).1.CheckInTime = none) ∨
    ((findOrInitAttendance s req studentID markedBy markedByRole now).2 = false ∧
      firstRow Attendance.ID (pairMatch req.EventID studentID) s.attendances =
        some (findOrInitAttendance s req studentID markedBy markedByRole now).1) := by
  unfold findOrInitAttendance
  cases h : firstRow Attendance.ID (pairMatch req.EventID studentID) s.attendances with
  | none => exact Or.inl ⟨rfl, rfl, rfl, rfl, rfl⟩
  | some a => exact Or.inr ⟨rfl, rfl⟩

theorem MarkAttendance_rowBefore (up : Char → Char) (s : Store) (now t : Time)
    (req : AttendanceRequest) (markedBy markedByRole : String)
    (hs : ∀ r ∈ s.attendances, RowBefore t r) (ht : t ≤ now) :
    ∀ r ∈ (MarkAttendance up s now req markedBy markedByRole).1.attendances,
      RowBefore now r := by
  rcases MarkAttendance_cases up s now req markedBy markedByRole with
    ⟨e, he⟩ | ⟨event, student, _, _, _, _, hok, heq⟩
  · rw [he]
    intro r hr
    exact RowBefore_mono t now r (hs r hr) ht
  · rw [heq]
    have hfound := findOrInitAttendance_rowBefore s req
      (resolveStudentID req.StudentID markedBy) markedBy markedByRole now t hs
    have happ := applyAction_rowBefore req _ now event student markedByRole t hfound ht hok
    cases hflag : (findOrInitAttendance s req (resolveStudentID req.StudentID markedBy)
        markedBy markedByRole now).2 with
    | true =>
      obtain ⟨id, _, hst, _⟩ := persistAndCount_new s
        (applyAction req (findOrInitAttendance s req (resolveStudentID req.StudentID markedBy)
          markedBy markedByRole now).1 now event student markedByRole).1 now student
        (resolveStudentID req.StudentID markedBy) req.EventID
      rw [hst]
      intro r hr
      simp only [List.mem_append, List.mem_singleton] at hr
      rcases hr with hr | hr
      · exact RowBefore_mono t now r (hs r hr) ht
      · rw [hr]
        exact RowBefore_stamps now _ id now now happ
    | false =>
      obtain ⟨hst, _⟩ := persistAndCount_old s
        (applyAction req (findOrInitAttendance s req (resolveStudentID req.StudentID markedBy)
          markedBy markedByRole now).1 now event student markedByRole).1 now student
        (resolveStudentID req.StudentID markedBy) req.EventID
      rw [hst]
      intro r hr
      simp only [List.mem_map] at hr
      obtain ⟨x, hx, hxr⟩ := hr
      split_ifs at hxr
      · rw [← hxr]
        exact happ
      · rw [← hxr]
        exact RowBefore_mono t now x (hs x hx) ht

theorem runCalls_rowBefore (up : Char → Char) (calls : List Call) :
    ∀ (s : Store) (t : Time), (∀ r ∈ s.attendances, RowBefore t r) →
      (∀ c ∈ calls, t ≤ c.now) → ClockMonotone calls →
      ∀ r ∈ (runCalls up s calls).attendances, CheckOutAfterCheckIn r := by
  induction calls with
  | nil =>
    intro s t hs _ _ r hr
    exact (hs r hr).1
  | cons c cs ih =>
    intro s t hs hge hmono r hr
    have hstep : ∀ x ∈ (stepCall up s c).attendances, RowBefore c.now x :=
      MarkAttendance_rowBefore up { s with events := c.events, users := c.users } c.now t
        c.req c.markedBy c.markedByRole hs (hge c (List.mem_cons_self _ _))
    have hm := List.pairwise_cons.mp hmono
    exact ih (stepCall up s c) c.now hstep (fun d hd => hm.1 d hd) hm.2 r hr

/-- C6: in the ledger reached from an empty ledger by any sequence of `MarkAttendance`
calls whose clock readings never go back, every record with `check_out_time` set has
`check_in_time` set, and when both are set `check_in_time ≤ check_out_time`. -/
theorem checkout_requires_checkin (up : Char → Char) (s : Store) (calls : List Call)
    (hempty : s.attendances = []) (hclock : ClockMonotone calls) :
    ∀ r ∈ (runCalls up s calls).attendances,
      (r.CheckOutTime ≠ none → r.CheckInTime ≠ none) ∧
      ∀ i o, r.CheckInTime = some i → r.CheckOutTime = some o → i ≤ o := by
  cases calls with
  | nil =>
    intro r hr
    simp only [runCalls, List.foldl_nil, hempty, List.not_mem_nil] at hr
  | cons c cs =>
    have hm := List.pairwise_cons.mp hclock
    apply runCalls_rowBefore up (c :: cs) s c.now
    · intro r hr
      rw [hempty] at hr
      exact absurd hr (List.not_mem_nil r)
    · intro d hd
      rcases List.mem_cons.mp hd with h | h
      · rw [h]
      · exact hm.1 d h
    · exact hclock

/-! ## Course access: roles and errors -/

theorem enforce_student (up : Char → Char) (event : Event) (student : User) (role : String)
    (hrole : student.Role = "student") (hcourse : student.Course ≠ "") :
    enforceEventCourseAccess up event student role =
      if event.Course = "" ∧ event.TaggedCoursesCSV = "" then none
      else if event.TaggedCoursesCSV = "" then
        if normalize up student.Course = normalize up event.Course then
          if event.YearLevel ≠ "" ∧
              normalize up event.YearLevel ≠ normalize up student.YearLevel then
            some ErrEventAccessDenied
          else if event.Department ≠ "" ∧
              normalize up event.Department ≠ normalize up student.Department then
            some ErrEventAccessDenied
          else none
        else some ErrEventAccessDenied
      else if event.Course ≠ "" ∧ normalize up student.Course = normalize up event.Course ∧
          ((event.YearLevel ≠ "" ∧
              normalize up event.YearLevel ≠ normalize up student.YearLevel) ∨
            (event.Department ≠ "" ∧
              normalize up event.Department ≠ normalize up student.Department)) then
        some ErrEventAccessDenied
      else
        taggedCourseCheck up event (normalize up student.Course)
          (normalize up student.YearLevel) (normalize up student.Department) := by
  by_cases hc : event.Course = "" <;> by_cases ht : event.TaggedCoursesCSV = "" <;>
    by_cases hm : normalize up student.Course = normalize up event.Course <;>
    by_cases hy : event.YearLevel ≠ "" ∧
      normalize up event.YearLevel ≠ normalize up student.YearLevel <;>
    by_cases hd : event.Department ≠ "" ∧
      normalize up event.Department ≠ normalize up student.Department <;>
    simp [enforceEventCourseAccess, primaryCourseCheck, hrole, hcourse, hc, ht, hm, hy, hd]

theorem taggedCourseCheck_cases (up : Char → Char) (event : Event) (c y d : String) :
    taggedCourseCheck up event c y d = none ∨
    taggedCourseCheck up event c y d = some ErrEventAccessDenied := by
  simp only [taggedCourseCheck]
  split_ifs <;> simp

theorem enforce_student_cases (up : Char → Char) (event : Event) (student : User)
    (role : String) (hrole : student.Role = "student") (hcourse : student.Course ≠ "") :
    enforceEventCourseAccess up event student role = none ∨
    enforceEventCourseAccess up event student role = some ErrEventAccessDenied := by
  rw [enforce_student up event student role hrole hcourse]
  split_ifs <;> first | exact taggedCourseCheck_cases up event _ _ _ | simp

/-- C8: for every event and every target user whose role is not "student",
`enforceEventCourseAccess` returns no error; and for every event and target user the result
is the same for any two acting roles `markedByRole`. -/
theorem nonstudent_always_allowed (up : Char → Char) (event : Event) (student : User)
    (markedByRole : String) (hrole : student.Role ≠ "student") :
    enforceEventCourseAccess up event student markedByRole = none ∧
    ∀ (e : Event) (u : User) (r1 r2 : String),
      enforceEventCourseAccess up e u r1 = enforceEventCourseAccess up e u r2 := by
  constructor
  · simp only [enforceEventCourseAccess, hrole, ne_eq, not_false_eq_true, if_true]
  · intro e u r1 r2
    rfl

theorem nonstudent_always_allowed_witness :
    enforceEventCourseAccess asciiUpper
      { sampleEvent with Course := "EE", YearLevel := "1", TaggedCoursesCSV := "IT" }
      sampleFaculty "student" = none :=
  (nonstudent_always_allowed asciiUpper
    { sampleEvent with Course := "EE", YearLevel := "1", TaggedCoursesCSV := "IT" }
    sampleFaculty "student" (by decide)).1

/-- C9: for a target user with role "student", `enforceEventCourseAccess` fails with the
course-not-set error exactly when the student's course is empty, whatever the event; any
other error it returns is the sentinel `ErrEventAccessDenied`; and the two errors differ, as
values and in their messages. -/
theorem student_course_errors (up : Char → Char) (event : Event) (student : User)
    (markedByRole : String) (hrole : student.Role = "student") :
    (enforceEventCourseAccess up event student markedByRole = some Err.courseNotSet ↔
      student.Course = "") ∧
    (∀ e, enforceEventCourseAccess up event student markedByRole = some e →
      e ≠ Err.courseNotSet → e = ErrEventAccessDenied) ∧
    Err.courseNotSet ≠ ErrEventAccessDenied ∧
    Err.courseNotSet.Error = "student course is not set. contact admin" ∧
    ErrEventAccessDenied.Error = "Not Authorized to scan QR Code" ∧
    Err.courseNotSet.Error ≠ ErrEventAccessDenied.Error := by
  refine ⟨?_, ?_, by decide, rfl, rfl, by decide⟩
  · by_cases hcourse : student.Course = ""
    · simp [enforceEventCourseAccess, hrole, hcourse]
    · rcases enforce_student_cases up event student markedByRole hrole hcourse with h | h
      · simp [h, hcourse]
      · simp [h, hcourse, ErrEventAccessDenied]
  · intro e he hne
    by_cases hcourse : student.Course = ""
    · simp [enforceEventCourseAccess, hrole, hcourse] at he
      exact absurd he.symm hne
    · rcases enforce_student_cases up event student markedByRole hrole hcourse with h | h
      · rw [h] at he
        exact Option.noConfusion he
      · rw [h] at he
        exact (Option.some.inj he).symm

theorem student_course_errors_witness :
    enforceEventCourseAccess asciiUpper sampleEvent { sampleStudent with Course := "" }
      "faculty" = some Err.courseNotSet ↔ ({ sampleStudent with Course := "" } : User).Course = "" :=
  (student_course_errors asciiUpper sampleEvent { sampleStudent with Course := "" } "faculty"
    rfl).1

/-- C10: for an event without tagged courses and a student with a non-empty course,
`enforceEventCourseAccess` allows access exactly when the event has no primary course
(whatever its year level and department), or the primary course equals the student's
course after trimming and upper-casing and each of year level and department that is set on
the event equals the student's value after trimming and upper-casing. -/
theorem primary_course_gate (up : Char → Char) (event : Event) (student : User)
    (markedByRole : String) (hrole : student.Role = "student")
    (hcourse : student.Course ≠ "") (htags : event.TaggedCoursesCSV = "") :
    enforceEventCourseAccess up event student markedByRole = none ↔
      event.Course = "" ∨
      (ToUpper up (TrimSpace event.Course) = ToUpper up (TrimSpace student.Course) ∧
        (event.YearLevel ≠ "" →
          ToUpper up (TrimSpace event.YearLevel) = ToUpper up (TrimSpace student.YearLevel)) ∧
        (event.Department ≠ "" →
          ToUpper up (TrimSpace event.Department) =
            ToUpper up (TrimSpace student.Department))) := by
  rw [enforce_student up event student markedByRole hrole hcourse]
  simp only [normalize, htags, and_true, ne_eq, if_true]
  by_cases hc : event.Course = ""
  · simp [hc]
  · by_cases hm : ToUpper up (TrimSpace student.Course) = ToUpper up (TrimSpace event.Course)
    · by_cases hy : event.YearLevel = "" <;> by_cases hd : event.Department = "" <;>
        by_cases hy2 : ToUpper up (TrimSpace event.YearLevel) =
          ToUpper up (TrimSpace student.YearLevel) <;>
        by_cases hd2 : ToUpper up (TrimSpace event.Department) =
          ToUpper up (TrimSpace student.Department) <;>
        simp [hc, hm, hy, hd, hy2, hd2, ErrEventAccessDenied]
    · have hm' : ¬ ToUpper up (TrimSpace event.Course) = ToUpper up (TrimSpace student.Course) :=
        fun h => hm h.symm
      simp [hc, hm, hm', ErrEventAccessDenied]

theorem primary_course_gate_witness :
    enforceEventCourseAccess asciiUpper { sampleEvent with Course := " CS " } sampleStudent
      "student" = none :=
  (primary_course_gate asciiUpper { sampleEvent with Course := " CS " } sampleStudent
    "student" rfl (by decide) rfl).mpr (Or.inr ⟨by decide, by decide, by decide⟩)

/-! ## Rejected actions leave the record alone -/

theorem persistAndCount_ok (s : Store) (att : Attendance) (isNew : Bool) (now : Time)
    (student : User) (studentID : String) (eventID : Nat) :
    ∃ r, (persistAndCount s att isNew now student studentID eventID).2 = Except.ok r := by
  cases isNew with
  | true =>
    obtain ⟨_, _, _, r, hr, _⟩ := persistAndCount_new s att now student studentID eventID
    exact ⟨r, hr⟩
  | false =>
    obtain ⟨_, r, hr, _⟩ := persistAndCount_old s att now student studentID eventID
    exact ⟨r, hr⟩

theorem MarkAttendance_error_store (up : Char → Char) (s : Store) (now : Time)
    (req : AttendanceRequest) (markedBy markedByRole : String) (e : Err)
    (h : (MarkAttendance up s now req markedBy markedByRole).2 = Except.error e) :
    (MarkAttendance up s now req markedBy markedByRole).1 = s := by
  rcases MarkAttendance_cases up s now req markedBy markedByRole with
    ⟨e', he⟩ | ⟨event, student, _, _, _, _, _, heq⟩
  · rw [he]
  · rw [heq] at h
    obtain ⟨r, hr⟩ := persistAndCount_ok s
      (applyAction req (findOrInitAttendance s req (resolveStudentID req.StudentID markedBy)
        markedBy markedByRole now).1 now event student markedByRole).1
      (findOrInitAttendance s req (resolveStudentID req.StudentID markedBy) markedBy
        markedByRole now).2 now student (resolveStudentID req.StudentID markedBy) req.EventID
    rw [hr] at h
    exact Except.noConfusion h

/-- C5: a check-in on a record whose `check_in_time` is set fails with "already checked in"
for every actor role and every time; a check-out fails with "must check in first" when
`check_in_time` is unset and with "already checked out" when `check_out_time` is set; in
each case the record is returned unchanged, and a `MarkAttendance` call that fails leaves
the store as it was. -/
theorem repeated_actions_rejected (att : Attendance) (now : Time) (event : Event)
    (student : User) (markedByRole : String) :
    (att.CheckInTime ≠ none →
      applyCheckIn att now event student markedByRole = (att, some Err.alreadyCheckedIn)) ∧
    (att.CheckInTime = none →
      applyCheckOut att now event student = (att, some Err.mustCheckInFirst)) ∧
    (att.CheckInTime ≠ none → att.CheckOutTime ≠ none →
      applyCheckOut att now event student = (att, some Err.alreadyCheckedOut)) ∧
    (∀ (up : Char → Char) (s : Store) (req : AttendanceRequest) (markedBy : String) (e : Err),
      (MarkAttendance up s now req markedBy markedByRole).2 = Except.error e →
      (MarkAttendance up s now req markedBy markedByRole).1 = s) := by
  refine ⟨?_, ?_, ?_, ?_⟩
  · intro h
    simp only [applyCheckIn, h, ne_eq, not_false_eq_true, if_true]
  · intro h
    simp only [applyCheckOut, h, if_true]
  · intro h1 h2
    simp only [applyCheckOut, h1, h2, ne_eq, not_false_eq_true, if_true, if_false]
  · intro up s req markedBy e h
    exact MarkAttendance_error_store up s now req markedBy markedByRole e h

theorem repeated_actions_rejected_witness :
    applyCheckIn sampleCheckedIn (10 * Hour) sampleEvent sampleStudent "faculty" =
      (sampleCheckedIn, some Err.alreadyCheckedIn) :=
  (repeated_actions_rejected sampleCheckedIn (10 * Hour) sampleEvent sampleStudent
    "faculty").1 (by decide)

theorem checkout_requires_checkin_witness :
    CheckOutAfterCheckIn { sampleCheckedOut with CreatedAt := 9 * Hour, UpdatedAt := 11 * Hour } :=
  checkout_requires_checkin asciiUpper sampleStore sampleCalls rfl
    (by unfold ClockMonotone; decide)
    { sampleCheckedOut with CreatedAt := 9 * Hour, UpdatedAt := 11 * Hour } (by decide)

theorem sampleCalls_ledger :
    (runCalls asciiUpper sampleStore sampleCalls).attendances =
      [{ sampleCheckedOut with CreatedAt := 9 * Hour, UpdatedAt := 11 * Hour }] := by
  decide

/-! ## One row per event and student -/

theorem pairMatch_iff (eventID : Nat) (studentID : String) (a : Attendance) :
    pairMatch eventID studentID a = true ↔ (a.EventID, a.StudentID) = (eventID, studentID) := by
  simp [pairMatch]

theorem MarkAttendance_unique (up : Char → Char) (s : Store) (now : Time)
    (req : AttendanceRequest) (markedBy markedByRole : String)
    (hk : KeyUnique s.attendances) (hp : PairUnique s.attendances) :
    KeyUnique (MarkAttendance up s now req markedBy markedByRole).1.attendances ∧
    PairUnique (MarkAttendance up s now req markedBy markedByRole).1.attendances := by
  rcases MarkAttendance_cases up s now req markedBy markedByRole with
    ⟨e, he⟩ | ⟨event, student, _, _, _, _, _, heq⟩
  · rw [he]
    exact ⟨hk, hp⟩
  · rw [heq]
    have hkeys := applyAction_keys req
      (findOrInitAttendance s req (resolveStudentID req.StudentID markedBy) markedBy
        markedByRole now).1 now event student markedByRole
    rcases findOrInitAttendance_flag s req (resolveStudentID req.StudentID markedBy)
        markedBy markedByRole now with ⟨hflag, hnone, hev, hst, _⟩ | ⟨hflag, hsome⟩
    · rw [hflag]
      obtain ⟨id, hid, hstore, _⟩ := persistAndCount_new s
        (applyAction req (findOrInitAttendance s req (resolveStudentID req.StudentID markedBy)
          markedBy markedByRole now).1 now event student markedByRole).1 now student
        (resolveStudentID req.StudentID markedBy) req.EventID
      rw [hstore]
      constructor
      · unfold KeyUnique at hk ⊢
        simp only [List.map_append, List.map_cons, List.map_nil]
        refine List.Nodup.append hk (List.nodup_singleton _) ?_
        rw [List.disjoint_singleton]
        intro hmem
        obtain ⟨x, hx, hxid⟩ := List.mem_map.mp hmem
        exact hid x hx hxid
      · unfold PairUnique at hp ⊢
        simp only [List.map_append, List.map_cons, List.map_nil]
        refine List.Nodup.append hp (List.nodup_singleton _) ?_
        rw [List.disjoint_singleton]
        intro hmem
        obtain ⟨x, hx, hxp⟩ := List.mem_map.mp hmem
        have hfalse := (firstRow_eq_none _ _ _).mp hnone x hx
        have htrue : pairMatch req.EventID (resolveStudentID req.StudentID markedBy) x = true := by
          rw [pairMatch_iff, hxp]
          simp only [Prod.mk.injEq]
          exact ⟨hkeys.2.1.trans hev, hkeys.2.2.trans hst⟩
        rw [htrue] at hfalse
        exact Bool.noConfusion hfalse
    · rw [hflag]
      obtain ⟨hstore, _⟩ := persistAndCount_old s
        (applyAction req (findOrInitAttendance s req (resolveStudentID req.StudentID markedBy)
          markedBy markedByRole now).1 now event student markedByRole).1 now student
        (resolveStudentID req.StudentID markedBy) req.EventID
      rw [hstore]
      have hmem := (firstRow_mem _ _ _ _ hsome).1
      constructor
      · unfold KeyUnique at hk ⊢
        simp only [List.map_map]
        have hcongr : List.map (Attendance.ID ∘ fun x =>
            if x.ID = (applyAction req (findOrInitAttendance s req
                (resolveStudentID req.StudentID markedBy) markedBy markedByRole now).1 now
                event student markedByRole).1.ID then
              { (applyAction req (findOrInitAttendance s req
                (resolveStudentID req.StudentID markedBy) markedBy markedByRole now).1 now
                event student markedByRole).1 with UpdatedAt := now }
            else x) s.attendances = List.map Attendance.ID s.attendances := by
          apply List.map_congr_left
          intro x _
          simp only [Function.comp_apply]
          split_ifs with hx
          · exact hx.symm
          · rfl
        rw [hcongr]
        exact hk
      · unfold PairUnique at hp ⊢
        simp only [List.map_map]
        have hcongr : List.map ((fun a : Attendance => (a.EventID, a.StudentID)) ∘ fun x =>
            if x.ID = (applyAction req (findOrInitAttendance s req
                (resolveStudentID req.StudentID markedBy) markedBy markedByRole now).1 now
                event student markedByRole).1.ID then
              { (applyAction req (findOrInitAttendance s req
                (resolveStudentID req.StudentID markedBy) markedBy markedByRole now).1 now
                event student markedByRole).1 with UpdatedAt := now }
            else x) s.attendances =
            List.map (fun a : Attendance => (a.EventID, a.StudentID)) s.attendances := by
          apply List.map_congr_left
          intro x hx
          simp only [Function.comp_apply]
          split_ifs with hxid
          · have hsame : x = (findOrInitAttendance s req
                (resolveStudentID req.StudentID markedBy) markedBy markedByRole now).1 :=
              List.inj_on_of_nodup_map hk hx hmem (hxid.trans hkeys.1)
            simp only [Prod.mk.injEq]
            rw [hsame]
            exact ⟨hkeys.2.1, hkeys.2.2⟩
          · rfl
        rw [hcongr]
        exact hp

theorem runCalls_unique (up : Char → Char) (calls : List Call) :
    ∀ s : Store, KeyUnique s.attendances → PairUnique s.attendances →
      KeyUnique (runCalls up s calls).attendances ∧
      PairUnique (runCalls up s calls).attendances := by
  induction calls with
  | nil =>
    intro s hk hp
    exact ⟨hk, hp⟩
  | cons c cs ih =>
    intro s hk hp
    have hstep := MarkAttendance_unique up { s with events := c.events, users := c.users }
      c.now c.req c.markedBy c.markedByRole hk hp
    exact ih (stepCall up s c) hstep.1 hstep.2

theorem first_checkin_row (up : Char → Char) (s : Store) (now : Time)
    (req : AttendanceRequest) (markedBy markedByRole : String) (r : MarkedAttendance)
    (hact : req.Action = "check_in")
    (hnone : ∀ a ∈ s.attendances,
      pairMatch req.EventID (resolveStudentID req.StudentID markedBy) a = false)
    (hok : (MarkAttendance up s now req markedBy markedByRole).2 = Except.ok r) :
    ∃ event student row id,
      loadEventByID s req.EventID = Except.ok event ∧
      loadStudentByID s (resolveStudentID req.StudentID markedBy) = Except.ok student ∧
      enforceEventCourseAccess up event student markedByRole = none ∧
      row.EventID = req.EventID ∧
      row.StudentID = resolveStudentID req.StudentID markedBy ∧
      row.CheckInTime = some now ∧
      (MarkAttendance up s now req markedBy markedByRole).1 =
        { s with attendances := s.attendances ++ [row], attendanceSeq := id } := by
  rcases MarkAttendance_cases up s now req markedBy markedByRole with
    ⟨e, he⟩ | ⟨event, student, _, h2, h3, h4, happ, heq⟩
  · rw [he] at hok
    exact Except.noConfusion hok
  · have hfirst := (firstRow_eq_none Attendance.ID
      (pairMatch req.EventID (resolveStudentID req.StudentID markedBy)) s.attendances).mpr hnone
    rcases findOrInitAttendance_flag s req (resolveStudentID req.StudentID markedBy)
        markedBy markedByRole now with ⟨hflag, _, hev, hst, _⟩ | ⟨_, hsome⟩
    · rw [hflag] at heq
      obtain ⟨id, _, hstore, _⟩ := persistAndCount_new s
        (applyAction req (findOrInitAttendance s req (resolveStudentID req.StudentID markedBy)
          markedBy markedByRole now).1 now event student markedByRole).1 now student
        (resolveStudentID req.StudentID markedBy) req.EventID
      have hkeys := applyAction_keys req
        (findOrInitAttendance s req (resolveStudentID req.StudentID markedBy) markedBy
          markedByRole now).1 now event student markedByRole
      have hin : (applyAction req (findOrInitAttendance s req
          (resolveStudentID req.StudentID markedBy) markedBy markedByRole now).1 now event
          student markedByRole).1.CheckInTime = some now := by
        unfold applyAction at happ ⊢
        rw [if_pos hact] at happ ⊢
        rw [(applyCheckIn_ok _ now event student markedByRole happ).2]
      refine ⟨event, student,
        { (applyAction req (findOrInitAttendance s req
            (resolveStudentID req.StudentID markedBy) markedBy markedByRole now).1 now event
            student markedByRole).1 with ID := id, CreatedAt := now, UpdatedAt := now },
        id, h2, h3, h4, ?_, ?_, ?_, ?_⟩
      · exact hkeys.2.1.trans hev
      · exact hkeys.2.2.trans hst
      · exact hin
      · rw [heq, hstore]
    · rw [hfirst] at hsome
      exact Option.noConfusion hsome

theorem validateAction_check_in : validateAction "check_in" = none := by
  decide

/-- C7: from a ledger with unique primary keys and at most one row per (event, student)
pair, any sequence of `MarkAttendance` calls leaves a ledger with at most one row per pair;
and when a first `check_in` for a pair succeeds, the ledger then holds exactly one row for
the pair, and every later `check_in` for the same pair, by any actor at any time, returns
"already checked in" and leaves the store unchanged. -/
theorem one_row_per_pair (up : Char → Char) (s : Store) (hk : KeyUnique s.attendances)
    (hp : PairUnique s.attendances) :
    (∀ calls : List Call, PairUnique (runCalls up s calls).attendances) ∧
    (∀ (now : Time) (req : AttendanceRequest) (markedBy markedByRole : String)
      (r : MarkedAttendance),
      req.Action = "check_in" →
      (∀ a ∈ s.attendances,
        pairMatch req.EventID (resolveStudentID req.StudentID markedBy) a = false) →
      (MarkAttendance up s now req markedBy markedByRole).2 = Except.ok r →
      ((MarkAttendance up s now req markedBy markedByRole).1.attendances.filter
          (pairMatch req.EventID (resolveStudentID req.StudentID markedBy))).length = 1 ∧
      ∀ (now2 : Time) (req2 : AttendanceRequest) (markedBy2 markedByRole2 : String),
        req2.Action = "check_in" → req2.EventID = req.EventID →
        resolveStudentID req2.StudentID markedBy2 = resolveStudentID req.StudentID markedBy →
        MarkAttendance up (MarkAttendance up s now req markedBy markedByRole).1 now2 req2
            markedBy2 markedByRole2 =
          ((MarkAttendance up s now req markedBy markedByRole).1,
            Except.error Err.alreadyCheckedIn)) := by
  refine ⟨fun calls => (runCalls_unique up calls s hk hp).2, ?_⟩
  intro now req markedBy markedByRole r hact hnone hok
  obtain ⟨event, student, row, id, h2, h3, h4, hev, hst, hin, hstore⟩ :=
    first_checkin_row up s now req markedBy markedByRole r hact hnone hok
  rw [hstore]
  have hrow : pairMatch req.EventID (resolveStudentID req.StudentID markedBy) row = true := by
    rw [pairMatch_iff, hev, hst]
  constructor
  · have hnil : s.attendances.filter
        (pairMatch req.EventID (resolveStudentID req.StudentID markedBy)) = [] := by
      rw [List.filter_eq_nil_iff]
      intro a ha
      rw [hnone a ha]
      exact Bool.false_ne_true
    simp only [List.filter_append, hnil, List.nil_append, List.filter_cons, hrow, if_true,
      List.filter_nil, List.length_singleton]
  · intro now2 req2 markedBy2 markedByRole2 hact2 hev2 hres2
    have hv : validateAction req2.Action = none := by
      rw [hact2]
      exact validateAction_check_in
    have hle : loadEventByID
        { s with attendances := s.attendances ++ [row], attendanceSeq := id } req2.EventID =
        Except.ok event := by
      rw [hev2]
      exact h2
    have hls : loadStudentByID
        { s with attendances := s.attendances ++ [row], attendanceSeq := id }
        (resolveStudentID req2.StudentID markedBy2) = Except.ok student := by
      rw [hres2]
      exact h3
    have henf : enforceEventCourseAccess up event student markedByRole2 = none := h4
    have hfound : (findOrInitAttendance
        { s with attendances := s.attendances ++ [row], attendanceSeq := id } req2
        (resolveStudentID req2.StudentID markedBy2) markedBy2 markedByRole2 now2).1 = row := by
      rcases findOrInitAttendance_flag
          { s with attendances := s.attendances ++ [row], attendanceSeq := id } req2
          (resolveStudentID req2.StudentID markedBy2) markedBy2 markedByRole2 now2 with
        ⟨_, hn, _⟩ | ⟨_, hsome⟩
      · have hfalse := (firstRow_eq_none _ _ _).mp hn row
          (List.mem_append_right _ (List.mem_singleton_self row))
        have ht := hrow
        rw [← hev2, ← hres2] at ht
        rw [ht] at hfalse
        exact Bool.noConfusion hfalse
      · obtain ⟨hmem, hmatch⟩ := firstRow_mem _ _ _ _ hsome
        rcases List.mem_append.mp hmem with hm | hm
        · have hf := hnone _ hm
          rw [← hev2, ← hres2] at hf
          rw [hf] at hmatch
          exact Bool.noConfusion hmatch
        · exact List.mem_singleton.mp hm
    have happlied : applyAction req2 (findOrInitAttendance
        { s with attendances := s.attendances ++ [row], attendanceSeq := id } req2
        (resolveStudentID req2.StudentID markedBy2) markedBy2 markedByRole2 now2).1 now2 event
        student markedByRole2 = (row, some Err.alreadyCheckedIn) := by
      rw [hfound]
      unfold applyAction
      rw [if_pos hact2]
      simp only [applyCheckIn, hin, ne_eq, reduceCtorEq, not_false_eq_true, if_true]
    simp only [MarkAttendance, hv, hle, hls, henf, happlied]

theorem sampleStore_unique :
    KeyUnique sampleStore.attendances ∧ PairUnique sampleStore.attendances :=
  ⟨List.nodup_nil, List.nodup_nil⟩

theorem one_row_per_pair_witness :
    PairUnique (runCalls asciiUpper sampleStore sampleCalls).attendances :=
  (one_row_per_pair asciiUpper sampleStore List.nodup_nil List.nodup_nil).1 sampleCalls

/-! ## What a successful call stores -/

theorem MarkAttendance_ok_row (up : Char → Char) (s : Store) (now : Time)
    (req : AttendanceRequest) (markedBy markedByRole : String) (r : MarkedAttendance)
    (hok : (MarkAttendance up s now req markedBy markedByRole).2 = Except.ok r) :
    ∃ event student,
      loadEventByID s req.EventID = Except.ok event ∧
      loadStudentByID s (resolveStudentID req.StudentID markedBy) = Except.ok student ∧
      (applyAction req
        (findOrInitAttendance s req (resolveStudentID req.StudentID markedBy) markedBy
          markedByRole now).1 now event student markedByRole).2 = none ∧
      r.row =
        { (applyAction req
            (findOrInitAttendance s req (resolveStudentID req.StudentID markedBy) markedBy
              markedByRole now).1 now event student markedByRole).1 with
          ID := r.row.ID, CreatedAt := r.row.CreatedAt, UpdatedAt := r.row.UpdatedAt } ∧
      r.row ∈ (MarkAttendance up s now req markedBy markedByRole).1.attendances := by
  rcases MarkAttendance_cases up s now req markedBy markedByRole with
    ⟨e, he⟩ | ⟨event, student, _, h2, h3, _, happ, heq⟩
  · rw [he] at hok
    exact Except.noConfusion hok
  · refine ⟨event, student, h2, h3, happ, ?_⟩
    rw [heq] at hok ⊢
    rcases findOrInitAttendance_flag s req (resolveStudentID req.StudentID markedBy)
        markedBy markedByRole now with ⟨hflag, _⟩ | ⟨hflag, hsome⟩
    · rw [hflag] at hok ⊢
      obtain ⟨id, _, hstore, r', hr', hrow⟩ := persistAndCount_new s
        (applyAction req (findOrInitAttendance s req (resolveStudentID req.StudentID markedBy)
          markedBy markedByRole now).1 now event student markedByRole).1 now student
        (resolveStudentID req.StudentID markedBy) req.EventID
      rw [hr'] at hok
      have hrr : r' = r := Except.ok.inj hok
      rw [hrr] at hrow
      rw [hstore]
      constructor
      · rw [hrow]
      · rw [hrow]
        exact List.mem_append_right _ (List.mem_singleton_self _)
    · rw [hflag] at hok ⊢
      obtain ⟨hstore, r', hr', hrow⟩ := persistAndCount_old s
        (applyAction req (findOrInitAttendance s req (resolveStudentID req.StudentID markedBy)
          markedBy markedByRole now).1 now event student markedByRole).1 now student
        (resolveStudentID req.StudentID markedBy) req.EventID
      rw [hr'] at hok
      have hrr : r' = r := Except.ok.inj hok
      rw [hrr] at hrow
      rw [hstore]
      constructor
      · rw [hrow]
      · rw [hrow]
        apply List.mem_map.mpr
        refine ⟨_, (firstRow_mem _ _ _ _ hsome).1, ?_⟩
        rw [if_pos (applyAction_keys req _ now event student markedByRole).1.symm]

/-- C3: a check-in that succeeds at `now` sets `check_in_time = now`, sets
`check_in_status = determineTimeStatus now start_time 15min`, and sets `status` to "late"
when that classification is "late" and to "present" otherwise, so that `status` is "late"
exactly when `check_in_status` is; no other field of the record changes; and the row that a
successful `MarkAttendance` check-in returns and stores carries these three values. -/
theorem applyCheckIn_success (att : Attendance) (now : Time) (event : Event) (student : User)
    (role : String) (hok : (applyCheckIn att now event student role).2 = none) :
    (applyCheckIn att now event student role).1.CheckInTime = some now ∧
    (applyCheckIn att now event student role).1.CheckInStatus =
      determineTimeStatus now event.StartTime (15 * Minute) ∧
    (applyCheckIn att now event student role).1.Status =
      (if determineTimeStatus now event.StartTime (15 * Minute) = "late" then "late"
       else "present") ∧
    ((applyCheckIn att now event student role).1.Status = "late" ↔
      (applyCheckIn att now event student role).1.CheckInStatus = "late") ∧
    (applyCheckIn att now event student role).1 =
      { att with
        CheckInTime := some now,
        CheckInStatus := determineTimeStatus now event.StartTime (15 * Minute),
        Status :=
          if determineTimeStatus now event.StartTime (15 * Minute) = "late" then "late"
          else "present" } ∧
    (∀ (up : Char → Char) (s : Store) (req : AttendanceRequest) (markedBy : String)
      (r : MarkedAttendance), req.Action = "check_in" →
      (MarkAttendance up s now req markedBy role).2 = Except.ok r →
      ∃ ev, loadEventByID s req.EventID = Except.ok ev ∧
        r.row ∈ (MarkAttendance up s now req markedBy role).1.attendances ∧
        r.row.CheckInTime = some now ∧
        r.row.CheckInStatus = determineTimeStatus now ev.StartTime (15 * Minute) ∧
        r.row.Status =
          (if determineTimeStatus now ev.StartTime (15 * Minute) = "late" then "late"
           else "present")) := by
  have key := (applyCheckIn_ok att now event student role hok).2
  refine ⟨?_, ?_, ?_, ?_, key, ?_⟩
  · rw [key]
  · rw [key]
  · rw [key]
  · rw [key]
    show ((if determineTimeStatus now event.StartTime (15 * Minute) = "late" then "late"
      else "present") = "late" ↔ determineTimeStatus now event.StartTime (15 * Minute) = "late")
    by_cases h : determineTimeStatus now event.StartTime (15 * Minute) = "late"
    · simp [h]
    · simp [h]
  · intro up s req markedBy r hact hmark
    obtain ⟨ev, st, hev, _, happ, hrow, hmem⟩ :=
      MarkAttendance_ok_row up s now req markedBy role r hmark
    refine ⟨ev, hev, hmem, ?_, ?_, ?_⟩
    all_goals
      unfold applyAction at happ hrow
      rw [if_pos hact] at happ hrow
      rw [(applyCheckIn_ok _ now ev st role happ).2] at hrow
    · exact congrArg Attendance.CheckInTime hrow
    · exact congrArg Attendance.CheckInStatus hrow
    · exact congrArg Attendance.Status hrow

theorem applyCheckIn_success_witness :
    (applyCheckIn sampleFresh (9 * Hour) sampleEvent sampleStudent "student").1.CheckInTime
      = some (9 * Hour) :=
  (applyCheckIn_success sampleFresh (9 * Hour) sampleEvent sampleStudent "student"
    (by decide)).1

/-- C4: on a record with `check_in_time` set and `check_out_time` unset, a check-out at any
`now` succeeds (the transition takes no actor role), sets `check_out_time = now` and
`check_out_status = determineTimeStatus now end_time 0`, and leaves `status`,
`check_in_time`, `check_in_status` and every other field unchanged; and the row that a
successful `MarkAttendance` check-out returns and stores carries the two new values next to
the `status`, `check_in_time` and `check_in_status` of the row that was stored for the
pair. -/
theorem applyCheckOut_success (att : Attendance) (now : Time) (event : Event) (student : User)
    (hin : att.CheckInTime ≠ none) (hout : att.CheckOutTime = none) :
    (applyCheckOut att now event student).2 = none ∧
    (applyCheckOut att now event student).1.CheckOutTime = some now ∧
    (applyCheckOut att now event student).1.CheckOutStatus =
      determineTimeStatus now event.EndTime 0 ∧
    (applyCheckOut att now event student).1.Status = att.Status ∧
    (applyCheckOut att now event student).1.CheckInTime = att.CheckInTime ∧
    (applyCheckOut att now event student).1.CheckInStatus = att.CheckInStatus ∧
    (applyCheckOut att now event student).1 =
      { att with
        CheckOutTime := some now,
        CheckOutStatus := determineTimeStatus now event.EndTime 0 } ∧
    (∀ (up : Char → Char) (s : Store) (req : AttendanceRequest) (markedBy markedByRole : String)
      (r : MarkedAttendance), req.Action = "check_out" →
      (MarkAttendance up s now req markedBy markedByRole).2 = Except.ok r →
      ∃ ev old, loadEventByID s req.EventID = Except.ok ev ∧
        old ∈ s.attendances ∧
        pairMatch req.EventID (resolveStudentID req.StudentID markedBy) old = true ∧
        r.row ∈ (MarkAttendance up s now req markedBy markedByRole).1.attendances ∧
        r.row.CheckOutTime = some now ∧
        r.row.CheckOutStatus = determineTimeStatus now ev.EndTime 0 ∧
        r.row.Status = old.Status ∧
        r.row.CheckInTime = old.CheckInTime ∧
        r.row.CheckInStatus = old.CheckInStatus) := by
  have key : applyCheckOut att now event student =
      ({ att with
        CheckOutTime := some now,
        CheckOutStatus := determineTimeStatus now event.EndTime 0 }, none) := by
    simp only [applyCheckOut, hin, hout, ne_eq, not_true_eq_false, if_false]
  rw [key]
  refine ⟨rfl, rfl, rfl, rfl, rfl, rfl, rfl, ?_⟩
  intro up s req markedBy markedByRole r hact hmark
  obtain ⟨ev, st, hev, _, happ, hrow, hmem⟩ :=
    MarkAttendance_ok_row up s now req markedBy markedByRole r hmark
  have hne : ¬ req.Action = "check_in" := by
    rw [hact]
    decide
  unfold applyAction at happ hrow
  rw [if_neg hne, if_pos hact] at happ hrow
  obtain ⟨hcin, _, hco⟩ := applyCheckOut_ok _ now ev st happ
  rw [hco] at hrow
  rcases findOrInitAttendance_flag s req (resolveStudentID req.StudentID markedBy)
      markedBy markedByRole now with ⟨_, _, _, _, hfresh⟩ | ⟨_, hsome⟩
  · exact absurd hfresh hcin
  · obtain ⟨hold, hmatch⟩ := firstRow_mem _ _ _ _ hsome
    exact ⟨ev, _, hev, hold, hmatch, hmem, congrArg Attendance.CheckOutTime hrow,
      congrArg Attendance.CheckOutStatus hrow, (congrArg Attendance.Status hrow).trans rfl,
      (congrArg Attendance.CheckInTime hrow).trans rfl,
      (congrArg Attendance.CheckInStatus hrow).trans rfl⟩

theorem applyCheckOut_success_witness :
    (applyCheckOut sampleCheckedIn (11 * Hour) sampleEvent sampleStudent).2 = none :=
  (applyCheckOut_success sampleCheckedIn (11 * Hour) sampleEvent sampleStudent
    (by decide) (by decide)).1

/-! ## Course access: tagged courses -/

theorem taggedCourseCheck_eq_none (up : Char → Char) (event : Event) (c y d : String) :
    taggedCourseCheck up event c y d = none ↔
      (∃ tag ∈ Split event.TaggedCoursesCSV ',', normalize up tag = c) ∧
      (event.YearLevel ≠ "" → normalize up event.YearLevel = y) ∧
      (event.Department ≠ "" → normalize up event.Department = d) := by
  by_cases hany : (Split event.TaggedCoursesCSV ',').any
      (fun t => decide (normalize up t = c)) = true
  · have hex : ∃ tag ∈ Split event.TaggedCoursesCSV ',', normalize up tag = c := by
      obtain ⟨t, ht, htc⟩ := List.any_eq_true.mp hany
      exact ⟨t, ht, of_decide_eq_true htc⟩
    by_cases hy : event.YearLevel = "" <;> by_cases hd : event.Department = "" <;>
      by_cases hy2 : normalize up event.YearLevel = y <;>
      by_cases hd2 : normalize up event.Department = d <;>
      simp [taggedCourseCheck, hany, hex, hy, hd, hy2, hd2, ErrEventAccessDenied]
  · have hex : ¬ ∃ tag ∈ Split event.TaggedCoursesCSV ',', normalize up tag = c := by
      rintro ⟨t, ht, htc⟩
      exact hany (List.any_eq_true.mpr ⟨t, ht, decide_eq_true htc⟩)
    have hany' : (Split event.TaggedCoursesCSV ',').any
        (fun t => decide (normalize up t = c)) = false := by
      simpa using hany
    have hleft : taggedCourseCheck up event c y d ≠ none := by
      simp [taggedCourseCheck, hany', ErrEventAccessDenied]
    constructor
    · intro h
      exact absurd h hleft
    · intro h
      exact absurd h.1 hex

/-- C11: for an event with a non-empty tagged-course list and a student with a non-empty
course, `enforceEventCourseAccess` allows access exactly when the student's course,
trimmed and upper-cased, equals some comma-separated tag, trimmed and upper-cased, and each
of year level and department that is set on the event equals the student's value after
trimming and upper-casing; the result is the same whatever the event's primary course, and
a student whose course is in no tag is denied with `ErrEventAccessDenied` even when it
matches the primary course. -/
theorem tagged_course_gate (up : Char → Char) (event : Event) (student : User)
    (markedByRole : String) (hrole : student.Role = "student")
    (hcourse : student.Course ≠ "") (htags : event.TaggedCoursesCSV ≠ "") :
    (enforceEventCourseAccess up event student markedByRole = none ↔
      (∃ tag ∈ Split event.TaggedCoursesCSV ',',
        ToUpper up (TrimSpace tag) = ToUpper up (TrimSpace student.Course)) ∧
      (event.YearLevel ≠ "" →
        ToUpper up (TrimSpace event.YearLevel) = ToUpper up (TrimSpace student.YearLevel)) ∧
      (event.Department ≠ "" →
        ToUpper up (TrimSpace event.Department) =
          ToUpper up (TrimSpace student.Department))) ∧
    (∀ primary : String,
      enforceEventCourseAccess up { event with Course := primary } student markedByRole =
        enforceEventCourseAccess up event student markedByRole) ∧
    ((¬ ∃ tag ∈ Split event.TaggedCoursesCSV ',',
        ToUpper up (TrimSpace tag) = ToUpper up (TrimSpace student.Course)) →
      enforceEventCourseAccess up event student markedByRole = some ErrEventAccessDenied) := by
  have main : ∀ ev : Event, ev.TaggedCoursesCSV = event.TaggedCoursesCSV →
      ev.YearLevel = event.YearLevel → ev.Department = event.Department →
      (enforceEventCourseAccess up ev student markedByRole = none ↔
        (∃ tag ∈ Split event.TaggedCoursesCSV ',',
          normalize up tag = normalize up student.Course) ∧
        (event.YearLevel ≠ "" →
          normalize up event.YearLevel = normalize up student.YearLevel) ∧
        (event.Department ≠ "" →
          normalize up event.Department = normalize up student.Department)) := by
    intro ev h1 h2 h3
    have htags' : ev.TaggedCoursesCSV ≠ "" := by rw [h1]; exact htags
    rw [enforce_student up ev student markedByRole hrole hcourse]
    rw [if_neg (fun h => htags' h.2), if_neg htags']
    have htc := taggedCourseCheck_eq_none up ev (normalize up student.Course)
      (normalize up student.YearLevel) (normalize up student.Department)
    rw [h1, h2, h3] at htc
    by_cases hbad : ev.Course ≠ "" ∧ normalize up student.Course = normalize up ev.Course ∧
        ((ev.YearLevel ≠ "" ∧
            normalize up ev.YearLevel ≠ normalize up student.YearLevel) ∨
          (ev.Department ≠ "" ∧
            normalize up ev.Department ≠ normalize up student.Department))
    · rw [if_pos hbad]
      rw [h2, h3] at hbad
      constructor
      · intro h
        exact absurd h (by simp [ErrEventAccessDenied])
      · rintro ⟨_, hy, hd⟩
        rcases hbad.2.2 with ⟨hy1, hy2⟩ | ⟨hd1, hd2⟩
        · exact absurd (hy hy1) hy2
        · exact absurd (hd hd1) hd2
    · rw [if_neg hbad]
      exact htc
  have cases2 := enforce_student_cases up event student markedByRole hrole hcourse
  refine ⟨main event rfl rfl rfl, ?_, ?_⟩
  · intro primary
    have h1 := main { event with Course := primary } rfl rfl rfl
    have h2 := main event rfl rfl rfl
    have c1 := enforce_student_cases up { event with Course := primary } student markedByRole
      hrole hcourse
    rcases c1 with c1 | c1 <;> rcases cases2 with c2 | c2
    · rw [c1, c2]
    · rw [c2] at h2
      exact absurd (h2.mpr (h1.mp c1)) (by simp [ErrEventAccessDenied])
    · rw [c1] at h1
      exact absurd (h1.mpr (h2.mp c2)) (by simp [ErrEventAccessDenied])
    · rw [c1, c2]
  · intro hno
    rcases cases2 with c2 | c2
    · exact absurd ((main event rfl rfl rfl).mp c2).1 hno
    · exact c2

theorem tagged_course_gate_witness :
    enforceEventCourseAccess asciiUpper { sampleTaggedEvent with Course := "EE" }
      sampleStudentEE "student" = some ErrEventAccessDenied :=
  (tagged_course_gate asciiUpper { sampleTaggedEvent with Course := "EE" } sampleStudentEE
    "student" rfl (by decide) (by decide)).2.2 (by decide)

/-! ## The evaluator inside `MarkAttendance` -/

theorem applyAction_error_kind (req : AttendanceRequest) (a : Attendance) (now : Time)
    (event : Event) (student : User) (role : String) (e : Err)
    (h : (applyAction req a now event student role).2 = some e) :
    e ≠ Err.courseNotSet ∧ e ≠ ErrEventAccessDenied := by
  simp only [applyAction, applyCheckIn, applyCheckOut] at h
  split_ifs at h <;> simp only [Option.some.injEq, reduceCtorEq] at h <;>
    subst h <;> exact ⟨by simp, by simp [ErrEventAccessDenied]⟩

/-- C12: for a request with a valid action, an active event and an existing target student,
`MarkAttendance` returns exactly the evaluator's error, and leaves the store alone, whenever
`enforceEventCourseAccess` denies the target student, and when the evaluator allows the
student no error of `MarkAttendance` is a course error; for an event tagged "CS,IT" a
check-in of a student of course "EE" is refused with `ErrEventAccessDenied`, and the
evaluator lets a student of course "cs" pass, whose check-in succeeds. -/
theorem course_denial_propagates (up : Char → Char) (s : Store) (now : Time)
    (req : AttendanceRequest) (markedBy markedByRole : String) (event : Event)
    (student : User) (hv : validateAction req.Action = none)
    (he : loadEventByID s req.EventID = Except.ok event)
    (hs : loadStudentByID s (resolveStudentID req.StudentID markedBy) = Except.ok student) :
    (∀ e, enforceEventCourseAccess up event student markedByRole = some e →
      MarkAttendance up s now req markedBy markedByRole = (s, Except.error e)) ∧
    (enforceEventCourseAccess up event student markedByRole = none →
      ∀ e, (MarkAttendance up s now req markedBy markedByRole).2 = Except.error e →
        e ≠ Err.courseNotSet ∧ e ≠ ErrEventAccessDenied) ∧
    enforceEventCourseAccess asciiUpper sampleTaggedEvent sampleStudentEE "student" =
      some ErrEventAccessDenied ∧
    MarkAttendance asciiUpper sampleTaggedStore (9 * Hour)
        { zeroRequest with EventID := 2, Action := "check_in" } "S-2" "student" =
      (sampleTaggedStore, Except.error ErrEventAccessDenied) ∧
    enforceEventCourseAccess asciiUpper sampleTaggedEvent sampleStudent "student" = none ∧
    (∃ r, (MarkAttendance asciiUpper sampleTaggedStore (9 * Hour)
        { zeroRequest with EventID := 2, Action := "check_in" } "S-1" "student").2 =
      Except.ok r) := by
  refine ⟨?_, ?_, by decide, by rfl, by decide, ?_⟩
  · intro e h
    simp only [MarkAttendance, hv, he, hs, h]
  · intro h e herr
    rcases MarkAttendance_cases up s now req markedBy markedByRole with
      ⟨e', he'⟩ | ⟨event', student', _, h2, h3, _, _, heq⟩
    · have hcopy := he'
      simp only [MarkAttendance, hv, he, hs, h] at hcopy
      rw [he'] at herr
      have hee : e' = e := Except.error.inj herr
      subst hee
      cases happ : (applyAction req
          (findOrInitAttendance s req (resolveStudentID req.StudentID markedBy) markedBy
            markedByRole now).1 now event student markedByRole).2 with
      | none =>
        rw [happ] at hcopy
        simp only at hcopy
        obtain ⟨r, hr⟩ := persistAndCount_ok s
          (applyAction req (findOrInitAttendance s req (resolveStudentID req.StudentID markedBy)
            markedBy markedByRole now).1 now event student markedByRole).1
          (findOrInitAttendance s req (resolveStudentID req.StudentID markedBy) markedBy
            markedByRole now).2 now student (resolveStudentID req.StudentID markedBy)
          req.EventID
        have h2' := congrArg Prod.snd hcopy
        simp only at h2'
        rw [hr] at h2'
        exact Except.noConfusion h2'
      | some e2 =>
        rw [happ] at hcopy
        simp only [Prod.mk.injEq, Except.error.injEq, true_and] at hcopy
        rw [← hcopy]
        exact applyAction_error_kind req _ now event student markedByRole e2 happ
    · rw [heq] at herr
      obtain ⟨r, hr⟩ := persistAndCount_ok s
        (applyAction req (findOrInitAttendance s req (resolveStudentID req.StudentID markedBy)
          markedBy markedByRole now).1 now event' student' markedByRole).1
        (findOrInitAttendance s req (resolveStudentID req.StudentID markedBy) markedBy
          markedByRole now).2 now student' (resolveStudentID req.StudentID markedBy)
        req.EventID
      rw [hr] at herr
      exact Except.noConfusion herr
  · exact ⟨_, rfl⟩

theorem course_denial_propagates_witness :
    MarkAttendance asciiUpper sampleTaggedStore (9 * Hour)
        { zeroRequest with EventID := 2, StudentID := "S-2", Action := "check_out" } "F-1"
        "faculty" =
      (sampleTaggedStore, Except.error ErrEventAccessDenied) :=
  (course_denial_propagates asciiUpper sampleTaggedStore (9 * Hour)
    { zeroRequest with EventID := 2, StudentID := "S-2", Action := "check_out" } "F-1"
    "faculty" sampleTaggedEvent sampleStudentEE (by decide) rfl rfl).1
    ErrEventAccessDenied (by decide)

/-! ## Marking on behalf of another student -/

/-- C13, as stated, fails: a student who names another student in a request without
`event_id` is answered with the 400 error "event_id is required", not with the
access-denied error, because the handler tests `event_id` and `action` before it checks
the acting party. -/
theorem permission_check_follows_presence_checks :
    sampleStudent.Role = "student" ∧ sampleStudent.StudentID = "S-1" ∧
    controller.MarkAttendance asciiUpper sampleStore (9 * Hour) (some sampleStudent) ""
        (some { zeroRequest with EventID := 0, StudentID := "S-2", Action := "check_in" }) =
      (sampleStore, Response.jsonError 400 "event_id is required") ∧
    controller.MarkAttendance asciiUpper sampleStore (9 * Hour) (some sampleStudent) ""
        (some { zeroRequest with EventID := 0, StudentID := "S-2", Action := "check_in" }) ≠
      (sampleStore, Response.fiberError 403 "You can only mark your own attendance") := by
  decide

/-- C13, amended: a mark-attendance request with a non-zero `event_id` and a non-empty
`action` whose actor is neither the target student nor a faculty, admin or superadmin user
is answered with the 403 error "You can only mark your own attendance", whose message
differs from that of `ErrEventAccessDenied`, and the store is unchanged; a request without
`event_id` or `action` is answered with a 400 error and the store is unchanged; and a
request that names no target student passes the permission check for every actor, is never
answered with the 403 permission error, and resolves its target to the actor. -/
theorem own_attendance_only (up : Char → Char) (s : Store) (now : Time) (user : User)
    (headerStudentID : String) (req : AttendanceRequest) (hevent : req.EventID ≠ 0)
    (haction : req.Action ≠ "")
    (htarget : req.StudentID ≠ "" ∧ req.StudentID ≠ user.StudentID)
    (hrole : user.Role ≠ "superadmin" ∧ user.Role ≠ "admin" ∧ user.Role ≠ "faculty") :
    controller.MarkAttendance up s now (some user) headerStudentID (some req) =
      (s, Response.fiberError 403 "You can only mark your own attendance") ∧
    "You can only mark your own attendance" ≠ ErrEventAccessDenied.Error ∧
    (∀ (actor : Option User) (req0 : AttendanceRequest),
      req0.EventID = 0 ∨ req0.Action = "" →
      (controller.MarkAttendance up s now actor headerStudentID (some req0)).1 = s ∧
      ∃ msg, (controller.MarkAttendance up s now actor headerStudentID (some req0)).2 =
        Response.jsonError 400 msg) ∧
    (∀ (actor : User) (req0 : AttendanceRequest), req0.StudentID = "" →
      getUserAndCheckPermissions s (some actor) headerStudentID req0.StudentID =
        Except.ok actor ∧
      resolveStudentID req0.StudentID actor.StudentID = actor.StudentID ∧
      (controller.MarkAttendance up s now (some actor) headerStudentID (some req0)).2 ≠
        Response.fiberError 403 "You can only mark your own attendance") := by
  refine ⟨?_, by decide, ?_, ?_⟩
  · simp only [controller.MarkAttendance, hevent, haction, if_false, getUserAndCheckPermissions,
      htarget, hrole, ne_eq, not_false_eq_true, and_self, if_true]
  · intro actor req0 h0
    by_cases h1 : req0.EventID = 0
    · simp only [controller.MarkAttendance, h1, if_true]
      exact ⟨trivial, _, rfl⟩
    · have h2 : req0.Action = "" := h0.resolve_left h1
      simp only [controller.MarkAttendance, h1, h2, if_true, if_false]
      exact ⟨trivial, _, rfl⟩
  · intro actor req0 h0
    have hperm : getUserAndCheckPermissions s (some actor) headerStudentID req0.StudentID =
        Except.ok actor := by
      simp only [getUserAndCheckPermissions, h0, ne_eq, not_true_eq_false, false_and, if_false]
    refine ⟨hperm, ?_, ?_⟩
    · simp only [resolveStudentID, h0, if_true]
    · unfold controller.MarkAttendance
      simp only [hperm]
      split_ifs
      · simp
      · simp
      · split
        · split_ifs <;> simp
        · simp

theorem own_attendance_only_witness :
    controller.MarkAttendance asciiUpper sampleStore (9 * Hour) (some sampleStudent) ""
        (some { zeroRequest with EventID := 1, StudentID := "S-2", Action := "check_in" }) =
      (sampleStore, Response.fiberError 403 "You can only mark your own attendance") :=
  (own_attendance_only asciiUpper sampleStore (9 * Hour) sampleStudent ""
    { zeroRequest with EventID := 1, StudentID := "S-2", Action := "check_in" }
    (by decide) (by decide) (by decide) (by decide)).1

/-! ## Loops that update a table row by row -/

theorem updateEach_eq_map {α κ : Type} [DecidableEq κ] (key : α → κ)
    (updates : α → Option (α → α)) (L : List α) :
    ∀ rows : List α,
      updateEach key updates L rows =
        rows.map (fun r =>
          L.foldl
            (fun acc st => if key acc = key st then applyUpdates updates st acc else acc) r) := by
  induction L with
  | nil =>
    intro rows
    simp [updateEach]
  | cons st L ih =>
    intro rows
    have hstep : updateEach key updates (st :: L) rows =
        updateEach key updates L
          (rows.map (fun r => if key r = key st then applyUpdates updates st r else r)) := by
      simp only [updateEach, List.foldl_cons]
      congr 1
      cases h : updates st with
      | none => simp [applyUpdates, h]
      | some f => simp [applyUpdates, h, updateWhere]
    rw [hstep, ih]
    simp only [List.map_map, List.foldl_cons]
    rfl

theorem rowFold_untouched {α κ : Type} [DecidableEq κ] (key : α → κ)
    (updates : α → Option (α → α)) (L : List α) (v : α) (h : ∀ st ∈ L, key st ≠ key v) :
    L.foldl (fun acc st => if key acc = key st then applyUpdates updates st acc else acc) v =
      v := by
  induction L with
  | nil => rfl
  | cons st L ih =>
    simp only [List.foldl_cons]
    have hne : ¬ key v = key st := fun hk => h st (List.mem_cons_self _ _) hk.symm
    rw [if_neg hne]
    exact ih (fun x hx => h x (List.mem_cons_of_mem _ hx))

theorem applyUpdates_key {α κ : Type} (key : α → κ) (updates : α → Option (α → α))
    (hkeep : ∀ st f, updates st = some f → ∀ r, key (f r) = key r) (st r : α) :
    key (applyUpdates updates st r) = key r := by
  unfold applyUpdates
  cases h : updates st with
  | none => rfl
  | some f => exact hkeep st f h r

theorem rowFold_eq {α κ : Type} [DecidableEq κ] (key : α → κ) (updates : α → Option (α → α))
    (hkeep : ∀ st f, updates st = some f → ∀ r, key (f r) = key r) (rows : List α)
    (hrows : (rows.map key).Nodup) (L : List α) (hsub : ∀ st ∈ L, st ∈ rows)
    (hL : (L.map key).Nodup) (u : α) (hu : u ∈ rows) :
    (u ∈ L →
      L.foldl (fun acc st => if key acc = key st then applyUpdates updates st acc else acc) u =
        applyUpdates updates u u) ∧
    (u ∉ L →
      L.foldl (fun acc st => if key acc = key st then applyUpdates updates st acc else acc) u =
        u) := by
  induction L with
  | nil =>
    constructor
    · intro h
      exact absurd h (List.not_mem_nil u)
    · intro _
      rfl
  | cons st L ih =>
    have hL' : key st ∉ L.map key ∧ (L.map key).Nodup := List.nodup_cons.mp hL
    have ih' := ih (fun x hx => hsub x (List.mem_cons_of_mem _ hx)) hL'.2
    by_cases hst : st = u
    · subst hst
      have hnotin : ∀ x ∈ L, key x ≠ key st := by
        intro x hx hk
        exact hL'.1 (List.mem_map.mpr ⟨x, hx, hk⟩)
      constructor
      · intro _
        simp only [List.foldl_cons, if_true]
        apply rowFold_untouched key updates L (applyUpdates updates st st)
        intro x hx
        rw [applyUpdates_key key updates hkeep st st]
        exact hnotin x hx
      · intro h
        exact absurd (List.mem_cons_self _ _) h
    · have hkey : ¬ key u = key st := by
        intro hk
        exact hst (List.inj_on_of_nodup_map hrows (hsub st (List.mem_cons_self _ _)) hu
          hk.symm)
      constructor
      · intro h
        have hin : u ∈ L := by
          rcases List.mem_cons.mp h with h | h
          · exact absurd h.symm hst
          · exact h
        simp only [List.foldl_cons]
        rw [if_neg hkey]
        exact ih'.1 hin
      · intro h
        have hnin : u ∉ L := fun hx => h (List.mem_cons_of_mem _ hx)
        simp only [List.foldl_cons]
        rw [if_neg hkey]
        exact ih'.2 hnin

theorem updateEach_filter {α κ : Type} [DecidableEq κ] (key : α → κ)
    (updates : α → Option (α → α))
    (hkeep : ∀ st f, updates st = some f → ∀ r, key (f r) = key r)
    (sel : α → Bool) (rows : List α) (hu : (rows.map key).Nodup) :
    updateEach key updates (rows.filter sel) rows =
      rows.map (fun u => if sel u = true then applyUpdates updates u u else u) := by
  rw [updateEach_eq_map key updates (rows.filter sel) rows]
  apply List.map_congr_left
  intro u hmem
  have hsub : ∀ st ∈ rows.filter sel, st ∈ rows := fun st hst => (List.mem_filter.mp hst).1
  have hL : ((rows.filter sel).map key).Nodup :=
    List.Nodup.sublist (List.Sublist.map _ (List.filter_sublist rows)) hu
  have h := rowFold_eq key updates hkeep rows hu (rows.filter sel) hsub hL u hmem
  by_cases hs : sel u = true
  · simp only [hs, if_true]
    exact h.1 (List.mem_filter.mpr ⟨hmem, hs⟩)
  · simp only [hs, if_false]
    exact h.2 (fun hx => hs (List.mem_filter.mp hx).2)

/-! ## QR activation and reversion, row by row -/

theorem activationUpdates_key (enc : String → Option String) (now : Time) (eventID : Nat)
    (st : User) (f : User → User) (h : activationUpdates enc now eventID st = some f)
    (r : User) : (f r).StudentID = r.StudentID := by
  unfold activationUpdates at h
  split_ifs at h
  cases henc : enc (eventQRContent eventID st.StudentID) with
  | none =>
    rw [henc] at h
    exact Option.noConfusion h
  | some png =>
    rw [henc] at h
    simp only [Option.some.injEq] at h
    rw [← h]

theorem reversionUpdates_key (enc : String → Option String) (now : Time)
    (st : User) (f : User → User) (h : reversionUpdates enc now st = some f)
    (r : User) : (f r).StudentID = r.StudentID := by
  unfold reversionUpdates at h
  split_ifs at h
  · simp only [Option.some.injEq] at h
    rw [← h]
  · cases henc : enc (studentQRContent st.StudentID) with
    | none =>
      rw [henc] at h
      exact Option.noConfusion h
    | some png =>
      rw [henc] at h
      simp only [Option.some.injEq] at h
      rw [← h]

theorem updateStudentQRCodesForEvent_rows (enc : String → Option String) (now : Time)
    (s : Store) (eventID : Nat) (courses : List String) (yearLevel sectionArg : String)
    (ev : Event)
    (hevent : firstRow Event.ID (fun e => decide (e.ID = eventID)) s.events = some ev)
    (hids : (s.users.map User.StudentID).Nodup) :
    updateStudentQRCodesForEvent enc now s eventID courses yearLevel sectionArg =
      { s with users := s.users.map (fun u =>
          if (decide (u.Course ∈ courses) &&
              (decide (yearLevel = "") || decide (u.YearLevel = yearLevel)) &&
              (decide (sectionArg = "") || decide (u.Section = sectionArg))) = true then
            applyUpdates (activationUpdates enc now eventID) u u
          else u) } := by
  simp only [updateStudentQRCodesForEvent, hevent]
  rw [updateEach_filter User.StudentID (activationUpdates enc now eventID)
    (activationUpdates_key enc now eventID) _ s.users hids]

theorem updateStudentQRCodesForEvent_missing (enc : String → Option String) (now : Time)
    (s : Store) (eventID : Nat) (courses : List String) (yearLevel sectionArg : String)
    (hevent : firstRow Event.ID (fun e => decide (e.ID = eventID)) s.events = none) :
    updateStudentQRCodesForEvent enc now s eventID courses yearLevel sectionArg = s := by
  simp only [updateStudentQRCodesForEvent, hevent]

theorem RevertStudentQRCodesForEvent_rows (enc : String → Option String) (now : Time)
    (s : Store) (eventID : Nat) (hids : (s.users.map User.StudentID).Nodup) :
    RevertStudentQRCodesForEvent enc now s eventID =
      ({ s with users := s.users.map (fun u =>
          if decide (u.ActiveEventID = some eventID) = true then
            applyUpdates (reversionUpdates enc now) u u
          else u) }, none) := by
  simp only [RevertStudentQRCodesForEvent]
  rw [updateEach_filter User.StudentID (reversionUpdates enc now)
    (reversionUpdates_key enc now) _ s.users hids]

theorem applyUpdates_activation (enc : String → Option String) (now : Time) (eventID : Nat)
    (u : User) :
    applyUpdates (activationUpdates enc now eventID) u u =
      if u.ActiveEventID ≠ none then u
      else
        match enc (eventQRContent eventID u.StudentID) with
        | none => u
        | some png =>
          { u with
            OriginalQRCodeData := u.QRCodeData,
            OriginalQRType := u.QRType,
            QRCodeData := base64Prefix ++ png,
            QRType := eventQRType eventID,
            ActiveEventID := some eventID,
            QRGeneratedAt := now } := by
  unfold applyUpdates activationUpdates
  by_cases hb : u.ActiveEventID ≠ none
  · rw [if_pos hb, if_pos hb]
  · rw [if_neg hb, if_neg hb]
    cases enc (eventQRContent eventID u.StudentID) <;> rfl

theorem applyUpdates_reversion (enc : String → Option String) (now : Time) (u : User) :
    applyUpdates (reversionUpdates enc now) u u =
      if u.OriginalQRCodeData ≠ "" then
        { u with
          QRCodeData := u.OriginalQRCodeData,
          QRType := u.OriginalQRType,
          ActiveEventID := none,
          OriginalQRCodeData := "",
          OriginalQRType := "",
          QRGeneratedAt := now }
      else
        match enc (studentQRContent u.StudentID) with
        | none => u
        | some png =>
          { u with
            QRCodeData := base64Prefix ++ png,
            QRType := "student_id",
            ActiveEventID := none,
            OriginalQRCodeData := "",
            OriginalQRType := "",
            QRGeneratedAt := now } := by
  unfold applyUpdates reversionUpdates
  by_cases hb : u.OriginalQRCodeData ≠ ""
  · rw [if_pos hb, if_pos hb]
  · rw [if_neg hb, if_neg hb]
    cases enc (studentQRContent u.StudentID) <;> rfl

/-- C14: for an existing event `e`, a user table with unique student ids and an encoder that
succeeds, `updateStudentQRCodesForEvent e courses yearLevel section` rewrites exactly the
users whose course is in `courses`, whose year level equals `yearLevel` when that is
non-empty, whose section equals `section` when that is non-empty and whose
`active_event_id` is null: each gets its previous `qr_code_data` and `qr_type` in the
`original_*` fields, the encoding of "event:<e>:student:<student_id>" as `qr_code_data`,
"event:<e>" as `qr_type`, `active_event_id = e` and a fresh `qr_generated_at`; every
other user, and the rest of the store, is unchanged. -/
theorem activation_changes_selected (enc : String → Option String) (now : Time) (s : Store)
    (eventID : Nat) (courses : List String) (yearLevel sectionArg : String) (ev : Event)
    (png : String → String)
    (hevent : firstRow Event.ID (fun e => decide (e.ID = eventID)) s.events = some ev)
    (hids : (s.users.map User.StudentID).Nodup)
    (henc : ∀ u ∈ s.users, enc (eventQRContent eventID u.StudentID) =
      some (png (eventQRContent eventID u.StudentID))) :
    updateStudentQRCodesForEvent enc now s eventID courses yearLevel sectionArg =
      { s with users := s.users.map (fun u =>
          if u.Course ∈ courses ∧ (yearLevel = "" ∨ u.YearLevel = yearLevel) ∧
              (sectionArg = "" ∨ u.Section = sectionArg) ∧ u.ActiveEventID = none then
            { u with
              OriginalQRCodeData := u.QRCodeData,
              OriginalQRType := u.QRType,
              QRCodeData := base64Prefix ++ png (eventQRContent eventID u.StudentID),
              QRType := eventQRType eventID,
              ActiveEventID := some eventID,
              QRGeneratedAt := now }
          else u) } ∧
    eventQRContent 2 "S-1" = "event:2:student:S-1" ∧ eventQRType 2 = "event:2" := by
  refine ⟨?_, by decide, by decide⟩
  rw [updateStudentQRCodesForEvent_rows enc now s eventID courses yearLevel sectionArg ev
    hevent hids]
  congr 1
  apply List.map_congr_left
  intro u hu
  rw [applyUpdates_activation, henc u hu]
  by_cases h1 : u.Course ∈ courses <;> by_cases h2 : yearLevel = "" <;>
    by_cases h3 : u.YearLevel = yearLevel <;> by_cases h4 : sectionArg = "" <;>
    by_cases h5 : u.Section = sectionArg <;> by_cases h6 : u.ActiveEventID = none <;>
    simp [h1, h2, h3, h4, h5, h6]

theorem activation_changes_selected_witness :
    (updateStudentQRCodesForEvent sampleEncode (8 * Hour) sampleQRStore 2 ["cs", "IT"] "3"
      "").users = [sampleBound, sampleFacultyQR, sampleBareEE] :=
  (congrArg Store.users
    (activation_changes_selected sampleEncode (8 * Hour) sampleQRStore 2 ["cs", "IT"] "3" ""
      sampleTaggedEvent (fun c => "png(" ++ c ++ ")") (by decide) (by decide)
      (fun _ _ => rfl)).1).trans (by decide)

/-- C15: on a user table with unique student ids and with an encoder that succeeds,
`RevertStudentQRCodesForEvent e` rewrites exactly the users whose `active_event_id` is `e`:
`qr_code_data` and `qr_type` are restored from `original_qr_code_data` and
`original_qr_type` when `original_qr_code_data` is non-empty, and are otherwise the
encoding of "student:<student_id>" and "student_id"; `active_event_id` becomes null and
the `original_*` fields empty; every other user, and the rest of the store, is unchanged,
and the call returns no error. -/
theorem reversion_changes_bound (enc : String → Option String) (now : Time) (s : Store)
    (eventID : Nat) (png : String → String)
    (hids : (s.users.map User.StudentID).Nodup)
    (henc : ∀ u ∈ s.users, enc (studentQRContent u.StudentID) =
      some (png (studentQRContent u.StudentID))) :
    RevertStudentQRCodesForEvent enc now s eventID =
      ({ s with users := s.users.map (fun u =>
          if u.ActiveEventID = some eventID then
            if u.OriginalQRCodeData ≠ "" then
              { u with
                QRCodeData := u.OriginalQRCodeData,
                QRType := u.OriginalQRType,
                ActiveEventID := none,
                OriginalQRCodeData := "",
                OriginalQRType := "",
                QRGeneratedAt := now }
            else
              { u with
                QRCodeData := base64Prefix ++ png (studentQRContent u.StudentID),
                QRType := "student_id",
                ActiveEventID := none,
                OriginalQRCodeData := "",
                OriginalQRType := "",
                QRGeneratedAt := now }
          else u) }, none) ∧
    studentQRContent "S-1" = "student:S-1" := by
  refine ⟨?_, by decide⟩
  rw [RevertStudentQRCodesForEvent_rows enc now s eventID hids]
  congr 2
  apply List.map_congr_left
  intro u hu
  rw [applyUpdates_reversion, henc u hu]
  by_cases h1 : u.ActiveEventID = some eventID <;> simp [h1]

theorem reversion_changes_bound_witness :
    (RevertStudentQRCodesForEvent sampleEncode (12 * Hour) sampleBoundStore 2).1.users =
      [{ sampleBare with QRGeneratedAt := 12 * Hour }, sampleFacultyQR, sampleBareEE] :=
  (congrArg (fun r => r.1.users)
    (reversion_changes_bound sampleEncode (12 * Hour) sampleBoundStore 2
      (fun c => "png(" ++ c ++ ")") (by decide) (fun _ _ => rfl)).1).trans (by decide)

/-! ## Reversion is idempotent -/

theorem map_studentID_of_keep (f : User → User) (users : List User)
    (hf : ∀ u ∈ users, (f u).StudentID = u.StudentID) :
    (users.map f).map User.StudentID = users.map User.StudentID := by
  rw [List.map_map]
  apply List.map_congr_left
  intro u hu
  exact hf u hu

theorem RevertStudentQRCodesForEvent_ids (enc : String → Option String) (now : Time)
    (s : Store) (eventID : Nat) (hids : (s.users.map User.StudentID).Nodup) :
    (RevertStudentQRCodesForEvent enc now s eventID).1.users.map User.StudentID =
      s.users.map User.StudentID := by
  rw [RevertStudentQRCodesForEvent_rows enc now s eventID hids]
  apply map_studentID_of_keep
  intro u _
  split_ifs
  · exact applyUpdates_key User.StudentID (reversionUpdates enc now)
      (reversionUpdates_key enc now) u u
  · rfl

theorem reverted_row_settled (enc : String → Option String) (now1 now2 : Time) (eventID : Nat)
    (u : User) :
    (if decide ((if decide (u.ActiveEventID = some eventID) = true then
          applyUpdates (reversionUpdates enc now1) u u else u).ActiveEventID =
        some eventID) = true then
      applyUpdates (reversionUpdates enc now2)
        (if decide (u.ActiveEventID = some eventID) = true then
          applyUpdates (reversionUpdates enc now1) u u else u)
        (if decide (u.ActiveEventID = some eventID) = true then
          applyUpdates (reversionUpdates enc now1) u u else u)
    else
      (if decide (u.ActiveEventID = some eventID) = true then
        applyUpdates (reversionUpdates enc now1) u u else u)) =
    (if decide (u.ActiveEventID = some eventID) = true then
      applyUpdates (reversionUpdates enc now1) u u else u) := by
  by_cases hb : u.ActiveEventID = some eventID
  · simp only [hb, decide_True, if_true]
    by_cases ho : u.OriginalQRCodeData ≠ ""
    · have h1 : applyUpdates (reversionUpdates enc now1) u u =
          { u with
            QRCodeData := u.OriginalQRCodeData,
            QRType := u.OriginalQRType,
            ActiveEventID := none,
            OriginalQRCodeData := "",
            OriginalQRType := "",
            QRGeneratedAt := now1 } := by
        rw [applyUpdates_reversion, if_pos ho]
      rw [h1]
      simp
    · cases henc : enc (studentQRContent u.StudentID) with
      | none =>
        have h1 : ∀ now, applyUpdates (reversionUpdates enc now) u u = u := by
          intro now
          rw [applyUpdates_reversion, if_neg ho, henc]
        rw [h1 now1, h1 now2]
        simp
      | some png =>
        have h1 : applyUpdates (reversionUpdates enc now1) u u =
            { u with
              QRCodeData := base64Prefix ++ png,
              QRType := "student_id",
              ActiveEventID := none,
              OriginalQRCodeData := "",
              OriginalQRType := "",
              QRGeneratedAt := now1 } := by
          rw [applyUpdates_reversion, if_neg ho, henc]
        rw [h1]
        simp
  · simp [hb]

theorem RevertStudentQRCodesForEvent_noop (enc : String → Option String) (now : Time)
    (s : Store) (eventID : Nat) (hnone : ∀ u ∈ s.users, u.ActiveEventID ≠ some eventID) :
    RevertStudentQRCodesForEvent enc now s eventID = (s, none) := by
  have hnil : s.users.filter (fun u => decide (u.ActiveEventID = some eventID)) = [] := by
    rw [List.filter_eq_nil_iff]
    intro u hu
    simp only [decide_eq_true_eq]
    exact hnone u hu
  simp only [RevertStudentQRCodesForEvent, hnil, updateEach, List.foldl_nil]

/-- C16: on a user table with unique student ids, running `RevertStudentQRCodesForEvent e`
a second time (at any later clock reading) leaves the store that the first run produced,
and both runs return no error; and when no student has `active_event_id = e` the call
changes nothing and returns no error. -/
theorem reversion_idempotent (enc : String → Option String) (now1 now2 : Time) (s : Store)
    (eventID : Nat) (hids : (s.users.map User.StudentID).Nodup) :
    RevertStudentQRCodesForEvent enc now2
        (RevertStudentQRCodesForEvent enc now1 s eventID).1 eventID =
      ((RevertStudentQRCodesForEvent enc now1 s eventID).1, none) ∧
    (RevertStudentQRCodesForEvent enc now1 s eventID).2 = none ∧
    ((∀ u ∈ s.users, u.ActiveEventID ≠ some eventID) →
      RevertStudentQRCodesForEvent enc now1 s eventID = (s, none)) := by
  refine ⟨?_, rfl, RevertStudentQRCodesForEvent_noop enc now1 s eventID⟩
  have hids1 := RevertStudentQRCodesForEvent_ids enc now1 s eventID hids
  have hnodup : ((RevertStudentQRCodesForEvent enc now1 s eventID).1.users.map
      User.StudentID).Nodup := by
    rw [hids1]
    exact hids
  rw [RevertStudentQRCodesForEvent_rows enc now2 _ eventID hnodup]
  rw [RevertStudentQRCodesForEvent_rows enc now1 s eventID hids]
  simp only [List.map_map]
  congr 2
  apply List.map_congr_left
  intro u _
  exact reverted_row_settled enc now1 now2 eventID u

theorem reversion_idempotent_witness :
    RevertStudentQRCodesForEvent sampleEncode (13 * Hour)
        (RevertStudentQRCodesForEvent sampleEncode (12 * Hour) sampleBoundStore 2).1 2 =
      ((RevertStudentQRCodesForEvent sampleEncode (12 * Hour) sampleBoundStore 2).1, none) :=
  (reversion_idempotent sampleEncode (12 * Hour) (13 * Hour) sampleBoundStore 2
    (by decide)).1

/-! ## The QR identity invariant -/

theorem updateStudentQRCodesForEvent_ids (enc : String → Option String) (now : Time)
    (s : Store) (eventID : Nat) (courses : List String) (yearLevel sectionArg : String)
    (hids : (s.users.map User.StudentID).Nodup) :
    (updateStudentQRCodesForEvent enc now s eventID courses yearLevel sectionArg).users.map
        User.StudentID = s.users.map User.StudentID := by
  cases hevent : firstRow Event.ID (fun e => decide (e.ID = eventID)) s.events with
  | none => rw [updateStudentQRCodesForEvent_missing enc now s eventID courses yearLevel
      sectionArg hevent]
  | some ev =>
    rw [updateStudentQRCodesForEvent_rows enc now s eventID courses yearLevel sectionArg ev
      hevent hids]
    apply map_studentID_of_keep
    intro u _
    split_ifs
    · exact applyUpdates_key User.StudentID (activationUpdates enc now eventID)
        (activationUpdates_key enc now eventID) u u
    · rfl

theorem stepQR_ids (enc : String → Option String) (s : Store) (c : Time × QRCall)
    (hids : (s.users.map User.StudentID).Nodup) :
    (stepQR enc s c).users.map User.StudentID = s.users.map User.StudentID := by
  obtain ⟨now, call⟩ := c
  cases call with
  | activate eventID courses yearLevel sectionArg =>
    exact updateStudentQRCodesForEvent_ids enc now s eventID courses yearLevel sectionArg hids
  | revert eventID => exact RevertStudentQRCodesForEvent_ids enc now s eventID hids

theorem runQR_ids (enc : String → Option String) (calls : List (Time × QRCall)) :
    ∀ s : Store, (s.users.map User.StudentID).Nodup →
      (runQR enc s calls).users.map User.StudentID = s.users.map User.StudentID := by
  induction calls with
  | nil =>
    intro s _
    rfl
  | cons c cs ih =>
    intro s hids
    have h1 := stepQR_ids enc s c hids
    have h2 := ih (stepQR enc s c) (by rw [h1]; exact hids)
    exact h2.trans h1

theorem runQR_append (enc : String → Option String) (s : Store)
    (calls : List (Time × QRCall)) (c : Time × QRCall) :
    runQR enc s (calls ++ [c]) = stepQR enc (runQR enc s calls) c := by
  simp only [runQR, List.foldl_append, List.foldl_cons, List.foldl_nil]

/-- What one call of the rotation manager does to a row: nothing, a rotation of an unbound
student, or a reversion of a bound one. -/
theorem stepQR_row (enc : String → Option String) (t : Store) (c : Time × QRCall)
    (hids : (t.users.map User.StudentID).Nodup) (u' : User)
    (hu' : u' ∈ (stepQR enc t c).users) :
    ∃ u ∈ t.users,
      u' = u ∨
      (u.ActiveEventID = none ∧ ∃ e png,
        enc (eventQRContent e u.StudentID) = some png ∧
        u' = { u with
          OriginalQRCodeData := u.QRCodeData,
          OriginalQRType := u.QRType,
          QRCodeData := base64Prefix ++ png,
          QRType := eventQRType e,
          ActiveEventID := some e,
          QRGeneratedAt := c.1 }) ∨
      (u.ActiveEventID ≠ none ∧ u'.ActiveEventID = none ∧ u'.OriginalQRCodeData = "" ∧
        u'.OriginalQRType = "" ∧ (u'.QRType = u.OriginalQRType ∨ u'.QRType = "student_id")) := by
  obtain ⟨now, call⟩ := c
  cases call with
  | activate eventID courses yearLevel sectionArg =>
    simp only [stepQR] at hu'
    cases hevent : firstRow Event.ID (fun e => decide (e.ID = eventID)) t.events with
    | none =>
      rw [updateStudentQRCodesForEvent_missing enc now t eventID courses yearLevel sectionArg
        hevent] at hu'
      exact ⟨u', hu', Or.inl rfl⟩
    | some ev =>
      rw [updateStudentQRCodesForEvent_rows enc now t eventID courses yearLevel sectionArg ev
        hevent hids] at hu'
      obtain ⟨u, hu, hmap⟩ := List.mem_map.mp hu'
      refine ⟨u, hu, ?_⟩
      split_ifs at hmap
      · rw [applyUpdates_activation] at hmap
        by_cases hb : u.ActiveEventID ≠ none
        · rw [if_pos hb] at hmap
          exact Or.inl hmap.symm
        · rw [if_neg hb] at hmap
          cases henc : enc (eventQRContent eventID u.StudentID) with
          | none =>
            rw [henc] at hmap
            exact Or.inl hmap.symm
          | some png =>
            rw [henc] at hmap
            exact Or.inr (Or.inl ⟨not_not.mp hb, eventID, png, henc, hmap.symm⟩)
      · exact Or.inl hmap.symm
  | revert eventID =>
    simp only [stepQR] at hu'
    rw [RevertStudentQRCodesForEvent_rows enc now t eventID hids] at hu'
    obtain ⟨u, hu, hmap⟩ := List.mem_map.mp hu'
    refine ⟨u, hu, ?_⟩
    split_ifs at hmap with hsel
    · have hbound : u.ActiveEventID ≠ none := by
        simp only [decide_eq_true_eq] at hsel
        rw [hsel]
        exact Option.some_ne_none _
      rw [applyUpdates_reversion] at hmap
      by_cases ho : u.OriginalQRCodeData ≠ ""
      · rw [if_pos ho] at hmap
        rw [← hmap]
        exact Or.inr (Or.inr ⟨hbound, rfl, rfl, rfl, Or.inl rfl⟩)
      · rw [if_neg ho] at hmap
        cases henc : enc (studentQRContent u.StudentID) with
        | none =>
          rw [henc] at hmap
          exact Or.inl hmap.symm
        | some png =>
          rw [henc] at hmap
          rw [← hmap]
          exact Or.inr (Or.inr ⟨hbound, rfl, rfl, rfl, Or.inr rfl⟩)
    · exact Or.inl hmap.symm

theorem RotatedFrom_extend (enc : String → Option String) (s : Store)
    (calls : List (Time × QRCall)) (c : Time × QRCall) (u : User)
    (h : RotatedFrom enc s calls u) : RotatedFrom enc s (calls ++ [c]) u := by
  obtain ⟨before, call, after, v, hcalls, hv, hid, hfree, hu, ho, ht⟩ := h
  refine ⟨before, call, after ++ [c], v, ?_, hv, hid, hfree, hu, ho, ht⟩
  rw [hcalls]
  simp

theorem runQR_identity (enc : String → Option String) (s : Store)
    (hids : (s.users.map User.StudentID).Nodup) (hstart : ∀ u ∈ s.users, QRUnbound u)
    (calls : List (Time × QRCall)) :
    ∀ u ∈ (runQR enc s calls).users, QRIdentity enc s calls u := by
  induction calls using List.reverseRecOn with
  | nil =>
    intro u hu
    exact Or.inl (hstart u hu)
  | append_singleton calls c ih =>
    intro u' hu'
    have hnodup : ((runQR enc s calls).users.map User.StudentID).Nodup := by
      rw [runQR_ids enc calls s hids]
      exact hids
    have hu'' := hu'
    rw [runQR_append] at hu''
    obtain ⟨u, hu, hcase⟩ := stepQR_row enc (runQR enc s calls) c hnodup u' hu''
    have hprev := ih u hu
    rcases hcase with hsame | ⟨hfree, e, png, henc, hrot⟩ | ⟨hbound, h1, h2, h3, h4⟩
    · rw [hsame]
      rcases hprev with hun | ⟨e, hb, hr⟩
      · exact Or.inl hun
      · exact Or.inr ⟨e, hb, RotatedFrom_extend enc s calls c u hr⟩
    · have hun : QRUnbound u := by
        rcases hprev with hun | ⟨e0, hb, _⟩
        · exact hun
        · rw [hb.1] at hfree
          exact Option.noConfusion hfree
      refine Or.inr ⟨e, ⟨?_, ?_, ⟨png, ?_, ?_⟩, ?_⟩, ?_⟩
      · rw [hrot]
      · rw [hrot]
      · rw [hrot]
        exact henc
      · rw [hrot]
      · rw [hrot]
        exact hun.2.2.2
      · refine ⟨calls, c, [], u, rfl, hu, ?_, hfree, hu', ?_, ?_⟩
        · rw [hrot]
        · rw [hrot]
        · rw [hrot]
    · rcases hprev with hun | ⟨e0, hb, _⟩
      · exact absurd hun.1 hbound
      · refine Or.inl ⟨h1, h2, h3, ?_⟩
        rcases h4 with h4 | h4
        · rw [h4]
          exact hb.2.2.2
        · exact h4

/-- C17: from a user table with unique student ids in which every student has a null
`active_event_id`, empty `original_*` fields and `qr_type` "student_id", every table reached
by a sequence of `updateStudentQRCodesForEvent` and `RevertStudentQRCodesForEvent` calls
satisfies, for every student: when `active_event_id` is null the `original_*` fields are
empty and `qr_type` is "student_id"; when `active_event_id = e`, `qr_type` is "event:<e>",
`qr_code_data` is the encoding of "event:<e>:student:<student_id>", and
`original_qr_code_data` and `original_qr_type` are the payload and type that the student
had, unbound, just before the call of the sequence that produced this row; the student ids
of the table never change, so a student is bound to at most one event at a time. -/
theorem qr_identity_invariant (enc : String → Option String) (s : Store)
    (calls : List (Time × QRCall)) (hids : (s.users.map User.StudentID).Nodup)
    (hstart : ∀ u ∈ s.users, u.ActiveEventID = none ∧ u.OriginalQRCodeData = "" ∧
      u.OriginalQRType = "" ∧ u.QRType = "student_id") :
    (∀ u ∈ (runQR enc s calls).users,
      (u.ActiveEventID = none →
        u.OriginalQRCodeData = "" ∧ u.OriginalQRType = "" ∧ u.QRType = "student_id") ∧
      (∀ e, u.ActiveEventID = some e →
        u.QRType = eventQRType e ∧
        (∃ png, enc (eventQRContent e u.StudentID) = some png ∧
          u.QRCodeData = base64Prefix ++ png) ∧
        u.OriginalQRType = "student_id" ∧
        ∃ before call after v,
          calls = before ++ call :: after ∧
          v ∈ (runQR enc s before).users ∧ v.StudentID = u.StudentID ∧
          v.ActiveEventID = none ∧
          u ∈ (runQR enc s (before ++ [call])).users ∧
          u.OriginalQRCodeData = v.QRCodeData ∧ u.OriginalQRType = v.QRType)) ∧
    (runQR enc s calls).users.map User.StudentID = s.users.map User.StudentID := by
  refine ⟨?_, runQR_ids enc calls s hids⟩
  intro u hu
  rcases runQR_identity enc s hids hstart calls u hu with hun | ⟨e, hb, hr⟩
  · constructor
    · intro _
      exact hun.2
    · intro e he
      rw [hun.1] at he
      exact Option.noConfusion he
  · constructor
    · intro hnone
      rw [hb.1] at hnone
      exact Option.noConfusion hnone
    · intro e' he'
      have hee : e = e' := by
        rw [hb.1] at he'
        exact Option.some.inj he'
      subst hee
      exact ⟨hb.2.1, hb.2.2.1, hb.2.2.2, hr⟩

theorem qr_identity_invariant_witness :
    (runQR sampleEncode sampleQRStore
        [(8 * Hour, QRCall.activate 2 ["cs", "IT"] "" ""), (9 * Hour, QRCall.revert 1),
         (10 * Hour, QRCall.activate 1 ["cs"] "" "")]).users.map User.StudentID =
      sampleQRStore.users.map User.StudentID :=
  (qr_identity_invariant sampleEncode sampleQRStore
    [(8 * Hour, QRCall.activate 2 ["cs", "IT"] "" ""), (9 * Hour, QRCall.revert 1),
     (10 * Hour, QRCall.activate 1 ["cs"] "" "")] (by decide) (by decide)).2

theorem sampleQR_first_event_wins :
    (runQR sampleEncode sampleQRStore
        [(8 * Hour, QRCall.activate 2 ["cs", "IT"] "" ""), (9 * Hour, QRCall.revert 1),
         (10 * Hour, QRCall.activate 1 ["cs"] "" "")]).users =
      [sampleBound, sampleFacultyQR, sampleBareEE] := by
  decide

/-! ## QR refresh on event update -/

/-- C18, as stated, fails: an `UpdateEvent` whose request carries no tagged courses succeeds
and starts no QR goroutine, so neither the revert step nor the activate step runs: the
student bound to the event stays bound, although a revert step would have released the
student. -/
theorem update_without_tags_skips_qr :
    UpdateEvent sampleTimeParsing asciiUpper sampleBoundStore (10 * Hour) 2
        sampleRenameRequest "F-1" =
      ({ sampleBoundStore with
          events := [sampleEvent,
            { sampleTaggedEvent with Title := "Hackathon 2", UpdatedAt := 10 * Hour }] },
        Except.ok { sampleTaggedEvent with Title := "Hackathon 2", UpdatedAt := 10 * Hour },
        none) ∧
    sampleBound ∈ (UpdateEvent sampleTimeParsing asciiUpper sampleBoundStore (10 * Hour) 2
        sampleRenameRequest "F-1").1.users ∧
    sampleBound.ActiveEventID = some 2 ∧
    sampleBound ∉ (RevertStudentQRCodesForEvent sampleEncode (10 * Hour)
        (UpdateEvent sampleTimeParsing asciiUpper sampleBoundStore (10 * Hour) 2
          sampleRenameRequest "F-1").1 2).1.users := by
  refine ⟨rfl, by decide, by decide, by decide⟩

/-- C18, amended: a successful `UpdateEvent` whose request carries a non-empty
`tagged_courses` list starts one goroutine that runs the QR revert step for the event and
then the QR activate step for the event with the request's tagged courses, year level and
section, whatever tags the event had stored; a successful `UpdateEvent` whose request
carries no tagged courses starts none; `UpdateEvent` itself leaves the user and attendance
tables alone. -/
theorem update_event_qr_refresh (tp : TimeParsing) (up : Char → Char) (s : Store)
    (now : Time) (eventID : Nat) (req : EventRequest) (updatedBy : String) (event : Event)
    (hok : (UpdateEvent tp up s now eventID req updatedBy).2.1 = Except.ok event) :
    (req.TaggedCourses ≠ [] →
      (UpdateEvent tp up s now eventID req updatedBy).2.2 =
        some { eventID := eventID, courses := req.TaggedCourses,
               yearLevel := req.YearLevel, sectionArg := req.Section }) ∧
    (req.TaggedCourses = [] → (UpdateEvent tp up s now eventID req updatedBy).2.2 = none) ∧
    (∀ (enc : String → Option String) (t : Time) (st : Store) (job : QRRefresh),
      runQRRefresh enc t st job =
        updateStudentQRCodesForEvent enc t
          (RevertStudentQRCodesForEvent enc t st job.eventID).1
          job.eventID job.courses job.yearLevel job.sectionArg) ∧
    (UpdateEvent tp up s now eventID req updatedBy).1.users = s.users ∧
    (UpdateEvent tp up s now eventID req updatedBy).1.attendances = s.attendances := by
  cases hfind : firstRow Event.ID (fun e => decide (e.ID = eventID)) s.events with
  | none =>
    simp [UpdateEvent, hfind] at hok
  | some ev =>
    cases hperm : ensureUpdatePermission s ev updatedBy with
    | some err =>
      simp [UpdateEvent, hfind, hperm] at hok
    | none =>
      simp only [UpdateEvent, hfind, hperm]
      refine ⟨?_, ?_, fun _ _ _ _ => rfl, trivial, trivial⟩
      · intro hne
        have hlen : req.TaggedCourses.length > 0 := List.length_pos.mpr hne
        rw [if_pos hlen]
      · intro hnil
        have hlen : ¬ req.TaggedCourses.length > 0 := by
          rw [hnil]
          exact Nat.lt_irrefl 0
        rw [if_neg hlen]

theorem update_event_qr_refresh_witness :
    (UpdateEvent sampleTimeParsing asciiUpper sampleBoundStore (10 * Hour) 2
        { sampleRenameRequest with TaggedCourses := ["cs"], YearLevel := "3" } "F-1").2.2 =
      some { eventID := 2, courses := ["cs"], yearLevel := "3", sectionArg := "" } :=
  (update_event_qr_refresh sampleTimeParsing asciiUpper sampleBoundStore (10 * Hour) 2
    { sampleRenameRequest with TaggedCourses := ["cs"], YearLevel := "3" } "F-1"
    { sampleTaggedEvent with
      Title := "Hackathon 2"
      YearLevel := "3"
      TaggedCoursesCSV := "CS"
      TaggedCourses := ["CS"]
      UpdatedAt := 10 * Hour }
    rfl).1 (by decide)

/-! ## The sweep, row by row -/

theorem reversion_cases (enc : String → Option String) (now : Time) (u : User) :
    applyUpdates (reversionUpdates enc now) u u = u ∨
    (applyUpdates (reversionUpdates enc now) u u).ActiveEventID = none := by
  rw [applyUpdates_reversion]
  by_cases ho : u.OriginalQRCodeData ≠ ""
  · rw [if_pos ho]
    exact Or.inr rfl
  · rw [if_neg ho]
    cases enc (studentQRContent u.StudentID) with
    | none => exact Or.inl rfl
    | some png => exact Or.inr rfl

theorem sweep_phase1 (enc : String → Option String) (now : Time) (L : List Event) :
    ∀ s : Store, (s.users.map User.StudentID).Nodup →
      L.foldl
          (fun st event =>
            (RevertStudentQRCodesForEvent enc now
              { st with
                events := updateWhere Event.ID event.ID (setStatus "completed" now) st.events }
              event.ID).1) s =
        { s with
          events := updateEach Event.ID (fun _ => some (setStatus "completed" now)) L s.events,
          users := s.users.map (fun u =>
            if L.any (fun ev => decide (u.ActiveEventID = some ev.ID)) = true then
              applyUpdates (reversionUpdates enc now) u u
            else u) } := by
  induction L with
  | nil =>
    intro s _
    simp [updateEach]
  | cons ev L ih =>
    intro s hids
    simp only [List.foldl_cons]
    have hstep : (RevertStudentQRCodesForEvent enc now
        { s with events := updateWhere Event.ID ev.ID (setStatus "completed" now) s.events }
        ev.ID).1 =
        { s with
          events := updateWhere Event.ID ev.ID (setStatus "completed" now) s.events,
          users := s.users.map (fun u =>
            if decide (u.ActiveEventID = some ev.ID) = true then
              applyUpdates (reversionUpdates enc now) u u
            else u) } :=
      congrArg Prod.fst (RevertStudentQRCodesForEvent_rows enc now
        { s with events := updateWhere Event.ID ev.ID (setStatus "completed" now) s.events }
        ev.ID hids)
    rw [hstep]
    have hids1 : (({ s with
          events := updateWhere Event.ID ev.ID (setStatus "completed" now) s.events,
          users := s.users.map (fun u =>
            if decide (u.ActiveEventID = some ev.ID) = true then
              applyUpdates (reversionUpdates enc now) u u
            else u) } : Store).users.map User.StudentID).Nodup := by
      have h := RevertStudentQRCodesForEvent_ids enc now s ev.ID hids
      rw [RevertStudentQRCodesForEvent_rows enc now s ev.ID hids] at h
      show ((s.users.map _).map User.StudentID).Nodup
      rw [h]
      exact hids
    rw [ih _ hids1]
    simp only [List.map_map]
    congr 1
    apply List.map_congr_left
    intro u _
    simp only [Function.comp_apply, List.any_cons]
    by_cases hb : u.ActiveEventID = some ev.ID
    · simp only [hb, decide_True, if_true, Bool.true_or]
      rcases reversion_cases enc now u with h | h
      · rw [h]
        simp only [hb, decide_True, ite_self, Bool.true_or, if_true]
        split_ifs
        · exact h
        · rfl
      · rw [if_neg]
        rw [h]
        simp
    · simp only [hb, decide_False, Bool.false_or]
      rfl

theorem sweep_phase2 (now : Time) (L : List Event) :
    ∀ s : Store,
      L.foldl
          (fun st event =>
            { st with
              events := updateWhere Event.ID event.ID (setStatus "ongoing" now) st.events }) s =
        { s with
          events := updateEach Event.ID (fun _ => some (setStatus "ongoing" now)) L s.events } := by
  induction L with
  | nil =>
    intro s
    simp [updateEach]
  | cons ev L ih =>
    intro s
    simp only [List.foldl_cons]
    rw [ih]
    simp [updateEach]

theorem setStatus_updates_key (status : String) (now : Time) (st : Event)
    (f : Event → Event) (h : (fun _ : Event => some (setStatus status now)) st = some f)
    (r : Event) : (f r).ID = r.ID := by
  simp only [Option.some.injEq] at h
  rw [← h]
  rfl

theorem sweepOngoing_completed (now : Time) (e : Event) :
    sweepOngoing now (setStatus "completed" now e) = false := by
  simp [sweepOngoing, setStatus]

theorem sweep_rows (enc : String → Option String) (now : Time) (s : Store)
    (hevents : (s.events.map Event.ID).Nodup) (hids : (s.users.map User.StudentID).Nodup) :
    CheckAndUpdateCompletedEvents enc now s =
      { s with
        events := s.events.map (fun e =>
          if sweepCompleted now e = true then setStatus "completed" now e
          else if sweepOngoing now e = true then setStatus "ongoing" now e
          else e),
        users := s.users.map (fun u =>
          if (s.events.filter (sweepCompleted now)).any
              (fun ev => decide (u.ActiveEventID = some ev.ID)) = true then
            applyUpdates (reversionUpdates enc now) u u
          else u) } := by
  have h1 : updateEach Event.ID (fun _ => some (setStatus "completed" now))
      (s.events.filter (sweepCompleted now)) s.events =
      s.events.map (fun e =>
        if sweepCompleted now e = true then setStatus "completed" now e else e) :=
    updateEach_filter Event.ID (fun _ => some (setStatus "completed" now))
      (setStatus_updates_key "completed" now) (sweepCompleted now) s.events hevents
  have hids1 : ((s.events.map (fun e =>
      if sweepCompleted now e = true then setStatus "completed" now e else e)).map
      Event.ID).Nodup := by
    have : (s.events.map (fun e =>
        if sweepCompleted now e = true then setStatus "completed" now e else e)).map Event.ID =
        s.events.map Event.ID := by
      rw [List.map_map]
      apply List.map_congr_left
      intro e _
      simp only [Function.comp_apply]
      split_ifs <;> rfl
    rw [this]
    exact hevents
  have h2 : updateEach Event.ID (fun _ => some (setStatus "ongoing" now))
      ((s.events.map (fun e =>
        if sweepCompleted now e = true then setStatus "completed" now e else e)).filter
        (sweepOngoing now))
      (s.events.map (fun e =>
        if sweepCompleted now e = true then setStatus "completed" now e else e)) =
      (s.events.map (fun e =>
        if sweepCompleted now e = true then setStatus "completed" now e else e)).map (fun e =>
        if sweepOngoing now e = true then setStatus "ongoing" now e else e) :=
    updateEach_filter Event.ID (fun _ => some (setStatus "ongoing" now))
      (setStatus_updates_key "ongoing" now) (sweepOngoing now) _ hids1
  unfold CheckAndUpdateCompletedEvents
  simp only [sweep_phase1 enc now _ s hids, sweep_phase2, h1, h2, List.map_map]
  congr 1
  apply List.map_congr_left
  intro e _
  simp only [Function.comp_apply]
  by_cases hc : sweepCompleted now e = true
  · simp only [hc, if_true, sweepOngoing_completed, Bool.false_eq_true, if_false]
  · simp only [hc, Bool.false_eq_true, if_false]

theorem sweepCompleted_iff (now : Time) (e : Event) :
    sweepCompleted now e = true ↔
      e.IsActive = true ∧ e.EndTime < now ∧ (e.Status = "scheduled" ∨ e.Status = "ongoing") := by
  simp only [sweepCompleted, Bool.and_eq_true, Bool.or_eq_true, decide_eq_true_eq]
  constructor
  · rintro ⟨⟨h1, h2⟩, h3⟩
    exact ⟨h3, h1, h2⟩
  · rintro ⟨h3, h1, h2⟩
    exact ⟨⟨h1, h2⟩, h3⟩

theorem sweepOngoing_iff (now : Time) (e : Event) :
    sweepOngoing now e = true ↔
      e.IsActive = true ∧ e.StartTime ≤ now ∧ now ≤ e.EndTime ∧ e.Status = "scheduled" := by
  simp only [sweepOngoing, Bool.and_eq_true, decide_eq_true_eq, ge_iff_le]
  constructor
  · rintro ⟨⟨⟨h1, h2⟩, h3⟩, h4⟩
    exact ⟨h4, h1, h2, h3⟩
  · rintro ⟨h4, h1, h2, h3⟩
    exact ⟨⟨⟨h1, h2⟩, h3⟩, h4⟩

theorem bound_to_completing_iff (now : Time) (events : List Event) (u : User) :
    (events.filter (sweepCompleted now)).any
        (fun ev => decide (u.ActiveEventID = some ev.ID)) = true ↔
      ∃ e ∈ events, (e.IsActive = true ∧ e.EndTime < now ∧
        (e.Status = "scheduled" ∨ e.Status = "ongoing")) ∧ u.ActiveEventID = some e.ID := by
  rw [List.any_eq_true]
  constructor
  · rintro ⟨e, he, hu⟩
    obtain ⟨hmem, hc⟩ := List.mem_filter.mp he
    exact ⟨e, hmem, (sweepCompleted_iff now e).mp hc, of_decide_eq_true hu⟩
  · rintro ⟨e, hmem, hc, hu⟩
    exact ⟨e, List.mem_filter.mpr ⟨hmem, (sweepCompleted_iff now e).mpr hc⟩,
      decide_eq_true hu⟩

/-- C19: on tables with unique event ids and unique student ids, and with an encoder that
succeeds, after one `CheckAndUpdateCompletedEvents` at `now` every event that was active
with `end_time < now` and status "scheduled" or "ongoing" is stored with status "completed",
no student has `active_event_id` equal to the id of such an event, and the students that
were bound to such an event are exactly the rows rewritten, as by
`RevertStudentQRCodesForEvent`: payload and type restored from the `original_*` fields when
`original_qr_code_data` is non-empty, otherwise the encoding of "student:<student_id>" with
type "student_id", `active_event_id` null and the `original_*` fields empty. -/
theorem sweep_completes (enc : String → Option String) (now : Time) (s : Store)
    (png : String → String) (hevents : (s.events.map Event.ID).Nodup)
    (hids : (s.users.map User.StudentID).Nodup)
    (henc : ∀ u ∈ s.users, enc (studentQRContent u.StudentID) =
      some (png (studentQRContent u.StudentID))) :
    (∀ e ∈ s.events, e.IsActive = true → e.EndTime < now →
      (e.Status = "scheduled" ∨ e.Status = "ongoing") →
      { e with Status := "completed", UpdatedAt := now } ∈
        (CheckAndUpdateCompletedEvents enc now s).events ∧
      (∀ e' ∈ (CheckAndUpdateCompletedEvents enc now s).events,
        e'.ID = e.ID → e'.Status = "completed") ∧
      (∀ u ∈ (CheckAndUpdateCompletedEvents enc now s).users,
        u.ActiveEventID ≠ some e.ID)) ∧
    (CheckAndUpdateCompletedEvents enc now s).users =
      s.users.map (fun u =>
        if ∃ e ∈ s.events, (e.IsActive = true ∧ e.EndTime < now ∧
            (e.Status = "scheduled" ∨ e.Status = "ongoing")) ∧
            u.ActiveEventID = some e.ID then
          if u.OriginalQRCodeData ≠ "" then
            { u with
              QRCodeData := u.OriginalQRCodeData,
              QRType := u.OriginalQRType,
              ActiveEventID := none,
              OriginalQRCodeData := "",
              OriginalQRType := "",
              QRGeneratedAt := now }
          else
            { u with
              QRCodeData := base64Prefix ++ png (studentQRContent u.StudentID),
              QRType := "student_id",
              ActiveEventID := none,
              OriginalQRCodeData := "",
              OriginalQRType := "",
              QRGeneratedAt := now }
        else u) := by
  have husers : (CheckAndUpdateCompletedEvents enc now s).users =
      s.users.map (fun u =>
        if ∃ e ∈ s.events, (e.IsActive = true ∧ e.EndTime < now ∧
            (e.Status = "scheduled" ∨ e.Status = "ongoing")) ∧
            u.ActiveEventID = some e.ID then
          if u.OriginalQRCodeData ≠ "" then
            { u with
              QRCodeData := u.OriginalQRCodeData,
              QRType := u.OriginalQRType,
              ActiveEventID := none,
              OriginalQRCodeData := "",
              OriginalQRType := "",
              QRGeneratedAt := now }
          else
            { u with
              QRCodeData := base64Prefix ++ png (studentQRContent u.StudentID),
              QRType := "student_id",
              ActiveEventID := none,
              OriginalQRCodeData := "",
              OriginalQRType := "",
              QRGeneratedAt := now }
        else u) := by
    rw [sweep_rows enc now s hevents hids]
    apply List.map_congr_left
    intro u hu
    by_cases hb : ∃ e ∈ s.events, (e.IsActive = true ∧ e.EndTime < now ∧
        (e.Status = "scheduled" ∨ e.Status = "ongoing")) ∧ u.ActiveEventID = some e.ID
    · rw [if_pos ((bound_to_completing_iff now s.events u).mpr hb), if_pos hb,
        applyUpdates_reversion, henc u hu]
    · rw [if_neg (fun h => hb ((bound_to_completing_iff now s.events u).mp h)), if_neg hb]
  refine ⟨?_, husers⟩
  intro e he hact hend hst
  have hc : sweepCompleted now e = true := (sweepCompleted_iff now e).mpr ⟨hact, hend, hst⟩
  refine ⟨?_, ?_, ?_⟩
  · rw [sweep_rows enc now s hevents hids]
    apply List.mem_map.mpr
    refine ⟨e, he, ?_⟩
    rw [if_pos hc]
    rfl
  · intro e' he' hid
    rw [sweep_rows enc now s hevents hids] at he'
    obtain ⟨e0, he0, hmap⟩ := List.mem_map.mp he'
    have hid0 : e0.ID = e.ID := by
      rw [← hid, ← hmap]
      split_ifs <;> rfl
    have hsame : e0 = e := List.inj_on_of_nodup_map hevents he0 he hid0
    rw [hsame, if_pos hc] at hmap
    rw [← hmap]
    rfl
  · intro u' hu' hbound
    rw [husers] at hu'
    obtain ⟨u, hu, hmap⟩ := List.mem_map.mp hu'
    by_cases hb : ∃ e ∈ s.events, (e.IsActive = true ∧ e.EndTime < now ∧
        (e.Status = "scheduled" ∨ e.Status = "ongoing")) ∧ u.ActiveEventID = some e.ID
    · rw [if_pos hb] at hmap
      by_cases ho : u.OriginalQRCodeData ≠ ""
      · rw [if_pos ho] at hmap
        rw [← hmap] at hbound
        exact Option.noConfusion hbound
      · rw [if_neg ho] at hmap
        rw [← hmap] at hbound
        exact Option.noConfusion hbound
    · rw [if_neg hb] at hmap
      rw [← hmap] at hbound
      exact hb ⟨e, he, ⟨hact, hend, hst⟩, hbound⟩

theorem sweep_completes_witness :
    { sampleEndedEvent with Status := "completed", UpdatedAt := 10 * Hour } ∈
      (CheckAndUpdateCompletedEvents sampleEncode (10 * Hour) sampleSweepStore).events :=
  ((sweep_completes sampleEncode (10 * Hour) sampleSweepStore (fun c => "png(" ++ c ++ ")")
    (by decide) (by decide) (fun _ _ => rfl)).1 sampleEndedEvent (by decide) (by decide)
    (by decide) (by decide)).1

theorem sampleSweep_result :
    CheckAndUpdateCompletedEvents sampleEncode (10 * Hour) sampleSweepStore =
      { sampleSweepStore with
        events := [{ sampleEvent with Status := "ongoing", UpdatedAt := 10 * Hour },
          { sampleEndedEvent with Status := "completed", UpdatedAt := 10 * Hour }],
        users := [{ sampleBare with QRGeneratedAt := 10 * Hour }, sampleFacultyQR,
          sampleBareEE] } := by
  decide

/-! ## The sweep: promotion to ongoing and what stays as it is -/

/-- C20, as stated, fails: the tick that promotes the event 1 to "ongoing" and completes the
event 2 also rewrites `updated_at` of both rows, so `status` is not the only event field
that the tick changes. -/
theorem sweep_stamps_updated_at :
    sampleSweepStore.events.map Event.Status = ["scheduled", "ongoing"] ∧
    sampleSweepStore.events.map Event.UpdatedAt = [zeroTime, zeroTime] ∧
    (CheckAndUpdateCompletedEvents sampleEncode (10 * Hour) sampleSweepStore).events.map
      Event.Status = ["ongoing", "completed"] ∧
    (CheckAndUpdateCompletedEvents sampleEncode (10 * Hour) sampleSweepStore).events.map
      Event.UpdatedAt = [10 * Hour, 10 * Hour] ∧
    { sampleEvent with Status := "ongoing" } ∉
      (CheckAndUpdateCompletedEvents sampleEncode (10 * Hour) sampleSweepStore).events := by
  decide

/-- C20, amended: on tables with unique event ids and unique student ids, one
`CheckAndUpdateCompletedEvents` at `now` rewrites the event table row by row: an active event
with `end_time < now` and status "scheduled" or "ongoing" gets status "completed", an active
event with `start_time ≤ now ≤ end_time` and status "scheduled" gets status "ongoing", both
with `updated_at` stamped and no other field changed, and every other event is unchanged;
the user table changes only in the rows of students bound to an event that the tick
completes, so setting events to "ongoing" changes no student, and when no event is completed
the user table is unchanged; the attendance table is unchanged. -/
theorem sweep_promotes (enc : String → Option String) (now : Time) (s : Store)
    (hevents : (s.events.map Event.ID).Nodup) (hids : (s.users.map User.StudentID).Nodup) :
    (CheckAndUpdateCompletedEvents enc now s).events =
      s.events.map (fun e =>
        if e.IsActive = true ∧ e.EndTime < now ∧
            (e.Status = "scheduled" ∨ e.Status = "ongoing") then
          { e with Status := "completed", UpdatedAt := now }
        else if e.IsActive = true ∧ e.StartTime ≤ now ∧ now ≤ e.EndTime ∧
            e.Status = "scheduled" then
          { e with Status := "ongoing", UpdatedAt := now }
        else e) ∧
    (CheckAndUpdateCompletedEvents enc now s).users =
      s.users.map (fun u =>
        if ∃ e ∈ s.events, (e.IsActive = true ∧ e.EndTime < now ∧
            (e.Status = "scheduled" ∨ e.Status = "ongoing")) ∧
            u.ActiveEventID = some e.ID then
          applyUpdates (reversionUpdates enc now) u u
        else u) ∧
    ((∀ e ∈ s.events, ¬ (e.IsActive = true ∧ e.EndTime < now ∧
        (e.Status = "scheduled" ∨ e.Status = "ongoing"))) →
      (CheckAndUpdateCompletedEvents enc now s).users = s.users) ∧
    (CheckAndUpdateCompletedEvents enc now s).attendances = s.attendances := by
  have husers : (CheckAndUpdateCompletedEvents enc now s).users =
      s.users.map (fun u =>
        if ∃ e ∈ s.events, (e.IsActive = true ∧ e.EndTime < now ∧
            (e.Status = "scheduled" ∨ e.Status = "ongoing")) ∧
            u.ActiveEventID = some e.ID then
          applyUpdates (reversionUpdates enc now) u u
        else u) := by
    rw [sweep_rows enc now s hevents hids]
    apply List.map_congr_left
    intro u _
    by_cases hb : ∃ e ∈ s.events, (e.IsActive = true ∧ e.EndTime < now ∧
        (e.Status = "scheduled" ∨ e.Status = "ongoing")) ∧ u.ActiveEventID = some e.ID
    · rw [if_pos ((bound_to_completing_iff now s.events u).mpr hb), if_pos hb]
    · rw [if_neg (fun h => hb ((bound_to_completing_iff now s.events u).mp h)), if_neg hb]
  refine ⟨?_, husers, ?_, ?_⟩
  · rw [sweep_rows enc now s hevents hids]
    apply List.map_congr_left
    intro e _
    by_cases hc : sweepCompleted now e = true
    · rw [if_pos hc, if_pos ((sweepCompleted_iff now e).mp hc)]
      rfl
    · rw [if_neg hc, if_neg (fun h => hc ((sweepCompleted_iff now e).mpr h))]
      by_cases ho : sweepOngoing now e = true
      · rw [if_pos ho, if_pos ((sweepOngoing_iff now e).mp ho)]
        rfl
      · rw [if_neg ho, if_neg (fun h => ho ((sweepOngoing_iff now e).mpr h))]
  · intro hnone
    rw [husers]
    have hid : ∀ u ∈ s.users, (fun u : User =>
        if ∃ e ∈ s.events, (e.IsActive = true ∧ e.EndTime < now ∧
            (e.Status = "scheduled" ∨ e.Status = "ongoing")) ∧
            u.ActiveEventID = some e.ID then
          applyUpdates (reversionUpdates enc now) u u
        else u) u = id u := by
      intro u _
      have hb : ¬ ∃ e ∈ s.events, (e.IsActive = true ∧ e.EndTime < now ∧
          (e.Status = "scheduled" ∨ e.Status = "ongoing")) ∧ u.ActiveEventID = some e.ID := by
        rintro ⟨e, he, hc, _⟩
        exact hnone e he hc
      simp only [hb, if_false, id]
    rw [List.map_congr_left hid, List.map_id]
  · rw [sweep_rows enc now s hevents hids]

theorem sweep_promotes_witness :
    (CheckAndUpdateCompletedEvents sampleEncode (10 * Hour)
        { sampleSweepStore with events := [sampleEvent] }).users =
      sampleSweepStore.users :=
  (sweep_promotes sampleEncode (10 * Hour) { sampleSweepStore with events := [sampleEvent] }
    (by decide) (by decide)).2.2.1 (by decide)

/-! ## The sweep run twice -/

theorem sweep_event_settled (now : Time) (e : Event) :
    sweepCompleted now
        (if sweepCompleted now e = true then setStatus "completed" now e
         else if sweepOngoing now e = true then setStatus "ongoing" now e
         else e) = false ∧
    sweepOngoing now
        (if sweepCompleted now e = true then setStatus "completed" now e
         else if sweepOngoing now e = true then setStatus "ongoing" now e
         else e) = false := by
  by_cases hc : sweepCompleted now e = true
  · rw [if_pos hc]
    constructor
    · simp [sweepCompleted, setStatus]
    · simp [sweepOngoing, setStatus]
  · rw [if_neg hc]
    by_cases ho : sweepOngoing now e = true
    · rw [if_pos ho]
      have h := (sweepOngoing_iff now e).mp ho
      constructor
      · cases hs : sweepCompleted now (setStatus "ongoing" now e) with
        | false => rfl
        | true =>
          have h2 := ((sweepCompleted_iff now _).mp hs).2.1
          have h3 : e.EndTime < now := h2
          exact absurd h.2.2.1 (not_le.mpr h3)
      · simp [sweepOngoing, setStatus]
    · rw [if_neg ho]
      exact ⟨by simpa using hc, by simpa using ho⟩

theorem sweep_keeps_event_ids (now : Time) (events : List Event) :
    (events.map (fun e =>
        if sweepCompleted now e = true then setStatus "completed" now e
        else if sweepOngoing now e = true then setStatus "ongoing" now e
        else e)).map Event.ID = events.map Event.ID := by
  rw [List.map_map]
  apply List.map_congr_left
  intro e _
  simp only [Function.comp_apply]
  split_ifs <;> rfl

theorem sweep_keeps_student_ids (enc : String → Option String) (now : Time)
    (c : User → Bool) (users : List User) :
    (users.map (fun u =>
        if c u = true then applyUpdates (reversionUpdates enc now) u u else u)).map
        User.StudentID = users.map User.StudentID := by
  apply map_studentID_of_keep
  intro u _
  split_ifs
  · exact applyUpdates_key User.StudentID (reversionUpdates enc now)
      (reversionUpdates_key enc now) u u
  · rfl

/-- C21: the Sweeper tick is idempotent. On a store whose event ids and student ids are unique,
running `CheckAndUpdateCompletedEvents` a second time at the same `now` changes nothing: the
whole store, and so every event status and every student QR binding, is what the first run
left, because after the first run no event matches either filter of the sweep. -/
theorem sweep_idempotent (enc : String → Option String) (now : Time) (s : Store)
    (hevents : (s.events.map Event.ID).Nodup) (hids : (s.users.map User.StudentID).Nodup) :
    CheckAndUpdateCompletedEvents enc now (CheckAndUpdateCompletedEvents enc now s) =
        CheckAndUpdateCompletedEvents enc now s ∧
    (CheckAndUpdateCompletedEvents enc now s).events.filter (sweepCompleted now) = [] ∧
    (CheckAndUpdateCompletedEvents enc now s).events.filter (sweepOngoing now) = [] := by
  have hrows := sweep_rows enc now s hevents hids
  have hev1 : ((CheckAndUpdateCompletedEvents enc now s).events.map Event.ID).Nodup := by
    rw [hrows]
    show ((s.events.map _).map Event.ID).Nodup
    rw [sweep_keeps_event_ids]
    exact hevents
  have hid1 : ((CheckAndUpdateCompletedEvents enc now s).users.map User.StudentID).Nodup := by
    rw [hrows]
    show ((s.users.map _).map User.StudentID).Nodup
    rw [sweep_keeps_student_ids enc now
      (fun u => (s.events.filter (sweepCompleted now)).any
        (fun ev => decide (u.ActiveEventID = some ev.ID)))]
    exact hids
  have hsettled : ∀ e ∈ (CheckAndUpdateCompletedEvents enc now s).events,
      sweepCompleted now e = false ∧ sweepOngoing now e = false := by
    intro e he
    rw [hrows] at he
    obtain ⟨e0, _, rfl⟩ := List.mem_map.mp he
    exact sweep_event_settled now e0
  have hnoC : (CheckAndUpdateCompletedEvents enc now s).events.filter (sweepCompleted now) =
      [] := by
    rw [List.filter_eq_nil_iff]
    intro e he
    rw [(hsettled e he).1]
    exact Bool.false_ne_true
  have hnoO : (CheckAndUpdateCompletedEvents enc now s).events.filter (sweepOngoing now) =
      [] := by
    rw [List.filter_eq_nil_iff]
    intro e he
    rw [(hsettled e he).2]
    exact Bool.false_ne_true
  refine ⟨?_, hnoC, hnoO⟩
  rw [sweep_rows enc now (CheckAndUpdateCompletedEvents enc now s) hev1 hid1, hnoC]
  have he : (CheckAndUpdateCompletedEvents enc now s).events.map (fun e =>
      if sweepCompleted now e = true then setStatus "completed" now e
      else if sweepOngoing now e = true then setStatus "ongoing" now e
      else e) = (CheckAndUpdateCompletedEvents enc now s).events := by
    conv_rhs => rw [← List.map_id (CheckAndUpdateCompletedEvents enc now s).events]
    apply List.map_congr_left
    intro e he
    rw [(hsettled e he).1, (hsettled e he).2]
    rfl
  have hu : (CheckAndUpdateCompletedEvents enc now s).users.map (fun u =>
      if ([] : List Event).any (fun ev => decide (u.ActiveEventID = some ev.ID)) = true then
        applyUpdates (reversionUpdates enc now) u u
      else u) = (CheckAndUpdateCompletedEvents enc now s).users := by
    conv_rhs => rw [← List.map_id (CheckAndUpdateCompletedEvents enc now s).users]
    apply List.map_congr_left
    intro u _
    rfl
  rw [he, hu]

theorem sweep_idempotent_witness :
    CheckAndUpdateCompletedEvents sampleEncode (10 * Hour)
        (CheckAndUpdateCompletedEvents sampleEncode (10 * Hour) sampleSweepStore) =
      CheckAndUpdateCompletedEvents sampleEncode (10 * Hour) sampleSweepStore :=
  (sweep_idempotent sampleEncode (10 * Hour) sampleSweepStore (by decide) (by decide)).1

/-! ## Cancelled events -/

theorem Cancelled_map (id : Nat) (s : Store) (users : List User) (atts : List Attendance)
    (seq : Nat) (g : Event → Event)
    (hid : ∀ r, (g r).ID = r.ID)
    (hkeep : ∀ r, r.ID = id → r.IsActive = false → r.Status = "cancelled" →
      (g r).IsActive = false ∧ (g r).Status = "cancelled")
    (h : Cancelled id s) :
    Cancelled id { events := s.events.map g, users := users, attendances := atts,
                   attendanceSeq := seq } := by
  obtain ⟨⟨e, he, heid⟩, hall⟩ := h
  constructor
  · exact ⟨g e, List.mem_map.mpr ⟨e, he, rfl⟩, (hid e).trans heid⟩
  · intro r hr hrid
    obtain ⟨r0, hr0, rfl⟩ := List.mem_map.mp hr
    have h0 : r0.ID = id := (hid r0).symm.trans hrid
    exact hkeep r0 h0 (hall r0 hr0 h0).1 (hall r0 hr0 h0).2

theorem Cancelled_of_events (id : Nat) (s t : Store) (h : t.events = s.events)
    (hc : Cancelled id s) : Cancelled id t := by
  unfold Cancelled at *
  rw [h]
  exact hc

theorem Cancelled_updateWhere_other (id k : Nat) (f : Event → Event) (s : Store)
    (users : List User) (hf : ∀ r, (f r).ID = r.ID) (hk : k ≠ id) (h : Cancelled id s) :
    Cancelled id { s with events := updateWhere Event.ID k f s.events, users := users } := by
  apply Cancelled_map id s users s.attendances s.attendanceSeq
    (fun r => if r.ID = k then f r else r) _ _ h
  · intro r
    show (if r.ID = k then f r else r).ID = r.ID
    split_ifs
    · exact hf r
    · rfl
  · intro r hr h1 h2
    have hne : ¬ r.ID = k := fun hh => hk (hh.symm.trans hr)
    show (if r.ID = k then f r else r).IsActive = false ∧
      (if r.ID = k then f r else r).Status = "cancelled"
    rw [if_neg hne]
    exact ⟨h1, h2⟩

theorem sweep_fold1_cancelled (enc : String → Option String) (now : Time) (id : Nat)
    (L : List Event) (hL : ∀ ev ∈ L, ev.ID ≠ id) :
    ∀ s : Store, Cancelled id s →
      Cancelled id (L.foldl
          (fun st event =>
            (RevertStudentQRCodesForEvent enc now
              { st with
                events := updateWhere Event.ID event.ID (setStatus "completed" now) st.events }
              event.ID).1) s) := by
  induction L with
  | nil =>
    intro s h
    exact h
  | cons ev L ih =>
    intro s h
    simp only [List.foldl_cons]
    apply ih (fun e he => hL e (List.mem_cons_of_mem _ he))
    exact Cancelled_updateWhere_other id ev.ID (setStatus "completed" now) s _
      (fun _ => rfl) (hL ev (List.mem_cons_self _ _)) h

theorem sweep_fold2_cancelled (now : Time) (id : Nat)
    (L : List Event) (hL : ∀ ev ∈ L, ev.ID ≠ id) :
    ∀ s : Store, Cancelled id s →
      Cancelled id (L.foldl
          (fun st event =>
            { st with
              events := updateWhere Event.ID event.ID (setStatus "ongoing" now) st.events }) s) := by
  induction L with
  | nil =>
    intro s h
    exact h
  | cons ev L ih =>
    intro s h
    simp only [List.foldl_cons]
    apply ih (fun e he => hL e (List.mem_cons_of_mem _ he))
    exact Cancelled_updateWhere_other id ev.ID (setStatus "ongoing" now) s s.users
      (fun _ => rfl) (hL ev (List.mem_cons_self _ _)) h

theorem Cancelled_not_active (id : Nat) (s : Store) (h : Cancelled id s) (p : Event → Bool)
    (hp : ∀ e, p e = true → e.IsActive = true) :
    ∀ ev ∈ s.events.filter p, ev.ID ≠ id := by
  intro ev hev hid
  have hm := List.mem_filter.mp hev
  have := (h.2 ev hm.1 hid).1
  rw [hp ev hm.2] at this
  exact Bool.noConfusion this

theorem sweep_cancelled (enc : String → Option String) (now : Time) (id : Nat) (s : Store)
    (h : Cancelled id s) : Cancelled id (CheckAndUpdateCompletedEvents enc now s) := by
  unfold CheckAndUpdateCompletedEvents
  have h1 := sweep_fold1_cancelled enc now id (s.events.filter (sweepCompleted now))
    (Cancelled_not_active id s h (sweepCompleted now)
      (fun e he => ((sweepCompleted_iff now e).mp he).1)) s h
  exact sweep_fold2_cancelled now id _
    (Cancelled_not_active id _ h1 (sweepOngoing now)
      (fun e he => ((sweepOngoing_iff now e).mp he).1)) _ h1

theorem applyTimeUpdates_keeps (tp : TimeParsing) (event : Event) (req : EventRequest) :
    (applyTimeUpdates tp event req).ID = event.ID ∧
    (applyTimeUpdates tp event req).Status = event.Status ∧
    (applyTimeUpdates tp event req).IsActive = event.IsActive := by
  unfold applyTimeUpdates
  cases tp.parseDate req.EventDate <;> cases tp.parseHourMinute req.StartTime <;>
    cases tp.parseHourMinute req.EndTime <;> simp only <;> split_ifs <;> exact ⟨rfl, rfl, rfl⟩

theorem setTaggedCoursesFromRequest_keeps (up : Char → Char) (event : Event)
    (req : EventRequest) :
    (setTaggedCoursesFromRequest up event req).ID = event.ID ∧
    (setTaggedCoursesFromRequest up event req).Status = event.Status ∧
    (setTaggedCoursesFromRequest up event req).IsActive = event.IsActive := by
  unfold setTaggedCoursesFromRequest
  by_cases h0 : req.TaggedCourses.length = 0
  · rw [if_pos h0]
    exact ⟨rfl, rfl, rfl⟩
  · rw [if_neg h0]
    dsimp only
    split_ifs <;> exact ⟨rfl, rfl, rfl⟩

theorem applyOtherUpdates_keeps (up : Char → Char) (event : Event) (req : EventRequest) :
    (applyOtherUpdates up event req).ID = event.ID ∧
    (applyOtherUpdates up event req).Status = event.Status ∧
    (applyOtherUpdates up event req).IsActive = event.IsActive := by
  unfold applyOtherUpdates
  lift_lets
  intro e1 e2 e3 e4 e5 e6 e7 e8
  have h1 : e1.ID = event.ID ∧ e1.Status = event.Status ∧ e1.IsActive = event.IsActive := by
    unfold e1
    split_ifs <;> exact ⟨rfl, rfl, rfl⟩
  have h2 : e2.ID = e1.ID ∧ e2.Status = e1.Status ∧ e2.IsActive = e1.IsActive := by
    unfold e2
    split_ifs <;> exact ⟨rfl, rfl, rfl⟩
  have h3 : e3.ID = e2.ID ∧ e3.Status = e2.Status ∧ e3.IsActive = e2.IsActive := by
    unfold e3
    split_ifs <;> exact ⟨rfl, rfl, rfl⟩
  have h4 : e4.ID = e3.ID ∧ e4.Status = e3.Status ∧ e4.IsActive = e3.IsActive := by
    unfold e4
    split_ifs <;> exact ⟨rfl, rfl, rfl⟩
  have h5 : e5.ID = e4.ID ∧ e5.Status = e4.Status ∧ e5.IsActive = e4.IsActive := by
    unfold e5
    split_ifs <;> exact ⟨rfl, rfl, rfl⟩
  have h6 : e6.ID = e5.ID ∧ e6.Status = e5.Status ∧ e6.IsActive = e5.IsActive := by
    unfold e6
    split_ifs <;> exact ⟨rfl, rfl, rfl⟩
  have h7 : e7.ID = e6.ID ∧ e7.Status = e6.Status ∧ e7.IsActive = e6.IsActive := by
    unfold e7
    split_ifs <;> exact ⟨rfl, rfl, rfl⟩
  have h8 : e8.ID = e7.ID ∧ e8.Status = e7.Status ∧ e8.IsActive = e7.IsActive := by
    unfold e8
    split_ifs <;> exact ⟨rfl, rfl, rfl⟩
  obtain ⟨k1, k2, k3⟩ := setTaggedCoursesFromRequest_keeps up e8 req
  refine ⟨?_, ?_, ?_⟩
  · rw [k1, h8.1, h7.1, h6.1, h5.1, h4.1, h3.1, h2.1, h1.1]
  · rw [k2, h8.2.1, h7.2.1, h6.2.1, h5.2.1, h4.2.1, h3.2.1, h2.2.1, h1.2.1]
  · rw [k3, h8.2.2, h7.2.2, h6.2.2, h5.2.2, h4.2.2, h3.2.2, h2.2.2, h1.2.2]

theorem applyEventUpdates_keeps (tp : TimeParsing) (up : Char → Char) (event : Event)
    (req : EventRequest) :
    (applyEventUpdates tp up event req).ID = event.ID ∧
    (applyEventUpdates tp up event req).Status = event.Status ∧
    (applyEventUpdates tp up event req).IsActive = event.IsActive := by
  unfold applyEventUpdates
  obtain ⟨h1, h2, h3⟩ := applyTimeUpdates_keeps tp event req
  obtain ⟨k1, k2, k3⟩ := applyOtherUpdates_keeps up (applyTimeUpdates tp event req) req
  exact ⟨k1.trans h1, k2.trans h2, k3.trans h3⟩

theorem UpdateEvent_cancelled (tp : TimeParsing) (up : Char → Char) (s : Store) (now : Time)
    (eventID : Nat) (req : EventRequest) (updatedBy : String) (id : Nat)
    (h : Cancelled id s) :
    Cancelled id (UpdateEvent tp up s now eventID req updatedBy).1 := by
  cases hfind : firstRow Event.ID (fun e => decide (e.ID = eventID)) s.events with
  | none =>
    simp only [UpdateEvent, hfind]
    exact h
  | some event =>
    cases hperm : ensureUpdatePermission s event updatedBy with
    | some err =>
      simp only [UpdateEvent, hfind, hperm]
      exact h
    | none =>
      simp only [UpdateEvent, hfind, hperm]
      obtain ⟨k1, k2, k3⟩ := applyEventUpdates_keeps tp up event req
      have hmem := (firstRow_mem Event.ID _ s.events event hfind).1
      apply Cancelled_map id s s.users s.attendances s.attendanceSeq _ _ _ h
      · intro r
        by_cases hr : r.ID = (applyEventUpdates tp up event req).ID
        · rw [if_pos hr]
          exact hr.symm
        · rw [if_neg hr]
      · intro r hrid h1 h2
        by_cases hr : r.ID = (applyEventUpdates tp up event req).ID
        · rw [if_pos hr]
          have he : event.ID = id := (k1.symm.trans hr.symm).trans hrid
          have hc := h.2 event hmem he
          exact ⟨k3.trans hc.1, k2.trans hc.2⟩
        · rw [if_neg hr]
          exact ⟨h1, h2⟩

theorem MarkAttendance_events (up : Char → Char) (s : Store) (now : Time)
    (req : AttendanceRequest) (markedBy markedByRole : String) :
    (MarkAttendance up s now req markedBy markedByRole).1.events = s.events := by
  rcases MarkAttendance_cases up s now req markedBy markedByRole with
    ⟨e, he⟩ | ⟨event, student, _, _, _, _, _, heq⟩
  · rw [he]
  · rw [heq]
    cases hnew : (findOrInitAttendance s req (resolveStudentID req.StudentID markedBy) markedBy
        markedByRole now).2 with
    | true =>
      obtain ⟨id, _, hst, _⟩ := persistAndCount_new s
        (applyAction req (findOrInitAttendance s req (resolveStudentID req.StudentID markedBy)
          markedBy markedByRole now).1 now event student markedByRole).1
        now student (resolveStudentID req.StudentID markedBy) req.EventID
      rw [hst]
    | false =>
      obtain ⟨hst, _⟩ := persistAndCount_old s
        (applyAction req (findOrInitAttendance s req (resolveStudentID req.StudentID markedBy)
          markedBy markedByRole now).1 now event student markedByRole).1
        now student (resolveStudentID req.StudentID markedBy) req.EventID
      rw [hst]

theorem stepQR_events (enc : String → Option String) (s : Store) (c : Time × QRCall) :
    (stepQR enc s c).events = s.events := by
  obtain ⟨now, call⟩ := c
  cases call with
  | activate eventID courses yearLevel sectionArg =>
    simp only [stepQR, updateStudentQRCodesForEvent]
    cases firstRow Event.ID (fun e => decide (e.ID = eventID)) s.events <;> rfl
  | revert eventID => rfl

theorem stepLater_cancelled (tp : TimeParsing) (up : Char → Char)
    (enc : String → Option String) (id : Nat) (s : Store) (c : Time × LaterCall)
    (h : Cancelled id s) : Cancelled id (stepLater tp up enc s c) := by
  obtain ⟨now, call⟩ := c
  cases call with
  | sweep => exact sweep_cancelled enc now id s h
  | update eventID req updatedBy => exact UpdateEvent_cancelled tp up s now eventID req updatedBy id h
  | mark req markedBy markedByRole =>
    exact Cancelled_of_events id s _ (MarkAttendance_events up s now req markedBy markedByRole) h
  | qr call => exact Cancelled_of_events id s _ (stepQR_events enc s (now, call)) h

theorem runLater_cancelled (tp : TimeParsing) (up : Char → Char)
    (enc : String → Option String) (id : Nat) (calls : List (Time × LaterCall)) :
    ∀ s : Store, Cancelled id s → Cancelled id (runLater tp up enc s calls) := by
  induction calls with
  | nil =>
    intro s h
    exact h
  | cons c calls ih =>
    intro s h
    exact ih _ (stepLater_cancelled tp up enc id s c h)

theorem DeleteEvent_cancelled (s : Store) (now : Time) (eventID : Nat) (deletedBy : String)
    (h : (DeleteEvent s now eventID deletedBy).2.1 = none) :
    Cancelled eventID (DeleteEvent s now eventID deletedBy).1 ∧
    (DeleteEvent s now eventID deletedBy).1.users = s.users ∧
    (DeleteEvent s now eventID deletedBy).1.attendances = s.attendances := by
  cases hfind : firstRow Event.ID (fun e => decide (e.ID = eventID)) s.events with
  | none =>
    simp [DeleteEvent, hfind] at h
  | some event =>
    have hm := firstRow_mem Event.ID _ s.events event hfind
    have hid : event.ID = eventID := by simpa using hm.2
    cases hden : (if event.CreatedBy ≠ deletedBy then
        match firstRow User.ID (fun u => decide (u.StudentID = deletedBy)) s.users with
        | none => some DeleteErr.unauthorized
        | some user =>
          if user.Role ≠ "superadmin" ∧ user.Role ≠ "admin" then
            some DeleteErr.unauthorizedDelete
          else none
      else none) with
    | some err =>
      simp only [DeleteEvent, hfind, hden] at h
      exact absurd h (by simp)
    | none =>
      simp only [DeleteEvent, hfind, hden]
      refine ⟨⟨?_, ?_⟩, trivial, trivial⟩
      · refine ⟨_, List.mem_map.mpr ⟨event, hm.1, rfl⟩, ?_⟩
        simp [hid]
      · intro r hr hrid
        obtain ⟨r0, _, rfl⟩ := List.mem_map.mp hr
        by_cases h0 : r0.ID = event.ID
        · simp [h0]
        · simp only [h0, if_false] at hrid
          exact absurd (hrid.trans hid.symm) h0

theorem loadEventByID_cancelled (s : Store) (id : Nat) (h : Cancelled id s) :
    loadEventByID s id = Except.error Err.eventNotActive := by
  unfold loadEventByID
  cases hfind : firstRow Event.ID (fun e => decide (e.ID = id)) s.events with
  | none =>
    obtain ⟨⟨e, he, heid⟩, _⟩ := h
    have := (firstRow_eq_none Event.ID _ s.events).mp hfind e he
    simp [heid] at this
  | some event =>
    have hm := firstRow_mem Event.ID _ s.events event hfind
    have hid : event.ID = id := by simpa using hm.2
    simp [(h.2 event hm.1 hid).1]

theorem validateAction_error (action : String) (e : Err)
    (h : validateAction action = some e) : e = Err.invalidAction := by
  unfold validateAction at h
  split_ifs at h
  simp only [Option.some.injEq] at h
  exact h.symm

theorem MarkAttendance_cancelled (up : Char → Char) (s : Store) (id : Nat)
    (h : Cancelled id s) (t : Time) (req : AttendanceRequest) (markedBy markedByRole : String)
    (hreq : req.EventID = id) :
    (∃ e, MarkAttendance up s t req markedBy markedByRole = (s, Except.error e)) ∧
    (validateAction req.Action = none →
      MarkAttendance up s t req markedBy markedByRole =
        (s, Except.error Err.eventNotActive)) ∧
    (validateAction req.Action ≠ none →
      MarkAttendance up s t req markedBy markedByRole =
        (s, Except.error Err.invalidAction)) := by
  have hload := loadEventByID_cancelled s id h
  rw [← hreq] at hload
  cases hv : validateAction req.Action with
  | some e =>
    have he : e = Err.invalidAction := validateAction_error req.Action e hv
    subst he
    have hm : MarkAttendance up s t req markedBy markedByRole =
        (s, Except.error Err.invalidAction) := by
      simp only [MarkAttendance, hv]
    exact ⟨⟨_, hm⟩, fun h => absurd h (by simp), fun _ => hm⟩
  | none =>
    have hm : MarkAttendance up s t req markedBy markedByRole =
        (s, Except.error Err.eventNotActive) := by
      simp only [MarkAttendance, hv, hload]
    exact ⟨⟨_, hm⟩, fun _ => hm, fun h => absurd rfl h⟩

/-- C22: cancelled is terminal. When `DeleteEvent` succeeds for an event, the event is stored
with `is_active = false` and status "cancelled", and this stays so after any sequence of later
Sweeper ticks, `UpdateEvent` calls, `MarkAttendance` calls and QR rotation calls at any clock
readings. After any such sequence, every `MarkAttendance` call for the event fails and leaves
the store, and so every attendance record, as it was; when the action of the call is valid
("check_in" or "check_out") the error is "event is not active", and otherwise it is the
invalid-action error. -/
theorem cancelled_is_terminal (tp : TimeParsing) (up : Char → Char)
    (enc : String → Option String) (s : Store) (now : Time) (eventID : Nat)
    (deletedBy : String) (hok : (DeleteEvent s now eventID deletedBy).2.1 = none)
    (calls : List (Time × LaterCall)) :
    Cancelled eventID (DeleteEvent s now eventID deletedBy).1 ∧
    Cancelled eventID (runLater tp up enc (DeleteEvent s now eventID deletedBy).1 calls) ∧
    (∀ (t : Time) (req : AttendanceRequest) (markedBy markedByRole : String),
      req.EventID = eventID →
      (∃ e, MarkAttendance up (runLater tp up enc (DeleteEvent s now eventID deletedBy).1 calls)
          t req markedBy markedByRole =
        (runLater tp up enc (DeleteEvent s now eventID deletedBy).1 calls, Except.error e)) ∧
      (validateAction req.Action = none →
        MarkAttendance up (runLater tp up enc (DeleteEvent s now eventID deletedBy).1 calls)
          t req markedBy markedByRole =
        (runLater tp up enc (DeleteEvent s now eventID deletedBy).1 calls,
          Except.error Err.eventNotActive)) ∧
      (validateAction req.Action ≠ none →
        MarkAttendance up (runLater tp up enc (DeleteEvent s now eventID deletedBy).1 calls)
          t req markedBy markedByRole =
        (runLater tp up enc (DeleteEvent s now eventID deletedBy).1 calls,
          Except.error Err.invalidAction))) := by
  have h0 := (DeleteEvent_cancelled s now eventID deletedBy hok).1
  have h1 := runLater_cancelled tp up enc eventID calls _ h0
  refine ⟨h0, h1, ?_⟩
  intro t req markedBy markedByRole hreq
  exact MarkAttendance_cancelled up _ eventID h1 t req markedBy markedByRole hreq

theorem cancelled_is_terminal_witness :
    MarkAttendance asciiUpper
        (runLater sampleTimeParsing asciiUpper sampleEncode
          (DeleteEvent sampleStore (8 * Hour) 1 "F-1").1 sampleLaterCalls)
        (10 * Hour) sampleCheckInRequest "S-1" "student" =
      (runLater sampleTimeParsing asciiUpper sampleEncode
          (DeleteEvent sampleStore (8 * Hour) 1 "F-1").1 sampleLaterCalls,
        Except.error Err.eventNotActive) :=
  ((cancelled_is_terminal sampleTimeParsing asciiUpper sampleEncode sampleStore (8 * Hour) 1
    "F-1" (by decide) sampleLaterCalls).2.2 (10 * Hour) sampleCheckInRequest "S-1" "student"
    rfl).2.1 (by decide)

/-- C22, as stated, fails: a call for a cancelled event whose action is not one of the two
literals fails with the action error, not with "event is not active", because
`validateAction` runs before `loadEventByID`; the store is still left as it was. -/
theorem cancelled_event_invalid_action :
    (DeleteEvent sampleStore (8 * Hour) 1 "F-1").2.1 = none ∧
    MarkAttendance asciiUpper sampleCancelledStore (9 * Hour)
        { sampleCheckInRequest with Action := "scan" } "S-1" "student" =
      (sampleCancelledStore, Except.error Err.invalidAction) ∧
    Err.invalidAction.Error ≠ Err.eventNotActive.Error ∧
    Err.eventNotActive.Error = "event is not active" :=
  ⟨by decide, rfl, by decide, rfl⟩

/-! ## Attendance statistics -/

theorem Query_Count_contradiction (q : Query) (a b : String)
    (hab : a ≠ b) (ha : (fun r : Attendance => decide (r.Status = a)) ∈ q.conds)
    (hb : (fun r : Attendance => decide (r.Status = b)) ∈ q.conds) (rows : List Attendance) :
    Query.Count q rows = 0 := by
  unfold Query.Count
  rw [List.length_eq_zero, List.filter_eq_nil_iff]
  intro r _ hall
  rw [List.all_eq_true] at hall
  have h1 := hall _ ha
  have h2 := hall _ hb
  simp only [decide_eq_true_eq] at h1 h2
  exact hab (h1.symm.trans h2)

theorem Query_Count_filter (q : Query) (p : Attendance → Bool)
    (rows : List Attendance) (h : ∀ r, q.conds.all (fun cond => cond r) = p r) :
    Query.Count q rows = (rows.filter p).length := by
  unfold Query.Count
  congr 1
  apply List.filter_congr
  intro r _
  exact h r

theorem GetAttendanceStats_rate (s : Store) (studentID : String) (eventID : Option Nat) :
    (GetAttendanceStats s studentID eventID).AttendanceRate =
      if (GetAttendanceStats s studentID eventID).TotalEvents > 0 then
        (((GetAttendanceStats s studentID eventID).PresentCount +
          (GetAttendanceStats s studentID eventID).LateCount +
          (GetAttendanceStats s studentID eventID).ExcusedCount : Nat) : Rat) /
          ((GetAttendanceStats s studentID eventID).TotalEvents : Rat) * 100
      else 0 := rfl

theorem statsBySpec_rate (s : Store) (studentID : String) (eventID : Option Nat) :
    (statsBySpec s studentID eventID).AttendanceRate =
      if (statsBySpec s studentID eventID).TotalEvents > 0 then
        (((statsBySpec s studentID eventID).PresentCount +
          (statsBySpec s studentID eventID).LateCount +
          (statsBySpec s studentID eventID).ExcusedCount : Nat) : Rat) /
          ((statsBySpec s studentID eventID).TotalEvents : Rat) * 100
      else 0 := rfl

theorem GetAttendanceStats_counts (s : Store) (studentID : String) (eventID : Option Nat) :
    (GetAttendanceStats s studentID eventID).TotalEvents =
      (statsBySpec s studentID eventID).TotalEvents ∧
    (GetAttendanceStats s studentID eventID).PresentCount =
      (statsBySpec s studentID eventID).PresentCount ∧
    (GetAttendanceStats s studentID eventID).AbsentCount = 0 ∧
    (GetAttendanceStats s studentID eventID).LateCount = 0 ∧
    (GetAttendanceStats s studentID eventID).ExcusedCount = 0 := by
  refine ⟨?_, ?_, ?_, ?_, ?_⟩
  · simp only [GetAttendanceStats, statsBySpec]
    apply Query_Count_filter
    intro r
    cases eventID <;> by_cases h : studentID = "" <;> simp [Query.Where, h]
  · simp only [GetAttendanceStats, statsBySpec]
    rw [List.filter_filter]
    apply Query_Count_filter
    intro r
    cases eventID <;> by_cases h : studentID = "" <;>
      simp [Query.Where, h, Bool.and_comm, Bool.and_assoc]
  · exact Query_Count_contradiction _ "present" "absent" (by decide)
      (by simp [Query.Where]) (by simp [Query.Where]) s.attendances
  · exact Query_Count_contradiction _ "present" "late" (by decide)
      (by simp [Query.Where]) (by simp [Query.Where]) s.attendances
  · exact Query_Count_contradiction _ "present" "excused" (by decide)
      (by simp [Query.Where]) (by simp [Query.Where]) s.attendances

/-- C23 (divergence): `GetAttendanceStats` reuses one query value for its five counts, and the
status conditions pile up on it. For every ledger and every filter the total and the present
count are those of the matching rows, but the absent, late and excused counts are 0 (their
queries ask for a row with two different statuses). For the ledger of 10 rows with 6 present,
2 late, 1 absent and 1 excused the function returns present 6, absent 0, late 0, excused 0
and rate 60, where the per-status statistics are 6, 1, 2, 1 and rate 90. -/
theorem stats_conditions_accumulate :
    (∀ (s : Store) (studentID : String) (eventID : Option Nat),
      (GetAttendanceStats s studentID eventID).TotalEvents =
        (statsBySpec s studentID eventID).TotalEvents ∧
      (GetAttendanceStats s studentID eventID).PresentCount =
        (statsBySpec s studentID eventID).PresentCount ∧
      (GetAttendanceStats s studentID eventID).AbsentCount = 0 ∧
      (GetAttendanceStats s studentID eventID).LateCount = 0 ∧
      (GetAttendanceStats s studentID eventID).ExcusedCount = 0) ∧
    ((GetAttendanceStats sampleLedger "" none).TotalEvents = 10 ∧
      (GetAttendanceStats sampleLedger "" none).PresentCount = 6 ∧
      (GetAttendanceStats sampleLedger "" none).AbsentCount = 0 ∧
      (GetAttendanceStats sampleLedger "" none).LateCount = 0 ∧
      (GetAttendanceStats sampleLedger "" none).ExcusedCount = 0 ∧
      (GetAttendanceStats sampleLedger "" none).AttendanceRate = 60) ∧
    ((statsBySpec sampleLedger "" none).TotalEvents = 10 ∧
      (statsBySpec sampleLedger "" none).PresentCount = 6 ∧
      (statsBySpec sampleLedger "" none).AbsentCount = 1 ∧
      (statsBySpec sampleLedger "" none).LateCount = 2 ∧
      (statsBySpec sampleLedger "" none).ExcusedCount = 1 ∧
      (statsBySpec sampleLedger "" none).AttendanceRate = 90) := by
  have g1 : (GetAttendanceStats sampleLedger "" none).TotalEvents = 10 := by decide
  have g2 : (GetAttendanceStats sampleLedger "" none).PresentCount = 6 := by decide
  have g3 : (GetAttendanceStats sampleLedger "" none).AbsentCount = 0 := by decide
  have g4 : (GetAttendanceStats sampleLedger "" none).LateCount = 0 := by decide
  have g5 : (GetAttendanceStats sampleLedger "" none).ExcusedCount = 0 := by decide
  have k1 : (statsBySpec sampleLedger "" none).TotalEvents = 10 := by decide
  have k2 : (statsBySpec sampleLedger "" none).PresentCount = 6 := by decide
  have k3 : (statsBySpec sampleLedger "" none).AbsentCount = 1 := by decide
  have k4 : (statsBySpec sampleLedger "" none).LateCount = 2 := by decide
  have k5 : (statsBySpec sampleLedger "" none).ExcusedCount = 1 := by decide
  refine ⟨GetAttendanceStats_counts, ⟨g1, g2, g3, g4, g5, ?_⟩, ⟨k1, k2, k3, k4, k5, ?_⟩⟩
  · rw [GetAttendanceStats_rate, g1, g2, g4, g5]
    norm_num
  · rw [statsBySpec_rate, k1, k2, k4, k5]
    norm_num

/-! ## Start before end -/

theorem parseEventDateTimes_ordered (tp : EventTimeParsing) (req : EventRequest) :
    (∀ eventDate startDateTime endDateTime,
      parseEventDateTimes tp req = Except.ok (eventDate, startDateTime, endDateTime) →
        startDateTime < endDateTime) ∧
    (∀ eventDate startDateTime endDateTime,
      tp.parseDate req.EventDate = some eventDate →
      parseEventClock tp eventDate req.StartTime = some startDateTime →
      parseEventClock tp eventDate req.EndTime = some endDateTime →
      endDateTime ≤ startDateTime →
        parseEventDateTimes tp req = Except.error EventTimeErr.endNotAfterStart) := by
  constructor
  · intro eventDate startDateTime endDateTime h
    unfold parseEventDateTimes at h
    cases hd : tp.parseDate req.EventDate with
    | none => simp [hd] at h
    | some d =>
      cases hs : parseEventClock tp d req.StartTime with
      | none => simp [hd, hs] at h
      | some st =>
        cases he : parseEventClock tp d req.EndTime with
        | none => simp [hd, hs, he] at h
        | some en =>
          simp only [hd, hs, he] at h
          by_cases hc : en.Before st ∨ en = st
          · rw [if_pos hc] at h
            exact Except.noConfusion h
          · rw [if_neg hc] at h
            have h2 : (d, st, en) = (eventDate, startDateTime, endDateTime) := by
              injection h
            simp only [Prod.mk.injEq] at h2
            obtain ⟨_, rfl, rfl⟩ := h2
            simp only [Time.Before, not_or, decide_eq_true_eq] at hc
            rcases lt_trichotomy st en with hlt | heq | hgt
            · exact hlt
            · exact absurd heq.symm hc.2
            · exact absurd hgt hc.1
  · intro eventDate startDateTime endDateTime hd hs he hle
    unfold parseEventDateTimes
    simp only [hd, hs, he]
    rw [if_pos]
    simp only [Time.Before, decide_eq_true_eq]
    exact lt_or_eq_of_le hle

/-- C24 (divergence): `UpdateEvent` stores an event whose end is before its start. On the
stored event 1, held from 09:00 to 11:00, the update by its creator with `end_time` "08:00"
and no other field succeeds and stores `end_time` 08:00 with `start_time` 09:00, whatever the
date parser does; `applyTimeUpdates` has no check of the order, while `parseEventDateTimes`,
on the create path, refuses any request whose end is not after its start. -/
theorem update_event_breaks_time_order :
    ∀ parseDate : String → Option Time,
      sampleDatedEvent.StartTime < sampleDatedEvent.EndTime ∧
      (∃ event,
        (UpdateEvent (utcTimeParsing parseDate) asciiUpper sampleDatedStore (12 * Hour) 1
          sampleEarlyEndRequest "F-1").2.1 = Except.ok event ∧
        event.StartTime = 9 * Hour ∧ event.EndTime = 8 * Hour) ∧
      (∃ row ∈ (UpdateEvent (utcTimeParsing parseDate) asciiUpper sampleDatedStore (12 * Hour) 1
          sampleEarlyEndRequest "F-1").1.events,
        row.ID = 1 ∧ row.StartTime = 9 * Hour ∧ row.EndTime = 8 * Hour) ∧
      (8 * Hour : Time) < 9 * Hour := by
  intro parseDate
  exact ⟨by decide, ⟨_, rfl, rfl, rfl⟩, ⟨_, List.mem_cons_self _ _, rfl, rfl, rfl⟩, by decide⟩

/-! ## Tagged courses of a request -/

theorem ToUpper_eq_empty (up : Char → Char) (s : String) : ToUpper up s = "" ↔ s = "" := by
  cases s with
  | mk d =>
    cases d with
    | nil => simp [ToUpper]
    | cons c cs =>
      constructor
      · intro h
        have := congrArg String.data h
        simp [ToUpper] at this
      · intro h
        have := congrArg String.data h
        simp at this

theorem cleaned_courses (up : Char → Char) (l : List String) :
    (l.map (normalize up)).filter (fun c => decide (c ≠ "")) =
      (l.filter (fun c => decide (TrimSpace c ≠ ""))).map
        (fun c => ToUpper up (TrimSpace c)) := by
  induction l with
  | nil => rfl
  | cons c l ih =>
    simp only [List.map_cons, List.filter_cons]
    by_cases h : TrimSpace c = ""
    · have h2 : normalize up c = "" := (ToUpper_eq_empty up _).mpr h
      simp only [h, h2, ne_eq, not_true_eq_false, decide_False, Bool.false_eq_true, if_false]
      exact ih
    · have h2 : normalize up c ≠ "" := fun hn => h ((ToUpper_eq_empty up _).mp hn)
      simp only [h, h2, ne_eq, not_false_eq_true, decide_True, if_true, List.map_cons]
      rw [← ih]
      rfl

theorem Join_intercalate_go (sep : String) (l : List String) :
    ∀ acc a : String, String.intercalate.go acc sep (a :: l) = acc ++ sep ++ Join (a :: l) sep := by
  induction l with
  | nil =>
    intro acc a
    simp [String.intercalate.go, Join]
  | cons b l ih =>
    intro acc a
    rw [String.intercalate.go, ih]
    simp [Join, String.append_assoc]

theorem Join_eq_intercalate (l : List String) (sep : String) :
    Join l sep = sep.intercalate l := by
  cases l with
  | nil => rfl
  | cons a l =>
    cases l with
    | nil => simp [Join, String.intercalate, String.intercalate.go]
    | cons b l =>
      rw [String.intercalate, Join_intercalate_go]
      simp [Join, String.append_assoc]

/-- C25: for a request whose `tagged_courses` list is not empty, `setTaggedCoursesFromRequest`
stores as `TaggedCoursesCSV` the comma-join of the entries that are not empty after
`TrimSpace`, each trimmed and upper-cased, in request order and with repetitions kept (so the
CSV is empty when every entry is dropped), sets `TaggedCourses` to that list and changes no
other field; for a request with an empty list the event is returned unchanged. -/
theorem tagged_courses_from_request (up : Char → Char) (event : Event) (req : EventRequest) :
    (req.TaggedCourses ≠ [] →
      setTaggedCoursesFromRequest up event req =
        { event with
          TaggedCoursesCSV :=
            ",".intercalate ((req.TaggedCourses.filter (fun c => decide (TrimSpace c ≠ ""))).map
              (fun c => ToUpper up (TrimSpace c))),
          TaggedCourses :=
            (req.TaggedCourses.filter (fun c => decide (TrimSpace c ≠ ""))).map
              (fun c => ToUpper up (TrimSpace c)) } ∧
      ((∀ c ∈ req.TaggedCourses, TrimSpace c = "") →
        (setTaggedCoursesFromRequest up event req).TaggedCoursesCSV = "")) ∧
    (req.TaggedCourses = [] → setTaggedCoursesFromRequest up event req = event) := by
  constructor
  · intro hne
    have hlen : ¬ req.TaggedCourses.length = 0 := by
      intro h
      exact hne (List.length_eq_zero.mp h)
    have hset : setTaggedCoursesFromRequest up event req =
        { event with
          TaggedCoursesCSV :=
            ",".intercalate ((req.TaggedCourses.filter (fun c => decide (TrimSpace c ≠ ""))).map
              (fun c => ToUpper up (TrimSpace c))),
          TaggedCourses :=
            (req.TaggedCourses.filter (fun c => decide (TrimSpace c ≠ ""))).map
              (fun c => ToUpper up (TrimSpace c)) } := by
      unfold setTaggedCoursesFromRequest
      rw [if_neg hlen]
      simp only [cleaned_courses, Join_eq_intercalate]
      split_ifs with h
      · rfl
      · have h0 : (req.TaggedCourses.filter (fun c => decide (TrimSpace c ≠ ""))).map
            (fun c => ToUpper up (TrimSpace c)) = [] := by
          apply List.length_eq_zero.mp
          omega
        rw [h0]
        rfl
    refine ⟨hset, ?_⟩
    intro hall
    rw [hset]
    have h0 : req.TaggedCourses.filter (fun c => decide (TrimSpace c ≠ "")) = [] := by
      rw [List.filter_eq_nil_iff]
      intro c hc
      simp [hall c hc]
    show ",".intercalate _ = ""
    rw [h0]
    rfl
  · intro h
    unfold setTaggedCoursesFromRequest
    rw [if_pos (by rw [h]; rfl)]

theorem tagged_courses_from_request_witness :
    setTaggedCoursesFromRequest asciiUpper sampleEvent
        { zeroEventRequest with TaggedCourses := [" cs ", "  ", "IT", "cs"] } =
      { sampleEvent with TaggedCoursesCSV := "CS,IT,CS", TaggedCourses := ["CS", "IT", "CS"] } :=
  ((tagged_courses_from_request asciiUpper sampleEvent
    { zeroEventRequest with TaggedCourses := [" cs ", "  ", "IT", "cs"] }).1
    (by decide)).1.trans (by decide)

/-! ## The allowed flag against the evaluator -/

/-- C26 (divergence): the `Allowed` flag of the event listing is not the decision of
`enforceEventCourseAccess`. For the active event tagged "CS,IT" and restricted to year level
"1", the third-year student of course "cs" gets `Allowed = true` from
`populateTaggedCoursesAndAllowed`, and the evaluator refuses the same student with
`ErrEventAccessDenied`; for the active event with primary course "EE" and no tags the flag is
again `true` and the evaluator refuses; for an untagged event without restriction a student
without a course gets `true` and the evaluator returns the course-not-set error. -/
theorem allowed_flag_differs_from_gate :
    (sampleFirstYearEvent.IsActive = true ∧ sampleStudent.Role = "student" ∧
      (populateTaggedCoursesAndAllowed asciiUpper [sampleFirstYearEvent] sampleStudent).map
        Event.Allowed = [true] ∧
      isUserAllowedForEvent asciiUpper
        { sampleFirstYearEvent with
          TaggedCourses := parseTaggedCoursesCSV asciiUpper sampleFirstYearEvent.TaggedCoursesCSV }
        sampleStudent = true ∧
      enforceEventCourseAccess asciiUpper sampleFirstYearEvent sampleStudent "student" =
        some ErrEventAccessDenied) ∧
    (samplePrimaryEvent.IsActive = true ∧
      (populateTaggedCoursesAndAllowed asciiUpper [samplePrimaryEvent] sampleStudent).map
        Event.Allowed = [true] ∧
      enforceEventCourseAccess asciiUpper samplePrimaryEvent sampleStudent "student" =
        some ErrEventAccessDenied) ∧
    (sampleEvent.IsActive = true ∧
      (populateTaggedCoursesAndAllowed asciiUpper [sampleEvent]
        { sampleStudent with Course := "" }).map Event.Allowed = [true] ∧
      enforceEventCourseAccess asciiUpper sampleEvent { sampleStudent with Course := "" }
        "student" = some Err.courseNotSet) := by
  refine ⟨⟨by decide, by decide, by decide, by decide, by decide⟩,
    ⟨by decide, by decide, by decide⟩, ⟨by decide, by decide, by decide⟩⟩

/-! ## Sanitizing -/

theorem replaceRunes_mem (old : List Char) (s : List Char) :
    ∀ (skip : Nat) (c : Char), c ∈ replaceRunes old [] skip s → c ∈ s := by
  induction s with
  | nil =>
    intro skip c h
    cases skip <;> simp [replaceRunes] at h
  | cons a s ih =>
    intro skip c h
    cases skip with
    | succ k =>
      simp only [replaceRunes] at h
      exact List.mem_cons_of_mem _ (ih k c h)
    | zero =>
      simp only [replaceRunes] at h
      split_ifs at h
      · simp only [List.nil_append] at h
        exact List.mem_cons_of_mem _ (ih _ c h)
      · rcases List.mem_cons.mp h with rfl | h
        · exact List.mem_cons_self _ _
        · exact List.mem_cons_of_mem _ (ih 0 c h)

theorem replaceRunes_single (q : Char) (s : List Char) :
    q ∉ replaceRunes [q] [] 0 s := by
  induction s with
  | nil => simp [replaceRunes]
  | cons a s ih =>
    simp only [replaceRunes]
    split_ifs with h
    · simpa using ih
    · intro hm
      rcases List.mem_cons.mp hm with rfl | hm
      · simp [List.isPrefixOf] at h
      · exact ih hm

theorem collapseHyphens_mem (s : List Char) :
    ∀ c : Char, c ∈ collapseHyphens s → c ∈ s := by
  induction s with
  | nil =>
    intro c h
    simp [collapseHyphens] at h
  | cons a s ih =>
    intro c h
    simp only [collapseHyphens] at h
    split_ifs at h
    · exact List.mem_cons_of_mem _ (ih c h)
    · rcases List.mem_cons.mp h with rfl | h
      · exact List.mem_cons_self _ _
      · exact List.mem_cons_of_mem _ (ih c h)

theorem TrimSpace_mem (s : String) (c : Char) (h : c ∈ (TrimSpace s).data) : c ∈ s.data := by
  simp only [TrimSpace, List.mem_reverse] at h
  exact (List.dropWhile_sublist _).subset ((List.dropWhile_sublist _).subset h |> List.mem_reverse.mp)

theorem ReplaceAll_mem (s old : String) (c : Char) (h : c ∈ (ReplaceAll s old "").data) :
    c ∈ s.data :=
  replaceRunes_mem old.data s.data 0 c h

theorem removeKeyword_free (low : Char → Char) (q : Char) (hlow : ∀ c, low c = q → c = q)
    (upper input keyword : String) (h : q ∉ input.data) :
    q ∉ (removeKeyword low upper input keyword).data := by
  unfold removeKeyword
  split_ifs
  · intro hm
    have h1 := ReplaceAll_mem _ _ q hm
    simp only [ToLower, List.mem_map] at h1
    obtain ⟨c, hc, hcq⟩ := h1
    have := hlow c hcq
    subst this
    exact h (ReplaceAll_mem _ _ c hc)
  · exact h

theorem removeKeywords_free (low : Char → Char) (q : Char) (hlow : ∀ c, low c = q → c = q)
    (upper : String) (keywords : List String) :
    ∀ input : String, q ∉ input.data →
      q ∉ (keywords.foldl (removeKeyword low upper) input).data := by
  induction keywords with
  | nil =>
    intro input h
    exact h
  | cons k ks ih =>
    intro input h
    exact ih _ (removeKeyword_free low q hlow upper input k h)

theorem sanitize_strips_quotes (up low : Char → Char) (input : String) (q : Char)
    (hq : q = Char.ofNat 39 ∨ q = Char.ofNat 34 ∨ q = ';')
    (hlow : ∀ c, low c = q → c = q) :
    q ∉ (SanitizeString up low input).data := by
  unfold SanitizeString
  intro hm
  have h9 := collapseHyphens_mem _ q hm
  revert h9
  apply removeKeywords_free low q hlow
  intro h8
  have h7 := ReplaceAll_mem _ _ q h8
  have h6 := ReplaceAll_mem _ _ q h7
  have h5 := ReplaceAll_mem _ _ q h6
  rcases hq with rfl | rfl | rfl
  · have h4 := ReplaceAll_mem _ _ _ h5
    have h3 := ReplaceAll_mem _ _ _ h4
    exact replaceRunes_single _ _ h3
  · have h4 := ReplaceAll_mem _ _ _ h5
    exact replaceRunes_single _ _ h4
  · exact replaceRunes_single _ _ h5

/-- C27 (divergence): the output of `SanitizeString` can contain an SQL keyword. The input
"SELUNIONECT" contains "UNION"; removing it joins "SEL" and "ECT", and "SELECT" is not
removed afterwards, because the test of each keyword looks at the upper-cased text computed
before the loop: the output is "select". The input "SESELSELECTECTLECT", the keyword nested
twice in itself, also gives "select": each keyword is removed in two passes only. The other
half of the property holds (`sanitize_strips_quotes`): no output contains a single quote, a
double quote or a semicolon. -/
theorem sanitize_leaves_keyword :
    SanitizeString asciiUpper asciiLower "SELUNIONECT" = "select" ∧
    SanitizeString asciiUpper asciiLower "SESELSELECTECTLECT" = "select" ∧
    containsKeyword asciiUpper "select" "SELECT" = true ∧
    "SELECT" ∈ sqlKeywords := by
  refine ⟨by decide, by decide, by decide, by decide⟩

/-! ## Password rules -/

theorem ValidatePassword_accepts_iff (password : String) :
    ValidatePassword password = (true, "") ↔
      8 ≤ password.utf8ByteSize ∧ password.utf8ByteSize ≤ 128 ∧
      (∃ c ∈ password.data, 65 ≤ c.toNat ∧ c.toNat ≤ 90) ∧
      (∃ c ∈ password.data, 97 ≤ c.toNat ∧ c.toNat ≤ 122) ∧
      (∃ c ∈ password.data, 48 ≤ c.toNat ∧ c.toNat ≤ 57) ∧
      (∃ c ∈ password.data, c.toNat ∈ specialCharacters) := by
  unfold ValidatePassword
  by_cases h1 : password.utf8ByteSize < 8
  · rw [if_pos h1]
    constructor
    · intro h
      simp at h
    · rintro ⟨h, _⟩
      omega
  · rw [if_neg h1]
    by_cases h2 : password.utf8ByteSize > 128
    · rw [if_pos h2]
      constructor
      · intro h
        simp at h
      · rintro ⟨_, h, _⟩
        omega
    · rw [if_neg h2]
      have hlen : 8 ≤ password.utf8ByteSize ∧ password.utf8ByteSize ≤ 128 := by
        constructor <;> omega
      have key : (8 ≤ password.utf8ByteSize ∧ password.utf8ByteSize ≤ 128 ∧
          (∃ c ∈ password.data, 65 ≤ c.toNat ∧ c.toNat ≤ 90) ∧
          (∃ c ∈ password.data, 97 ≤ c.toNat ∧ c.toNat ≤ 122) ∧
          (∃ c ∈ password.data, 48 ≤ c.toNat ∧ c.toNat ≤ 57) ∧
          (∃ c ∈ password.data, c.toNat ∈ specialCharacters)) ↔
          (password.data.any (fun c => decide (65 ≤ c.toNat) && decide (c.toNat ≤ 90)) = true ∧
            password.data.any (fun c => decide (97 ≤ c.toNat) && decide (c.toNat ≤ 122)) = true ∧
            password.data.any (fun c => decide (48 ≤ c.toNat) && decide (c.toNat ≤ 57)) = true ∧
            password.data.any (fun c => decide (c.toNat ∈ specialCharacters)) = true) := by
        simp only [List.any_eq_true, Bool.and_eq_true, decide_eq_true_eq, hlen, true_and]
      rw [key]
      dsimp only
      generalize password.data.any (fun c => decide (65 ≤ c.toNat) && decide (c.toNat ≤ 90)) = bU
      generalize password.data.any (fun c => decide (97 ≤ c.toNat) && decide (c.toNat ≤ 122)) = bL
      generalize password.data.any (fun c => decide (48 ≤ c.toNat) && decide (c.toNat ≤ 57)) = bN
      generalize password.data.any (fun c => decide (c.toNat ∈ specialCharacters)) = bS
      cases bU <;> cases bL <;> cases bN <;> cases bS <;> simp

set_option maxRecDepth 20000 in
theorem samplePassword_124 :
    (samplePassword 124).length = 128 ∧ (samplePassword 124).utf8ByteSize = 128 ∧
    ValidatePassword (samplePassword 124) = (true, "") := by
  refine ⟨by decide, by decide, by decide⟩

set_option maxRecDepth 20000 in
theorem samplePassword_125 :
    ValidatePassword (samplePassword 125) =
      (false, "Password must be less than 128 characters") := by
  decide

/-- C28 (divergence): `ValidatePassword` accepts a password of exactly 128 characters. The
password "Aa1!" followed by 124 letters "a" has 128 characters (and 128 bytes), an uppercase
letter, a lowercase letter, a digit and a special character, and the function returns
`(true, "")`; the length test is `len(password) > 128`, while its own message reads "Password
must be less than 128 characters". With one more letter the password is refused with that
message, and for every password the function accepts exactly when the byte length is between
8 and 128 inclusive and the four character classes are present. -/
theorem password_of_128_accepted :
    (samplePassword 124).length = 128 ∧ (samplePassword 124).utf8ByteSize = 128 ∧
    ValidatePassword (samplePassword 124) = (true, "") ∧
    ValidatePassword (samplePassword 125) =
      (false, "Password must be less than 128 characters") ∧
    (∀ password : String,
      ValidatePassword password = (true, "") ↔
        8 ≤ password.utf8ByteSize ∧ password.utf8ByteSize ≤ 128 ∧
        (∃ c ∈ password.data, 65 ≤ c.toNat ∧ c.toNat ≤ 90) ∧
        (∃ c ∈ password.data, 97 ≤ c.toNat ∧ c.toNat ≤ 122) ∧
        (∃ c ∈ password.data, 48 ≤ c.toNat ∧ c.toNat ≤ 57) ∧
        (∃ c ∈ password.data, c.toNat ∈ specialCharacters)) := by
  exact ⟨samplePassword_124.1, samplePassword_124.2.1, samplePassword_124.2.2,
    samplePassword_125, ValidatePassword_accepts_iff⟩

/-! ## Activation followed by reversion -/

theorem revert_unbound_row (enc : String → Option String) (now : Time) (e : Nat) (u : User)
    (h1 : u.ActiveEventID = none) :
    (if decide (u.ActiveEventID = some e) = true then
        applyUpdates (reversionUpdates enc now) u u else u) = u := by
  rw [if_neg]
  simp [h1]

theorem roundtrip_row (enc : String → Option String) (t1 t2 : Time) (e : Nat) (u : User)
    (h1 : u.ActiveEventID = none) (h2 : u.OriginalQRCodeData = "")
    (h3 : u.OriginalQRType = "") (h4 : u.QRCodeData ≠ "") :
    (if decide ((applyUpdates (activationUpdates enc t1 e) u u).ActiveEventID = some e) = true
      then applyUpdates (reversionUpdates enc t2)
        (applyUpdates (activationUpdates enc t1 e) u u)
        (applyUpdates (activationUpdates enc t1 e) u u)
      else applyUpdates (activationUpdates enc t1 e) u u) =
    if (enc (eventQRContent e u.StudentID)).isSome = true then { u with QRGeneratedAt := t2 }
    else u := by
  rw [applyUpdates_activation, if_neg (not_not.mpr h1)]
  cases henc : enc (eventQRContent e u.StudentID) with
  | none =>
    simp only [Option.isSome_none, Bool.false_eq_true, if_false]
    exact revert_unbound_row enc t2 e u h1
  | some png =>
    simp only [Option.isSome_some, if_true, decide_True]
    rw [applyUpdates_reversion, if_pos h4]
    cases u
    simp only at h1 h2 h3
    subst h1 h2 h3
    rfl

/-- C29: activation followed by reversion is a round trip. On a store with unique student
ids, take a student row `u` with no active event, empty `original_*` fields and a non-empty
`qr_code_data`. After `updateStudentQRCodesForEvent` for the event `e` (at `t1`) followed by
`RevertStudentQRCodesForEvent` for `e` (at `t2`), the student still has exactly one row, and
that row equals `u` in every field except possibly `qr_generated_at`: `qr_code_data` and
`qr_type` are the values before activation, `active_event_id` is null and the `original_*`
fields are empty. When the event exists, the student is selected and the encoder succeeds,
the row in between is bound to `e` and the final row is `u` with `qr_generated_at = t2`. -/
theorem activation_reversion_roundtrip (enc : String → Option String) (t1 t2 : Time)
    (s : Store) (e : Nat) (courses : List String) (yearLevel sectionArg : String)
    (hids : (s.users.map User.StudentID).Nodup)
    (u : User) (hu : u ∈ s.users)
    (h1 : u.ActiveEventID = none) (h2 : u.OriginalQRCodeData = "")
    (h3 : u.OriginalQRType = "") (h4 : u.QRCodeData ≠ "") :
    (∃ r ∈ (RevertStudentQRCodesForEvent enc t2
        (updateStudentQRCodesForEvent enc t1 s e courses yearLevel sectionArg) e).1.users,
      r.StudentID = u.StudentID) ∧
    (∀ r ∈ (RevertStudentQRCodesForEvent enc t2
        (updateStudentQRCodesForEvent enc t1 s e courses yearLevel sectionArg) e).1.users,
      r.StudentID = u.StudentID →
        r = { u with QRGeneratedAt := r.QRGeneratedAt } ∧
        r.QRCodeData = u.QRCodeData ∧ r.QRType = u.QRType ∧ r.ActiveEventID = none ∧
        r.OriginalQRCodeData = "" ∧ r.OriginalQRType = "") ∧
    (∀ ev png,
      firstRow Event.ID (fun x => decide (x.ID = e)) s.events = some ev →
      u.Course ∈ courses → (yearLevel = "" ∨ u.YearLevel = yearLevel) →
      (sectionArg = "" ∨ u.Section = sectionArg) →
      enc (eventQRContent e u.StudentID) = some png →
        { u with
          OriginalQRCodeData := u.QRCodeData,
          OriginalQRType := u.QRType,
          QRCodeData := base64Prefix ++ png,
          QRType := eventQRType e,
          ActiveEventID := some e,
          QRGeneratedAt := t1 } ∈
          (updateStudentQRCodesForEvent enc t1 s e courses yearLevel sectionArg).users ∧
        { u with QRGeneratedAt := t2 } ∈
          (RevertStudentQRCodesForEvent enc t2
            (updateStudentQRCodesForEvent enc t1 s e courses yearLevel sectionArg) e).1.users) := by
  have hids1 := updateStudentQRCodesForEvent_ids enc t1 s e courses yearLevel sectionArg hids
  have hnd1 : ((updateStudentQRCodesForEvent enc t1 s e courses yearLevel
      sectionArg).users.map User.StudentID).Nodup := by
    rw [hids1]
    exact hids
  have hrev := RevertStudentQRCodesForEvent_rows enc t2
    (updateStudentQRCodesForEvent enc t1 s e courses yearLevel sectionArg) e hnd1
  -- the row of `u` after the two calls
  have hrow : ∀ v ∈ s.users, v.ActiveEventID = none → v.OriginalQRCodeData = "" →
      v.OriginalQRType = "" → v.QRCodeData ≠ "" →
      ∃ a ∈ (updateStudentQRCodesForEvent enc t1 s e courses yearLevel sectionArg).users,
        (a = v ∨ a = applyUpdates (activationUpdates enc t1 e) v v) ∧
        ((∃ ev, firstRow Event.ID (fun x => decide (x.ID = e)) s.events = some ev) →
          v.Course ∈ courses → (yearLevel = "" ∨ v.YearLevel = yearLevel) →
          (sectionArg = "" ∨ v.Section = sectionArg) →
          a = applyUpdates (activationUpdates enc t1 e) v v) := by
    intro v hv _ _ _ _
    cases hfind : firstRow Event.ID (fun x => decide (x.ID = e)) s.events with
    | none =>
      rw [updateStudentQRCodesForEvent_missing enc t1 s e courses yearLevel sectionArg hfind]
      refine ⟨v, hv, Or.inl rfl, ?_⟩
      rintro ⟨ev, hev⟩
      exact absurd hev (by simp)
    | some ev =>
      rw [updateStudentQRCodesForEvent_rows enc t1 s e courses yearLevel sectionArg ev hfind
        hids]
      by_cases hsel : (decide (v.Course ∈ courses) &&
              (decide (yearLevel = "") || decide (v.YearLevel = yearLevel)) &&
              (decide (sectionArg = "") || decide (v.Section = sectionArg))) = true
      · refine ⟨applyUpdates (activationUpdates enc t1 e) v v, ?_, Or.inr rfl, ?_⟩
        · refine List.mem_map.mpr ⟨v, hv, ?_⟩
          rw [if_pos hsel]
        · intro _ _ _ _
          rfl
      · refine ⟨v, ?_, Or.inl rfl, ?_⟩
        · refine List.mem_map.mpr ⟨v, hv, ?_⟩
          rw [if_neg hsel]
        · intro _ hc hy hsec
          exfalso
          apply hsel
          simp only [Bool.and_eq_true, Bool.or_eq_true, decide_eq_true_eq]
          exact ⟨⟨hc, hy⟩, hsec⟩
  have hact : ∀ png, enc (eventQRContent e u.StudentID) = some png →
      applyUpdates (activationUpdates enc t1 e) u u =
        { u with
          OriginalQRCodeData := u.QRCodeData,
          OriginalQRType := u.QRType,
          QRCodeData := base64Prefix ++ png,
          QRType := eventQRType e,
          ActiveEventID := some e,
          QRGeneratedAt := t1 } := by
    intro png henc
    rw [applyUpdates_activation, if_neg (not_not.mpr h1), henc]
  have hfinal : ∀ a ∈ (updateStudentQRCodesForEvent enc t1 s e courses yearLevel
      sectionArg).users,
      (if decide (a.ActiveEventID = some e) = true then
        applyUpdates (reversionUpdates enc t2) a a else a) ∈
      (RevertStudentQRCodesForEvent enc t2
        (updateStudentQRCodesForEvent enc t1 s e courses yearLevel sectionArg) e).1.users := by
    intro a ha
    rw [hrev]
    exact List.mem_map.mpr ⟨a, ha, rfl⟩
  have hnd2 : ((RevertStudentQRCodesForEvent enc t2
      (updateStudentQRCodesForEvent enc t1 s e courses yearLevel sectionArg) e).1.users.map
      User.StudentID).Nodup := by
    rw [RevertStudentQRCodesForEvent_ids enc t2 _ e hnd1]
    exact hnd1
  obtain ⟨a, ha, hcase, hsel⟩ := hrow u hu h1 h2 h3 h4
  have hr0 : ∃ r0 ∈ (RevertStudentQRCodesForEvent enc t2
      (updateStudentQRCodesForEvent enc t1 s e courses yearLevel sectionArg) e).1.users,
      r0 = u ∨ r0 = { u with QRGeneratedAt := t2 } := by
    refine ⟨_, hfinal a ha, ?_⟩
    rcases hcase with rfl | rfl
    · exact Or.inl (revert_unbound_row enc t2 e a h1)
    · rw [roundtrip_row enc t1 t2 e u h1 h2 h3 h4]
      split_ifs
      · exact Or.inr rfl
      · exact Or.inl rfl
  obtain ⟨r0, hr0mem, hr0⟩ := hr0
  have hr0id : r0.StudentID = u.StudentID := by
    rcases hr0 with rfl | rfl <;> rfl
  refine ⟨⟨r0, hr0mem, hr0id⟩, ?_, ?_⟩
  · intro r hr hrid
    have hrr : r = r0 :=
      List.inj_on_of_nodup_map hnd2 hr hr0mem (hrid.trans hr0id.symm)
    subst hrr
    rcases hr0 with rfl | rfl
    · exact ⟨rfl, rfl, rfl, h1, h2, h3⟩
    · exact ⟨rfl, rfl, rfl, h1, h2, h3⟩
  · intro ev png hfind hc hy hsec henc
    have ha2 := hsel ⟨ev, hfind⟩ hc hy hsec
    subst ha2
    constructor
    · rw [← hact png henc]
      exact ha
    · have h := hfinal _ ha
      rw [roundtrip_row enc t1 t2 e u h1 h2 h3 h4, henc] at h
      exact h

theorem activation_reversion_roundtrip_witness :
    { sampleBare with QRGeneratedAt := 12 * Hour } ∈
      (RevertStudentQRCodesForEvent sampleEncode (12 * Hour)
        (updateStudentQRCodesForEvent sampleEncode (8 * Hour) sampleQRStore 2 ["cs"] "" "")
        2).1.users :=
  ((activation_reversion_roundtrip sampleEncode (8 * Hour) (12 * Hour) sampleQRStore 2 ["cs"]
    "" "" (by decide) sampleBare (by decide) rfl rfl rfl (by decide)).2.2
    sampleTaggedEvent "png(event:2:student:S-1)" (by decide) (by decide) (Or.inl rfl)
    (Or.inl rfl) rfl).2

/-! ## Failure leaves the ledger alone -/

/-- C30: `MarkAttendance` is atomic on failure. Whenever a call returns an error, whatever the
request, the actor and the store, the store after the call is the store before it: the
attendance rows are the same list (none created, none modified) and the id sequence has not
moved. The validation errors (invalid action, missing or inactive event, missing student,
course-access denial) are returned before any row is looked up, and an error of the check-in
or check-out transition is returned before the row is persisted. -/
theorem mark_attendance_atomic (up : Char → Char) (s : Store) (now : Time)
    (req : AttendanceRequest) (markedBy markedByRole : String) (e : Err)
    (h : (MarkAttendance up s now req markedBy markedByRole).2 = Except.error e) :
    (MarkAttendance up s now req markedBy markedByRole).1 = s ∧
    (MarkAttendance up s now req markedBy markedByRole).1.attendances = s.attendances ∧
    (MarkAttendance up s now req markedBy markedByRole).1.attendanceSeq = s.attendanceSeq := by
  have hs := MarkAttendance_error_store up s now req markedBy markedByRole e h
  exact ⟨hs, by rw [hs], by rw [hs]⟩

theorem mark_attendance_atomic_witness :
    (MarkAttendance asciiUpper
        { sampleStore with attendances := [sampleCheckedIn] } (9 * Hour + 30 * Minute)
        sampleCheckInRequest "S-1" "student").1 =
      { sampleStore with attendances := [sampleCheckedIn] } :=
  (mark_attendance_atomic asciiUpper { sampleStore with attendances := [sampleCheckedIn] }
    (9 * Hour + 30 * Minute) sampleCheckInRequest "S-1" "student" Err.alreadyCheckedIn rfl).1

end Newset
